import Mathlib

/-!
# HFT TCP client: connection manager, send pipeline and reconnect supervisor

A shallow embedding of `src/src/hft_tcp_client.cpp` (class `hft::HFTTCPClient`,
declared in `src/inc/hft_tcp_client.h`).

* The object is a record `HFTTCPClient`; every member function is a pure function
  that takes the record and returns the new record (and the C++ return value).
* Results of system calls (`socket`, `inet_pton`, `::connect`, `select`,
  `getsockopt`, `send`) are inputs of the functions that make the calls.
* `uint64_t` counters are natural numbers reduced modulo `2^64` at every update.
* Stores to `connection_state_`, the system calls `socket`, `close`, `send`, the
  reconnect sleep and the calls of the registered handlers are recorded, in program
  order, in the field `trace`.
* Clock readings and received bytes are inputs; a frame is decoded from its bytes by a
  function that is a parameter, as the frame layout (`message.h`) is not among the sources.
-/

namespace hft

/-! ## Data model -/

/-- Connection state of the client: `enum class ConnectionState` of `hft_tcp_client.h`. -/
inductive ConnectionState where
  | DISCONNECTED
  | CONNECTING
  | CONNECTED
  | RECONNECTING
  | ERROR
  deriving DecidableEq, Repr

/-- Modelled from the spec: `message.h` is not among the sources. The type tag of a frame,
with the enumerators that `hft_tcp_client.cpp` names; `OTHER` stands for every other tag. -/
inductive MessageType where
  | ORDER_NEW
  | ORDER_CANCEL
  | ORDER_REPLACE
  | ORDER_FILL
  | ORDER_REJECT
  | MARKET_DATA
  | HEARTBEAT
  | OTHER (tag : Nat)
  deriving DecidableEq, Repr

/-- Modelled from the spec: `message.h` is not among the sources. The status tag of a frame;
the client only ever writes `PENDING`. -/
inductive MessageStatus where
  | PENDING
  | OTHER (tag : Nat)
  deriving DecidableEq, Repr

/-- Modelled from the spec: `message.h` is not among the sources. The frame (`struct Message`)
with the fields the client reads and writes: id, timestamp in nanoseconds (0 means unset),
type tag, status tag, source id, destination id, declared payload length and payload bytes. -/
structure Message where
  message_id : Nat
  timestamp : Nat
  message_type : MessageType
  status : MessageStatus
  source_id : Nat
  destination_id : Nat
  payload_size : Nat
  payload : List Nat
  deriving DecidableEq, Repr

/-- Modelled from the spec: `message.h` is not among the sources, so the values of
`sizeof(Message)`, `sizeof(OrderMessage)`, `sizeof(MarketDataMessage)` and the capacity of
`Message::payload` are parameters of the model. -/
structure Sizes where
  sizeof_Message : Nat
  sizeof_OrderMessage : Nat
  sizeof_MarketDataMessage : Nat
  payload_capacity : Nat
  deriving DecidableEq, Repr

/-- The modulus of `uint64_t` arithmetic. -/
def UINT64_MOD : Nat := 2 ^ 64

/-- The constant `UINT64_MAX`. -/
def UINT64_MAX : Nat := 2 ^ 64 - 1

/-- Reduction of a natural number to a `uint64_t` value. -/
def wrap64 (n : Nat) : Nat := n % UINT64_MOD

/-- Client statistics: `struct ClientStats` of `hft_tcp_client.h`. The `double` average is a
rational number, the two `time_point`s are clock readings. -/
structure ClientStats where
  messages_sent : Nat
  messages_received : Nat
  bytes_sent : Nat
  bytes_received : Nat
  connection_attempts : Nat
  reconnection_attempts : Nat
  errors : Nat
  min_latency_ns : Nat
  max_latency_ns : Nat
  total_latency_ns : Nat
  avg_latency_us : ℚ
  start_time : Nat
  last_message_time : Nat
  deriving DecidableEq, Repr

/-- The value `ClientStats{}`: the default member initialisers of the struct, with both
time points at the given clock reading. -/
def ClientStats.fresh (now : Nat) : ClientStats :=
  { messages_sent := 0
    messages_received := 0
    bytes_sent := 0
    bytes_received := 0
    connection_attempts := 0
    reconnection_attempts := 0
    errors := 0
    min_latency_ns := UINT64_MAX
    max_latency_ns := 0
    total_latency_ns := 0
    avg_latency_us := 0
    start_time := now
    last_message_time := now }

/-- An observable action of the client, recorded in program order. -/
inductive Event where
  | store_state (s : ConnectionState)
  | sys_socket (ret : Int)
  | sys_close (fd : Int)
  | sys_send (fd : Int) (msg : Message) (ret : Int)
  | sleep_ms (ms : Nat)
  | call_message_handler (msg : Message)
  | call_order_handler (order : List Nat)
  | call_market_data_handler (market_data : List Nat)
  deriving DecidableEq, Repr

/-- The data members of `class HFTTCPClient` that the modelled member functions use,
and the record of observable actions. A handler member is `true` when its `std::function`
holds a callback; a call of the callback is an observable action. -/
structure HFTTCPClient where
  client_id_ : Nat
  connection_state_ : ConnectionState
  socket_fd_ : Int
  epoll_fd_ : Int
  send_queue_ : List Message
  auto_reconnect_ : Bool
  reconnect_interval_ms_ : Nat
  heartbeat_interval_ms_ : Nat
  stats_ : ClientStats
  latency_measurements_ : List Nat
  message_handler_ : Bool
  order_handler_ : Bool
  market_data_handler_ : Bool
  trace : List Event
  deriving DecidableEq, Repr

/-- The constructor `HFTTCPClient::HFTTCPClient`: default member initialisers, and the two
statistics time points set to the clock reading at construction. -/
def HFTTCPClient.construct (client_id now : Nat) : HFTTCPClient :=
  { client_id_ := client_id
    connection_state_ := ConnectionState.DISCONNECTED
    socket_fd_ := -1
    epoll_fd_ := -1
    send_queue_ := []
    auto_reconnect_ := true
    reconnect_interval_ms_ := 1000
    heartbeat_interval_ms_ := 1000
    stats_ := ClientStats.fresh now
    latency_measurements_ := []
    message_handler_ := false
    order_handler_ := false
    market_data_handler_ := false
    trace := [] }

/-- The states stored to `connection_state_` by a run, in order. -/
def stored_states : List Event → List ConnectionState
  | [] => []
  | Event.store_state s :: t => s :: stored_states t
  | _ :: t => stored_states t

/-- The number of `socket()` calls in a run: one per connect attempt really made. -/
def connect_attempts_made : List Event → Nat
  | [] => 0
  | Event.sys_socket _ :: t => connect_attempts_made t + 1
  | _ :: t => connect_attempts_made t

/-! ## Connection manager -/

/-- `connection_state_.store(s)`. -/
def store_state (s : ConnectionState) (c : HFTTCPClient) : HFTTCPClient :=
  { c with connection_state_ := s, trace := c.trace ++ [Event.store_state s] }

/-- The statement pair `close(socket_fd_); socket_fd_ = -1;`. -/
def close_socket (c : HFTTCPClient) : HFTTCPClient :=
  { c with socket_fd_ := -1, trace := c.trace ++ [Event.sys_close c.socket_fd_] }

/-- The results of the system calls made by one `connect` call. -/
structure ConnectEnv where
  socket_ret : Int
  inet_pton_ret : Int
  connect_ret : Int
  connect_errno : Int
  select_ret : Int
  getsockopt_ret : Int
  so_error : Int
  deriving DecidableEq, Repr

/-- The `errno` value `EINPROGRESS` on Linux. -/
def EINPROGRESS : Int := 115

/-- The failure exit shared by four branches of `connect`: close the socket, forget it,
store `ERROR`. -/
def connect_fail (c : HFTTCPClient) : HFTTCPClient :=
  store_state ConnectionState.ERROR (close_socket c)

/-- Function `HFTTCPClient::connect` (lines 31-110). -/
def connect (e : ConnectEnv) (_timeout_ms : Nat) (c : HFTTCPClient) : Bool × HFTTCPClient :=
  if c.connection_state_ = ConnectionState.CONNECTED then (true, c)
  else
    let c1 := store_state ConnectionState.CONNECTING c
    let c2 := { c1 with socket_fd_ := e.socket_ret,
                        trace := c1.trace ++ [Event.sys_socket e.socket_ret] }
    if c2.socket_fd_ = -1 then (false, store_state ConnectionState.ERROR c2)
    else if e.inet_pton_ret ≤ 0 then (false, connect_fail c2)
    else if e.connect_ret = -1 ∧ e.connect_errno ≠ EINPROGRESS then (false, connect_fail c2)
    else if e.select_ret ≤ 0 then (false, connect_fail c2)
    else if e.getsockopt_ret = -1 ∨ e.so_error ≠ 0 then (false, connect_fail c2)
    else
      let c3 := store_state ConnectionState.CONNECTED c2
      (true, { c3 with stats_ :=
        { c3.stats_ with connection_attempts := wrap64 (c3.stats_.connection_attempts + 1) } })

/-- Function `HFTTCPClient::disconnect` (lines 112-130). -/
def disconnect (c : HFTTCPClient) : HFTTCPClient :=
  if c.connection_state_ = ConnectionState.DISCONNECTED then c
  else
    let c1 := store_state ConnectionState.DISCONNECTED c
    let c2 := if c1.socket_fd_ ≠ -1 then close_socket c1 else c1
    if c2.epoll_fd_ ≠ -1 then
      { c2 with epoll_fd_ := -1, trace := c2.trace ++ [Event.sys_close c2.epoll_fd_] }
    else c2

/-- Function `HFTTCPClient::is_connected`. -/
def is_connected (c : HFTTCPClient) : Bool :=
  decide (c.connection_state_ = ConnectionState.CONNECTED)

/-- Function `HFTTCPClient::set_auto_reconnect` (lines 300-303). -/
def set_auto_reconnect (enable : Bool) (reconnect_interval_ms : Nat) (c : HFTTCPClient) :
    HFTTCPClient :=
  { c with auto_reconnect_ := enable, reconnect_interval_ms_ := reconnect_interval_ms }

/-- Function `HFTTCPClient::reset_stats` (lines 288-298). -/
def reset_stats (now : Nat) (c : HFTTCPClient) : HFTTCPClient :=
  { c with stats_ := ClientStats.fresh now, latency_measurements_ := [] }

/-- Function `HFTTCPClient::get_stats`: a copy of the statistics. -/
def get_stats (c : HFTTCPClient) : ClientStats := c.stats_

/-! ## Reconnect supervisor -/

/-- What surrounds one pass of `attempt_reconnection`: the system-call results of its
`connect(5000)` call and, if another thread calls `set_auto_reconnect` while this one
sleeps after a failed attempt, the arguments of that call. -/
structure ReconnectEnv where
  net : ConnectEnv
  concurrent_set : Option (Bool × Nat)
  deriving DecidableEq, Repr

/-- The client after the sleep that follows a failed attempt. -/
def after_sleep (e : ReconnectEnv) (c : HFTTCPClient) : HFTTCPClient :=
  let c1 := { c with trace := c.trace ++ [Event.sleep_ms c.reconnect_interval_ms_] }
  match e.concurrent_set with
  | none => c1
  | some (enable, ms) => set_auto_reconnect enable ms c1

/-- Function `HFTTCPClient::attempt_reconnection` (lines 516-534). Each pass takes the next
element of the script; `none` means that the script ended before the function returned. -/
def attempt_reconnection : List ReconnectEnv → HFTTCPClient → Option HFTTCPClient
  | [], _ => none
  | e :: rest, c =>
    let c1 := { c with stats_ :=
      { c.stats_ with reconnection_attempts := wrap64 (c.stats_.reconnection_attempts + 1) } }
    let r := connect e.net 5000 c1
    if r.1 then some r.2
    else
      let c2 := after_sleep e r.2
      if c2.auto_reconnect_ then attempt_reconnection rest c2 else some c2

/-- Function `HFTTCPClient::handle_disconnection` (lines 498-514). -/
def handle_disconnection (script : List ReconnectEnv) (c : HFTTCPClient) : Option HFTTCPClient :=
  if c.connection_state_ = ConnectionState.DISCONNECTED then some c
  else
    let c1 := store_state ConnectionState.DISCONNECTED c
    let c2 := if c1.socket_fd_ ≠ -1 then close_socket c1 else c1
    if c2.auto_reconnect_ then
      attempt_reconnection script (store_state ConnectionState.RECONNECTING c2)
    else some c2

/-! ## Send pipeline -/

/-- Function `HFTTCPClient::send_message` (lines 136-154). -/
def send_message (sz : Sizes) (msg : Message) (c : HFTTCPClient) : Bool × HFTTCPClient :=
  if c.connection_state_ ≠ ConnectionState.CONNECTED then (false, c)
  else
    let c1 := { c with send_queue_ := c.send_queue_ ++ [msg] }
    (true, { c1 with stats_ :=
      { c1.stats_ with messages_sent := wrap64 (c1.stats_.messages_sent + 1),
                       bytes_sent := wrap64 (c1.stats_.bytes_sent + sz.sizeof_Message) } })

/-- The frame that `send_heartbeat` builds: a drawn message id, the clock reading written by
`update_timestamp()`, tag `HEARTBEAT`, status `PENDING`, no payload. -/
def heartbeat_message (c : HFTTCPClient) (drawn_id now_ns : Nat) : Message :=
  { message_id := drawn_id
    timestamp := now_ns
    message_type := MessageType.HEARTBEAT
    status := MessageStatus.PENDING
    source_id := c.client_id_
    destination_id := 0
    payload_size := 0
    payload := [] }

/-- Function `HFTTCPClient::send_heartbeat` (lines 188-199). -/
def send_heartbeat (sz : Sizes) (drawn_id now_ns : Nat) (c : HFTTCPClient) :
    Bool × HFTTCPClient :=
  send_message sz (heartbeat_message c drawn_id now_ns) c

/-- Function `HFTTCPClient::send_data` (lines 639-646), called with a frame and
`sizeof(Message)`; `send_ret` is the result of `send()`. -/
def send_data (sz : Sizes) (send_ret : Int) (msg : Message) (c : HFTTCPClient) :
    Bool × HFTTCPClient :=
  if c.socket_fd_ = -1 ∨ c.connection_state_ ≠ ConnectionState.CONNECTED then (false, c)
  else
    (decide (send_ret = (sz.sizeof_Message : Int)),
     { c with trace := c.trace ++ [Event.sys_send c.socket_fd_ msg send_ret] })

/-- What surrounds one iteration of the sender loop: the result of `send()` and the script
of the reconnection that a failed write starts. -/
structure SendEnv where
  send_ret : Int
  reconnect : List ReconnectEnv
  deriving DecidableEq, Repr

/-- The inner loop of `HFTTCPClient::send_thread_func` (lines 400-420): while the queue is
not empty and the state is `CONNECTED`, pop the oldest frame and write it. Each iteration
takes the next element of the script; `none` means that the script ended before the loop
did. -/
def send_thread_func (sz : Sizes) : List SendEnv → HFTTCPClient → Option HFTTCPClient
  | [], c =>
    match c.send_queue_ with
    | [] => some c
    | _ :: _ => if c.connection_state_ ≠ ConnectionState.CONNECTED then some c else none
  | e :: es, c =>
    match c.send_queue_ with
    | [] => some c
    | msg :: queue =>
      if c.connection_state_ ≠ ConnectionState.CONNECTED then some c
      else
        let c1 := { c with send_queue_ := queue }
        let r := send_data sz e.send_ret msg c1
        if r.1 then
          send_thread_func sz es { r.2 with stats_ :=
            { r.2.stats_ with messages_sent := wrap64 (r.2.stats_.messages_sent + 1),
                              bytes_sent := wrap64 (r.2.stats_.bytes_sent + sz.sizeof_Message) } }
        else
          let c2 := { r.2 with stats_ :=
            { r.2.stats_ with errors := wrap64 (r.2.stats_.errors + 1) } }
          match handle_disconnection e.reconnect c2 with
          | none => none
          | some c3 => send_thread_func sz es c3

/-- The sequence of `send_heartbeat` calls of a run, each with its drawn id and clock
reading; the boolean results are dropped, as `heartbeat_thread_func` drops them. -/
def send_heartbeats (sz : Sizes) : List (Nat × Nat) → HFTTCPClient → HFTTCPClient
  | [], c => c
  | (drawn_id, now_ns) :: rest, c => send_heartbeats sz rest (send_heartbeat sz drawn_id now_ns c).2

/-- The sender called `send_message` for each frame of a list in turn; the boolean results
are dropped. -/
def send_messages (sz : Sizes) : List Message → HFTTCPClient → HFTTCPClient
  | [], c => c
  | msg :: rest, c => send_messages sz rest (send_message sz msg c).2

/-- The byte blocks that the `send` calls of a run transferred: of the image of the frame
(given by `encode`) the first `ret` bytes, nothing when `send` failed. -/
def written_blocks (encode : Message → List Nat) : List Event → List (List Nat)
  | [] => []
  | Event.sys_send _ msg ret :: t => (encode msg).take ret.toNat :: written_blocks encode t
  | _ :: t => written_blocks encode t

/-- The frames that the sender loop handed to `send`, each with the result of the call. -/
def handed_to_send : List Event → List (Message × Int)
  | [] => []
  | Event.sys_send _ msg ret :: t => (msg, ret) :: handed_to_send t
  | _ :: t => handed_to_send t

/-! ## Handler registry -/

/-- Function `HFTTCPClient::set_message_handler`, called with a callback. -/
def set_message_handler (c : HFTTCPClient) : HFTTCPClient :=
  { c with message_handler_ := true }

/-- Function `HFTTCPClient::set_order_handler`, called with a callback. -/
def set_order_handler (c : HFTTCPClient) : HFTTCPClient :=
  { c with order_handler_ := true }

/-- Function `HFTTCPClient::set_market_data_handler`, called with a callback. -/
def set_market_data_handler (c : HFTTCPClient) : HFTTCPClient :=
  { c with market_data_handler_ := true }

/-- Function `HFTTCPClient::process_order_message` (lines 598-606); the argument is the
byte image of the `OrderMessage`. -/
def process_order_message (order : List Nat) (c : HFTTCPClient) : HFTTCPClient :=
  if c.order_handler_ then { c with trace := c.trace ++ [Event.call_order_handler order] }
  else c

/-- Function `HFTTCPClient::process_market_data_message` (lines 608-615); the argument is
the byte image of the `MarketDataMessage`. -/
def process_market_data_message (market_data : List Nat) (c : HFTTCPClient) : HFTTCPClient :=
  if c.market_data_handler_ then
    { c with trace := c.trace ++ [Event.call_market_data_handler market_data] }
  else c

/-- Function `HFTTCPClient::process_message` (lines 564-596). The typed sub-message is the
object at the start of the payload area: its first `sizeof` bytes. -/
def process_message (sz : Sizes) (msg : Message) (c : HFTTCPClient) : HFTTCPClient :=
  let c1 := if c.message_handler_ then
      { c with trace := c.trace ++ [Event.call_message_handler msg] }
    else c
  match msg.message_type with
  | MessageType.ORDER_NEW
  | MessageType.ORDER_CANCEL
  | MessageType.ORDER_REPLACE
  | MessageType.ORDER_FILL
  | MessageType.ORDER_REJECT =>
    if msg.payload_size ≥ sz.sizeof_OrderMessage then
      process_order_message (msg.payload.take sz.sizeof_OrderMessage) c1
    else c1
  | MessageType.MARKET_DATA =>
    if msg.payload_size ≥ sz.sizeof_MarketDataMessage then
      process_market_data_message (msg.payload.take sz.sizeof_MarketDataMessage) c1
    else c1
  | MessageType.HEARTBEAT => c1
  | MessageType.OTHER _ => c1

/-! ## Stats aggregator -/

/-- Function `HFTTCPClient::calculate_average_latency` (lines 675-679), on the statistics. -/
def calculate_average_latency (s : ClientStats) : ClientStats :=
  if s.messages_received > 0 then
    { s with avg_latency_us := ((s.total_latency_ns : ℚ) / 1000) / (s.messages_received : ℚ) }
  else s

/-- The bound of the latency sample window. -/
def LATENCY_WINDOW : Nat := 10000

/-- Function `HFTTCPClient::update_latency_stats` (lines 648-673). -/
def update_latency_stats (latency_ns : Nat) (c : HFTTCPClient) : HFTTCPClient :=
  let w := c.latency_measurements_ ++ [latency_ns]
  let w1 := if w.length > LATENCY_WINDOW then w.tail else w
  let s1 := { c.stats_ with total_latency_ns := wrap64 (c.stats_.total_latency_ns + latency_ns) }
  let s2 := if latency_ns < s1.min_latency_ns then { s1 with min_latency_ns := latency_ns }
    else s1
  let s3 := if latency_ns > s2.max_latency_ns then { s2 with max_latency_ns := latency_ns }
    else s2
  { c with latency_measurements_ := w1, stats_ := calculate_average_latency s3 }

/-- A sequence of `update_latency_stats` calls, oldest sample first. -/
def update_latency_stats_all : List Nat → HFTTCPClient → HFTTCPClient
  | [], c => c
  | x :: rest, c => update_latency_stats_all rest (update_latency_stats x c)

/-! ## Receive pipeline -/

/-- The `uint64_t` difference `a - b`. -/
def sub64 (a b : Nat) : Nat := (a % UINT64_MOD + (UINT64_MOD - b % UINT64_MOD)) % UINT64_MOD

/-- The body of the loop of `process_received_data` (lines 540-558) for one frame:
`receive_ns` is the clock reading taken for it. -/
def dispatch_frame (sz : Sizes) (receive_ns : Nat) (msg : Message) (c : HFTTCPClient) :
    HFTTCPClient :=
  let c1 := if msg.timestamp > 0 then update_latency_stats (sub64 receive_ns msg.timestamp) c
    else c
  let c2 := process_message sz msg c1
  { c2 with stats_ :=
    { c2.stats_ with messages_received := wrap64 (c2.stats_.messages_received + 1) } }

/-- The bytes of `data` that the frame at `offset` occupies. -/
def frame_bytes (sz : Sizes) (data : List Nat) (offset : Nat) : List Nat :=
  (data.drop offset).take sz.sizeof_Message

/-- The loop of `process_received_data` (lines 539-561), from a given `offset`. The frame at
`offset` is the value that `decode` gives for its bytes; `clock k` is the reading taken for
the `k`-th frame of the call. `none` means that the loop has not ended after `fuel`
iterations. -/
def process_received_data_loop (sz : Sizes) (decode : List Nat → Message) (clock : Nat → Nat)
    (data : List Nat) (size : Nat) : Nat → Nat → Nat → HFTTCPClient → Option HFTTCPClient
  | 0, _, offset, c => if offset + sz.sizeof_Message ≤ size then none else some c
  | fuel + 1, k, offset, c =>
    if offset + sz.sizeof_Message ≤ size then
      process_received_data_loop sz decode clock data size fuel (k + 1)
        (offset + sz.sizeof_Message)
        (dispatch_frame sz (clock k) (decode (frame_bytes sz data offset)) c)
    else some c

/-- Function `HFTTCPClient::process_received_data` (lines 536-562). The loop is run for
`size` iterations, which is enough whenever `sizeof(Message)` is positive. -/
def process_received_data (sz : Sizes) (decode : List Nat → Message) (clock : Nat → Nat)
    (data : List Nat) (size : Nat) (c : HFTTCPClient) : Option HFTTCPClient :=
  process_received_data_loop sz decode clock data size size 0 0 c

/-- What surrounds one `recv` call: its result, `errno`, the contents of `recv_buffer_`
after the call, the `steady_clock` reading taken after a successful read, and the script of
the reconnection that a closed or failed connection starts. -/
structure RecvEnv where
  recv_ret : Int
  recv_errno : Int
  buffer : List Nat
  now : Nat
  reconnect : List ReconnectEnv
  deriving DecidableEq, Repr

/-- The `errno` value `EAGAIN` on Linux. -/
def EAGAIN : Int := 11

/-- The `errno` value `EWOULDBLOCK` on Linux (the same as `EAGAIN`). -/
def EWOULDBLOCK : Int := 11

/-- The branch shared by both receive loops for a read of more than zero bytes: count the
bytes, note the time, process the data (lines 363-369 and 475-480). -/
def on_bytes_received (sz : Sizes) (decode : List Nat → Message) (clock : Nat → Nat)
    (e : RecvEnv) (c : HFTTCPClient) : Option HFTTCPClient :=
  process_received_data sz decode clock e.buffer e.recv_ret.toNat
    { c with stats_ := { c.stats_ with
        bytes_received := wrap64 (c.stats_.bytes_received + e.recv_ret.toNat)
        last_message_time := e.now } }

/-- One iteration of the loop of `HFTTCPClient::receive_thread_func` (lines 355-381). -/
def receive_thread_func (sz : Sizes) (decode : List Nat → Message) (clock : Nat → Nat)
    (e : RecvEnv) (c : HFTTCPClient) : Option HFTTCPClient :=
  if c.connection_state_ ≠ ConnectionState.CONNECTED then some c
  else if e.recv_ret > 0 then on_bytes_received sz decode clock e c
  else if e.recv_ret = 0 then handle_disconnection e.reconnect c
  else if e.recv_errno ≠ EAGAIN ∧ e.recv_errno ≠ EWOULDBLOCK then
    handle_disconnection e.reconnect
      { c with stats_ := { c.stats_ with errors := wrap64 (c.stats_.errors + 1) } }
  else some c

/-- The handling of one event for the client socket in `HFTTCPClient::epoll_thread_func`
(lines 470-483); `epollin` tells whether the event has `EPOLLIN` set. -/
def epoll_thread_func (sz : Sizes) (decode : List Nat → Message) (clock : Nat → Nat)
    (epollin : Bool) (e : RecvEnv) (c : HFTTCPClient) : Option HFTTCPClient :=
  if epollin then
    if e.recv_ret > 0 then on_bytes_received sz decode clock e c
    else some c
  else some c

/-! ## Specification-side descriptions of the receive path -/

/-- The handler calls that one frame must cause, following the words of the specification:
the generic handler once if it is registered; the order handler, with the payload decoded as
an `OrderMessage`, if and only if it is registered, the type tag is one of the five order
tags and the declared payload length is at least `sizeof(OrderMessage)`; the market-data
handler if and only if it is registered, the tag is `MARKET_DATA` and the declared payload
length is at least `sizeof(MarketDataMessage)`. -/
def handler_calls (sz : Sizes) (msg : Message) (c : HFTTCPClient) : List Event :=
  (if c.message_handler_ = true then [Event.call_message_handler msg] else []) ++
  (if c.order_handler_ = true ∧
      (msg.message_type = MessageType.ORDER_NEW ∨ msg.message_type = MessageType.ORDER_CANCEL ∨
       msg.message_type = MessageType.ORDER_REPLACE ∨ msg.message_type = MessageType.ORDER_FILL ∨
       msg.message_type = MessageType.ORDER_REJECT) ∧
      sz.sizeof_OrderMessage ≤ msg.payload_size then
    [Event.call_order_handler (msg.payload.take sz.sizeof_OrderMessage)] else []) ++
  (if c.market_data_handler_ = true ∧ msg.message_type = MessageType.MARKET_DATA ∧
      sz.sizeof_MarketDataMessage ≤ msg.payload_size then
    [Event.call_market_data_handler (msg.payload.take sz.sizeof_MarketDataMessage)] else [])

/-- The frame with index `k` of a buffer: the value decoded from the bytes
`[k * F, (k + 1) * F)`, where `F = sizeof(Message)`. -/
def frame_at (sz : Sizes) (decode : List Nat → Message) (data : List Nat) (k : Nat) : Message :=
  decode (frame_bytes sz data (k * sz.sizeof_Message))

/-- The dispatch of the frames with indices `0, 1, ..., count - 1` of a buffer, in increasing
index. -/
def dispatch_frames (sz : Sizes) (decode : List Nat → Message) (clock : Nat → Nat)
    (data : List Nat) (count : Nat) (c : HFTTCPClient) : HFTTCPClient :=
  (List.range count).foldl
    (fun acc k => dispatch_frame sz (clock k) (frame_at sz decode data k) acc) c

/-- The latency sample that the frame with index `k` of a buffer gives: the clock reading
taken for it minus its timestamp, as a `uint64_t`. -/
def latency_of (sz : Sizes) (decode : List Nat → Message) (clock : Nat → Nat)
    (data : List Nat) (k : Nat) : Nat :=
  sub64 (clock k) (frame_at sz decode data k).timestamp

/-! ## Runs of the send pipeline -/

/-- A step of the send pipeline: a `send_message` call, or one wake-up of the sender loop
with the script of its iterations. -/
inductive PipelineStep where
  | enqueue (msg : Message)
  | sender (envs : List SendEnv)
  deriving DecidableEq, Repr

/-- A run of the send pipeline. The result is the final client and the frames for which
`send_message` returned true, in call order; `none` means that a script ended early. -/
def run_pipeline (sz : Sizes) : List PipelineStep → HFTTCPClient →
    Option (HFTTCPClient × List Message)
  | [], c => some (c, [])
  | PipelineStep.enqueue msg :: rest, c =>
    match run_pipeline sz rest (send_message sz msg c).2 with
    | none => none
    | some (c1, accepted) =>
      some (c1, if (send_message sz msg c).1 then msg :: accepted else accepted)
  | PipelineStep.sender envs :: rest, c =>
    match send_thread_func sz envs c with
    | none => none
    | some c1 => run_pipeline sz rest c1

/-- In state `CONNECTED` the client holds a socket. The constructed client has this property
(it is `DISCONNECTED`), and `connect`, `handle_disconnection`, `attempt_reconnection`,
`send_message` and the sender loop keep it. -/
def socket_valid_when_connected (c : HFTTCPClient) : Prop :=
  c.connection_state_ = ConnectionState.CONNECTED → c.socket_fd_ ≠ -1

instance (c : HFTTCPClient) : Decidable (socket_valid_when_connected c) := by
  unfold socket_valid_when_connected
  infer_instance

/-- The client after lines 503-508 of `handle_disconnection`: `DISCONNECTED` stored and the
socket, if there was one, closed. -/
def drop_connection (c : HFTTCPClient) : HFTTCPClient :=
  if (store_state ConnectionState.DISCONNECTED c).socket_fd_ ≠ -1 then
    close_socket (store_state ConnectionState.DISCONNECTED c)
  else store_state ConnectionState.DISCONNECTED c

/-! ## Counters -/

/-- The seven counters of `ClientStats`. -/
def ClientStats.counters : List (ClientStats → Nat) :=
  [ClientStats.messages_sent, ClientStats.messages_received, ClientStats.bytes_sent,
   ClientStats.bytes_received, ClientStats.connection_attempts,
   ClientStats.reconnection_attempts, ClientStats.errors]

/-- A 64-bit counter went from `x` to `y` by additions that sum to at most `B`: it is
untouched, or it is `x + d` reduced modulo `2^64` for some `d ≤ B`. -/
def counter_advanced (B x y : Nat) : Prop :=
  y = x ∨ ∃ d, d ≤ B ∧ y = wrap64 (x + d)

/-- Each of the seven counters went from its value in `s` to its value in `t` by additions
that sum to at most `B`. -/
def counters_advanced (B : Nat) (s t : ClientStats) : Prop :=
  counter_advanced B s.messages_sent t.messages_sent ∧
  counter_advanced B s.messages_received t.messages_received ∧
  counter_advanced B s.bytes_sent t.bytes_sent ∧
  counter_advanced B s.bytes_received t.bytes_received ∧
  counter_advanced B s.connection_attempts t.connection_attempts ∧
  counter_advanced B s.reconnection_attempts t.reconnection_attempts ∧
  counter_advanced B s.errors t.errors

/-- A bound on what one wake-up of the sender loop can add to any one counter: per
iteration a frame size and a count of one, or an error and a reconnection that counts at
most two per pass of its script. -/
def send_budget (sz : Sizes) : List SendEnv → Nat
  | [] => 0
  | e :: es => sz.sizeof_Message + 1 + 2 * e.reconnect.length + send_budget sz es

/-- A bound on what one receive step can add to any one counter: the bytes read, at most one
frame per byte, an error, and a reconnection that counts at most two per pass. -/
def recv_budget (e : RecvEnv) : Nat :=
  2 * e.recv_ret.toNat + 1 + 2 * e.reconnect.length

/-! ## Which statistics an operation may touch -/

/-- Between `s` and `t` only the two attempt counters may differ: what the connection
manager and the reconnect supervisor do to the statistics. -/
def only_attempts_changed (s t : ClientStats) : Prop :=
  t = { s with connection_attempts := t.connection_attempts
               reconnection_attempts := t.reconnection_attempts }

/-- Between `s` and `t` only the received counters, the latency aggregates and the
last-message time may differ: what the receive path does to the statistics. -/
def only_receive_changed (s t : ClientStats) : Prop :=
  t = { s with messages_received := t.messages_received
               bytes_received := t.bytes_received
               min_latency_ns := t.min_latency_ns
               max_latency_ns := t.max_latency_ns
               total_latency_ns := t.total_latency_ns
               avg_latency_us := t.avg_latency_us
               last_message_time := t.last_message_time }

/-- The socket handle is valid (not -1) if and only if the state is `CONNECTING` or
`CONNECTED`. -/
def socket_valid_iff_connecting_or_connected (c : HFTTCPClient) : Prop :=
  c.socket_fd_ ≠ -1 ↔
    (c.connection_state_ = ConnectionState.CONNECTING ∨
     c.connection_state_ = ConnectionState.CONNECTED)

instance (c : HFTTCPClient) : Decidable (socket_valid_iff_connecting_or_connected c) := by
  unfold socket_valid_iff_connecting_or_connected
  infer_instance

/-! ## Typed send wrappers -/

/-- The frame that `send_order` builds (lines 157-167). A typed sub-message is its byte
image; `blank` is the payload area of a default-constructed `Message`, whose first
`sizeof(order)` bytes `memcpy` overwrites with the bytes of `order`. -/
def order_frame (sz : Sizes) (c : HFTTCPClient) (drawn_id now_ns : Nat) (blank order : List Nat) :
    Message :=
  { message_id := drawn_id
    timestamp := now_ns
    message_type := MessageType.ORDER_NEW
    status := MessageStatus.PENDING
    source_id := c.client_id_
    destination_id := 0
    payload_size := sz.sizeof_OrderMessage
    payload := order ++ blank.drop order.length }

/-- Function `HFTTCPClient::send_order` (lines 156-170). -/
def send_order (sz : Sizes) (drawn_id now_ns : Nat) (blank order : List Nat)
    (c : HFTTCPClient) : Bool × HFTTCPClient :=
  send_message sz (order_frame sz c drawn_id now_ns blank order) c

/-- The frame that `send_market_data` builds (lines 173-183). -/
def market_data_frame (sz : Sizes) (c : HFTTCPClient) (drawn_id now_ns : Nat)
    (blank market_data : List Nat) : Message :=
  { message_id := drawn_id
    timestamp := now_ns
    message_type := MessageType.MARKET_DATA
    status := MessageStatus.PENDING
    source_id := c.client_id_
    destination_id := 0
    payload_size := sz.sizeof_MarketDataMessage
    payload := market_data ++ blank.drop market_data.length }

/-- Function `HFTTCPClient::send_market_data` (lines 172-186). -/
def send_market_data (sz : Sizes) (drawn_id now_ns : Nat) (blank market_data : List Nat)
    (c : HFTTCPClient) : Bool × HFTTCPClient :=
  send_message sz (market_data_frame sz c drawn_id now_ns blank market_data) c

/-! ## Runs of the whole client -/

/-- An operation of the client with what surrounds it: a `send_message` call, a wake-up of
the sender loop, `reset_stats`, `connect`, `disconnect`, an iteration of the poll receive
loop, the handling of an event in the readiness loop. -/
inductive ClientOp where
  | send_message (msg : Message)
  | sender (envs : List SendEnv)
  | reset_stats (now : Nat)
  | connect (e : ConnectEnv) (timeout_ms : Nat)
  | disconnect
  | receive (e : RecvEnv)
  | epoll_event (epollin : Bool) (e : RecvEnv)
  deriving DecidableEq, Repr

/-- The effect of one operation; `none` means that a script ended early. -/
def apply_op (sz : Sizes) (decode : List Nat → Message) (clock : Nat → Nat) :
    ClientOp → HFTTCPClient → Option HFTTCPClient
  | ClientOp.send_message msg, c => some (send_message sz msg c).2
  | ClientOp.sender envs, c => send_thread_func sz envs c
  | ClientOp.reset_stats now, c => some (reset_stats now c)
  | ClientOp.connect e timeout_ms, c => some (connect e timeout_ms c).2
  | ClientOp.disconnect, c => some (disconnect c)
  | ClientOp.receive e, c => receive_thread_func sz decode clock e c
  | ClientOp.epoll_event epollin e, c => epoll_thread_func sz decode clock epollin e c

/-- A run: the operations of a list, one after the other. -/
def run_ops (sz : Sizes) (decode : List Nat → Message) (clock : Nat → Nat) :
    List ClientOp → HFTTCPClient → Option HFTTCPClient
  | [], c => some c
  | op :: rest, c =>
    match apply_op sz decode clock op c with
    | none => none
    | some c1 => run_ops sz decode clock rest c1

/-- The sent-byte counter is the sent-message counter times `sizeof(Message)`, modulo
`2^64`. -/
def sent_bytes_match (sz : Sizes) (s : ClientStats) : Prop :=
  s.bytes_sent = (s.messages_sent * sz.sizeof_Message) % 2 ^ 64

instance (sz : Sizes) (s : ClientStats) : Decidable (sent_bytes_match sz s) := by
  unfold sent_bytes_match
  infer_instance

/-! ## Runs of the receive side -/

/-- A step of the receive side: a read of more than zero bytes handled by a receive loop
(lines 363-369), or a `reset_stats` call. -/
inductive ReceiveOp where
  | read (e : RecvEnv)
  | reset (now : Nat)
  deriving DecidableEq, Repr

/-- The effect of one step of the receive side. -/
def apply_receive_op (sz : Sizes) (decode : List Nat → Message) (clock : Nat → Nat) :
    ReceiveOp → HFTTCPClient → Option HFTTCPClient
  | ReceiveOp.read e, c => on_bytes_received sz decode clock e c
  | ReceiveOp.reset now, c => some (reset_stats now c)

/-- A run of the receive side: the steps of a list, one after the other. -/
def run_receive (sz : Sizes) (decode : List Nat → Message) (clock : Nat → Nat) :
    List ReceiveOp → HFTTCPClient → Option HFTTCPClient
  | [], c => some c
  | op :: rest, c =>
    match apply_receive_op sz decode clock op c with
    | none => none
    | some c1 => run_receive sz decode clock rest c1

/-- The byte counts of all the reads of a run, in order. -/
def reads_so_far : List ReceiveOp → List Nat
  | [] => []
  | ReceiveOp.read e :: rest => e.recv_ret.toNat :: reads_so_far rest
  | ReceiveOp.reset _ :: rest => reads_so_far rest

/-- The byte counts of the reads of a run that come after its last `reset_stats` call,
following `acc`, the counts of the reads made since the last reset before the run. -/
def reads_since_reset_from (acc : List Nat) : List ReceiveOp → List Nat
  | [] => acc
  | ReceiveOp.read e :: rest => reads_since_reset_from (acc ++ [e.recv_ret.toNat]) rest
  | ReceiveOp.reset _ :: rest => reads_since_reset_from [] rest

/-- The byte counts of the reads of a run that come after its last `reset_stats` call. -/
def reads_since_reset (ops : List ReceiveOp) : List Nat := reads_since_reset_from [] ops

/-! ## Latency test client (`latency_client.cpp`) -/

/-- The members of `LatencyTestClient` that its statistics use. The four percentile members
are `double`s, taken as rationals. `latencies_fed` is not a member of the class: it records
the arguments of the `update_latency_stats` calls made since the last `reset_stats`. -/
structure LatencyTestClient where
  connected_ : Bool
  messages_sent_ : Nat
  messages_received_ : Nat
  total_latency_ns_ : Nat
  min_latency_ns_ : Nat
  max_latency_ns_ : Nat
  errors_ : Nat
  latency_measurements_ : List Nat
  p50_latency_us : ℚ
  p95_latency_us : ℚ
  p99_latency_us : ℚ
  p99_9_latency_us : ℚ
  latencies_fed : List Nat
  deriving DecidableEq

/-- The structure `LatencyTestClient::TestStats` (latency_client.h, lines 63-76). -/
structure TestStats where
  total_messages_sent : Nat
  total_messages_received : Nat
  total_latency_ns : Nat
  min_latency_ns : Nat
  max_latency_ns : Nat
  avg_latency_us : ℚ
  p50_latency_us : ℚ
  p95_latency_us : ℚ
  p99_latency_us : ℚ
  p99_9_latency_us : ℚ
  errors : Nat
  throughput_mps : ℚ
  deriving DecidableEq

/-- A `LatencyTestClient` after construction and a successful `connect`: the default member
initialisers of latency_client.h (lines 102-116). -/
def LatencyTestClient.connected : LatencyTestClient :=
  { connected_ := true
    messages_sent_ := 0
    messages_received_ := 0
    total_latency_ns_ := 0
    min_latency_ns_ := UINT64_MAX
    max_latency_ns_ := 0
    errors_ := 0
    latency_measurements_ := []
    p50_latency_us := 0
    p95_latency_us := 0
    p99_latency_us := 0
    p99_9_latency_us := 0
    latencies_fed := [] }

/-- Function `LatencyTestClient::reset_stats` (latency_client.cpp, lines 442-454). The
percentile members are not touched. -/
def LatencyTestClient.reset_stats (c : LatencyTestClient) : LatencyTestClient :=
  { c with
    messages_sent_ := 0
    messages_received_ := 0
    total_latency_ns_ := 0
    min_latency_ns_ := UINT64_MAX
    max_latency_ns_ := 0
    errors_ := 0
    latency_measurements_ := []
    latencies_fed := [] }

/-- Function `LatencyTestClient::update_latency_stats` (lines 297-309): the running total,
the minimum and the maximum. -/
def LatencyTestClient.update_latency_stats (latency_ns : Nat) (c : LatencyTestClient) :
    LatencyTestClient :=
  { c with
    total_latency_ns_ := wrap64 (c.total_latency_ns_ + latency_ns)
    min_latency_ns_ := if latency_ns < c.min_latency_ns_ then latency_ns else c.min_latency_ns_
    max_latency_ns_ := if latency_ns > c.max_latency_ns_ then latency_ns else c.max_latency_ns_
    latencies_fed := c.latencies_fed ++ [latency_ns] }

/-- Function `LatencyTestClient::send_message` (lines 243-251); `send_ret` is the result of
the `send` call. -/
def LatencyTestClient.send_message (send_ret : Int) (c : LatencyTestClient) :
    LatencyTestClient :=
  if c.connected_ = false then c
  else if send_ret = -1 then { c with errors_ := wrap64 (c.errors_ + 1) }
  else c

/-- One iteration of the loop of `LatencyTestClient::run_latency_test` (lines 118-139):
`send_ns` is the clock reading `send_time.time_since_epoch().count()`. -/
def LatencyTestClient.run_latency_test_iteration (send_ns : Nat) (send_ret : Int)
    (c : LatencyTestClient) : LatencyTestClient :=
  let c1 := LatencyTestClient.send_message send_ret c
  let c2 := { c1 with latency_measurements_ := c1.latency_measurements_ ++ [wrap64 send_ns] }
  { c2 with messages_sent_ := wrap64 (c2.messages_sent_ + 1) }

/-- The handling of one whole frame in `LatencyTestClient::receive_responses` (lines
265-283): `receive_ns` is the clock reading taken for it. -/
def LatencyTestClient.receive_responses_frame (receive_ns : Nat) (c : LatencyTestClient) :
    LatencyTestClient :=
  let c1 :=
    match c.latency_measurements_ with
    | [] => c
    | send_ns :: rest =>
      LatencyTestClient.update_latency_stats (sub64 receive_ns send_ns)
        { c with latency_measurements_ := rest }
  { c1 with messages_received_ := wrap64 (c1.messages_received_ + 1) }

/-- The index `size * q` converted to `size_t`, for `q = num / den`; the product is taken
exactly. -/
def percentile_index (size num den : Nat) : Nat := size * num / den

/-- The expression `sorted_measurements[size * q] / 1000.0` of `calculate_percentiles` for a
vector `measurements` (sorted with `std::sort`) and `q = num / den`. -/
def sorted_element_us (measurements : List Nat) (num den : Nat) : ℚ :=
  (((measurements.insertionSort (fun a b => a ≤ b)).getD
    (percentile_index measurements.length num den) 0 : Nat) : ℚ) / 1000

/-- Function `LatencyTestClient::calculate_percentiles` (lines 311-326). -/
def LatencyTestClient.calculate_percentiles (c : LatencyTestClient) : LatencyTestClient :=
  if c.latency_measurements_ = [] then c
  else
    { c with
      p50_latency_us := sorted_element_us c.latency_measurements_ 1 2
      p95_latency_us := sorted_element_us c.latency_measurements_ 95 100
      p99_latency_us := sorted_element_us c.latency_measurements_ 99 100
      p99_9_latency_us := sorted_element_us c.latency_measurements_ 999 1000 }

/-- Function `LatencyTestClient::get_stats` (lines 374-397): the snapshot, and the client
with its percentile members recomputed. -/
def LatencyTestClient.get_stats (c : LatencyTestClient) : TestStats × LatencyTestClient :=
  let c1 := LatencyTestClient.calculate_percentiles c
  ({ total_messages_sent := c1.messages_sent_
     total_messages_received := c1.messages_received_
     total_latency_ns := c1.total_latency_ns_
     min_latency_ns := c1.min_latency_ns_
     max_latency_ns := c1.max_latency_ns_
     avg_latency_us :=
       if c1.messages_received_ > 0 then
         ((c1.total_latency_ns_ : ℚ) / 1000) / (c1.messages_received_ : ℚ)
       else 0
     p50_latency_us := c1.p50_latency_us
     p95_latency_us := c1.p95_latency_us
     p99_latency_us := c1.p99_latency_us
     p99_9_latency_us := c1.p99_9_latency_us
     errors := c1.errors_
     throughput_mps := if c1.messages_received_ > 0 then (c1.messages_received_ : ℚ) else 0 },
   c1)

/-- A step of a latency test: an iteration of the sending loop, or the handling of one
response frame by the receiver thread. -/
inductive LatencyOp where
  | send (send_ns : Nat) (send_ret : Int)
  | response (receive_ns : Nat)
  deriving DecidableEq, Repr

/-- The effect of one step of a latency test. -/
def LatencyTestClient.step : LatencyOp → LatencyTestClient → LatencyTestClient
  | LatencyOp.send send_ns send_ret, c =>
    LatencyTestClient.run_latency_test_iteration send_ns send_ret c
  | LatencyOp.response receive_ns, c => LatencyTestClient.receive_responses_frame receive_ns c

/-- The steps of a latency test in the order in which the two threads make them, after the
`reset_stats` call with which `run_latency_test` starts (line 114). -/
def LatencyTestClient.run_latency_test (ops : List LatencyOp) (c : LatencyTestClient) :
    LatencyTestClient :=
  ops.foldl (fun acc op => LatencyTestClient.step op acc) (LatencyTestClient.reset_stats c)

/-- The send times that the sending loop pushed in a test, as `uint64_t`, in order. -/
def send_times : List LatencyOp → List Nat
  | [] => []
  | LatencyOp.send send_ns _ :: rest => wrap64 send_ns :: send_times rest
  | LatencyOp.response _ :: rest => send_times rest

/-- The percentile that the specification describes for the quantile `q = num / den`: with
`L` the sorted list of the `n` latencies passed to `update_latency_stats` since the last
reset, `L[floor(n * q)] / 1000`. -/
def percentile_of_latencies (c : LatencyTestClient) (num den : Nat) : ℚ :=
  (((c.latencies_fed.insertionSort (fun a b => a ≤ b)).getD
    (c.latencies_fed.length * num / den) 0 : Nat) : ℚ) / 1000

/-! ## Threads and mutexes: a frame processed while `get_stats` runs -/

/-- The two mutexes that guard the statistics and the sample window. -/
inductive Mutex where
  | stats_mutex_
  | latency_mutex_
  deriving DecidableEq, Repr

/-- The two threads: the one that runs `process_received_data`, and one that calls
`get_stats`. -/
inductive ThreadId where
  | receiver
  | observer
  deriving DecidableEq, Repr

/-- A step of a thread: the construction of a `std::lock_guard` on a mutex, the end of the
guard's scope, one statement on the members of the client, or the copy `return stats_` made
by `get_stats`. -/
inductive Instr where
  | lock (m : Mutex)
  | unlock (m : Mutex)
  | act (f : HFTTCPClient → HFTTCPClient)
  | copy_stats

/-- The statement `latency_measurements_.push_back(latency_ns)` (line 651). -/
def push_sample (latency_ns : Nat) (c : HFTTCPClient) : HFTTCPClient :=
  { c with latency_measurements_ := c.latency_measurements_ ++ [latency_ns] }

/-- The statement that erases the oldest sample beyond 10000 (lines 654-656). -/
def evict_oldest (c : HFTTCPClient) : HFTTCPClient :=
  { c with latency_measurements_ :=
    if c.latency_measurements_.length > LATENCY_WINDOW then c.latency_measurements_.tail
    else c.latency_measurements_ }

/-- The statement `stats_.total_latency_ns += latency_ns` (line 661). -/
def add_to_total (latency_ns : Nat) (c : HFTTCPClient) : HFTTCPClient :=
  { c with stats_ :=
    { c.stats_ with total_latency_ns := wrap64 (c.stats_.total_latency_ns + latency_ns) } }

/-- The statement that lowers `stats_.min_latency_ns` (lines 663-665). -/
def lower_min (latency_ns : Nat) (c : HFTTCPClient) : HFTTCPClient :=
  { c with stats_ :=
    if latency_ns < c.stats_.min_latency_ns then { c.stats_ with min_latency_ns := latency_ns }
    else c.stats_ }

/-- The statement that raises `stats_.max_latency_ns` (lines 667-669). -/
def raise_max (latency_ns : Nat) (c : HFTTCPClient) : HFTTCPClient :=
  { c with stats_ :=
    if latency_ns > c.stats_.max_latency_ns then { c.stats_ with max_latency_ns := latency_ns }
    else c.stats_ }

/-- The call `calculate_average_latency()` (line 671). -/
def recompute_average (c : HFTTCPClient) : HFTTCPClient :=
  { c with stats_ := calculate_average_latency c.stats_ }

/-- The statement `stats_.messages_received++` (line 557). -/
def count_received (c : HFTTCPClient) : HFTTCPClient :=
  { c with stats_ :=
    { c.stats_ with messages_received := wrap64 (c.stats_.messages_received + 1) } }

/-- The steps of `update_latency_stats` (lines 648-673), statement by statement, with the
two lock guards and the ends of their scopes. -/
def update_latency_stats_program (latency_ns : Nat) : List Instr :=
  [Instr.lock Mutex.latency_mutex_,
   Instr.act (push_sample latency_ns),
   Instr.act evict_oldest,
   Instr.unlock Mutex.latency_mutex_,
   Instr.lock Mutex.stats_mutex_,
   Instr.act (add_to_total latency_ns),
   Instr.act (lower_min latency_ns),
   Instr.act (raise_max latency_ns),
   Instr.act recompute_average,
   Instr.unlock Mutex.stats_mutex_]

/-- The steps of the body of the loop of `process_received_data` (lines 540-558) for one
frame: `update_latency_stats` when the frame has a timestamp, `process_message` (which takes
no mutex and is one step here), then the guarded increment of the received count. -/
def dispatch_frame_program (sz : Sizes) (receive_ns : Nat) (msg : Message) : List Instr :=
  (if msg.timestamp > 0 then update_latency_stats_program (sub64 receive_ns msg.timestamp)
   else []) ++
  [Instr.act (process_message sz msg),
   Instr.lock Mutex.stats_mutex_,
   Instr.act count_received,
   Instr.unlock Mutex.stats_mutex_]

/-- The steps of `get_stats` (lines 256-259). -/
def get_stats_program : List Instr :=
  [Instr.lock Mutex.stats_mutex_, Instr.copy_stats, Instr.unlock Mutex.stats_mutex_]

/-- The effect of the steps of a program run by one thread alone. -/
def run_alone : List Instr → HFTTCPClient → HFTTCPClient
  | [], c => c
  | Instr.act f :: rest, c => run_alone rest (f c)
  | Instr.lock _ :: rest, c => run_alone rest c
  | Instr.unlock _ :: rest, c => run_alone rest c
  | Instr.copy_stats :: rest, c => run_alone rest c

/-- The state of the two threads: the members of the client that they share, the steps that
each has left, the holder of each mutex, and the copy that `get_stats` has made, if any. -/
structure Threads where
  shared : HFTTCPClient
  receiver : List Instr
  observer : List Instr
  stats_holder : Option ThreadId
  latency_holder : Option ThreadId
  snapshot : Option ClientStats

/-- The steps that a thread has left. -/
def Threads.program (t : ThreadId) (st : Threads) : List Instr :=
  match t with
  | ThreadId.receiver => st.receiver
  | ThreadId.observer => st.observer

/-- The state in which thread `t` has `rest` left. -/
def Threads.advance (t : ThreadId) (rest : List Instr) (st : Threads) : Threads :=
  match t with
  | ThreadId.receiver => { st with receiver := rest }
  | ThreadId.observer => { st with observer := rest }

/-- The holder of a mutex. -/
def Threads.holder (m : Mutex) (st : Threads) : Option ThreadId :=
  match m with
  | Mutex.stats_mutex_ => st.stats_holder
  | Mutex.latency_mutex_ => st.latency_holder

/-- The state in which the holder of a mutex is `h`. -/
def Threads.set_holder (m : Mutex) (h : Option ThreadId) (st : Threads) : Threads :=
  match m with
  | Mutex.stats_mutex_ => { st with stats_holder := h }
  | Mutex.latency_mutex_ => { st with latency_holder := h }

/-- One step of thread `t`. A thread takes a mutex only when nobody holds it; `none` means
that `t` cannot make a step: it has finished, or it waits for a mutex. -/
def step (t : ThreadId) (st : Threads) : Option Threads :=
  match st.program t with
  | [] => none
  | Instr.lock m :: rest =>
    if st.holder m = none then some ((st.set_holder m (some t)).advance t rest) else none
  | Instr.unlock m :: rest =>
    if st.holder m = some t then some ((st.set_holder m none).advance t rest) else none
  | Instr.act f :: rest => some (Threads.advance t rest { st with shared := f st.shared })
  | Instr.copy_stats :: rest =>
    some (Threads.advance t rest { st with snapshot := some (get_stats st.shared) })

/-- An execution of the two threads: `schedule` names the thread that makes each step, in
order. `none` means that the schedule is not one that can happen. -/
def run_schedule : List ThreadId → Threads → Option Threads
  | [], st => some st
  | t :: rest, st =>
    match step t st with
    | none => none
    | some st1 => run_schedule rest st1

/-- The state in which one thread is about to process a frame and another is about to call
`get_stats`. -/
def frame_and_snapshot (sz : Sizes) (receive_ns : Nat) (msg : Message) (c : HFTTCPClient) :
    Threads :=
  { shared := c
    receiver := dispatch_frame_program sz receive_ns msg
    observer := get_stats_program
    stats_holder := none
    latency_holder := none
    snapshot := none }

/-- Whether a thread holds mutex `m` after the steps of a list, `held` telling whether it
held it before them. -/
def holds_from (m : Mutex) (held : Bool) : List Instr → Bool
  | [] => held
  | Instr.lock m1 :: rest => holds_from m (if m1 = m then true else held) rest
  | Instr.unlock m1 :: rest => holds_from m (if m1 = m then false else held) rest
  | Instr.act _ :: rest => holds_from m held rest
  | Instr.copy_stats :: rest => holds_from m held rest

/-- Whether a thread that has made the steps `done`, and held no mutex before them, holds
mutex `m`. -/
def holds (m : Mutex) (done : List Instr) : Bool := holds_from m false done

/-- The state of the two threads when the receiver has made `k` steps of `program` and the
observer `o` steps of `get_stats`, `snap` being the copy made. -/
def threads_at (program : List Instr) (c : HFTTCPClient) (k o : Nat)
    (snap : Option ClientStats) : Threads :=
  { shared := run_alone (program.take k) c
    receiver := program.drop k
    observer := get_stats_program.drop o
    stats_holder :=
      if holds Mutex.stats_mutex_ (get_stats_program.take o) = true then some ThreadId.observer
      else if holds Mutex.stats_mutex_ (program.take k) = true then some ThreadId.receiver
      else none
    latency_holder :=
      if holds Mutex.latency_mutex_ (program.take k) = true then some ThreadId.receiver
      else none
    snapshot := snap }

/-! ## Outcomes of a connect attempt -/

/-- Every step of a connect attempt succeeds: `socket` returns a descriptor, `inet_pton`
accepts the address, the non-blocking `::connect` returns at once or reports `EINPROGRESS`,
`select` reports the socket writable, and `getsockopt(SO_ERROR)` succeeds and reports 0. -/
def ConnectEnv.all_steps_succeed (e : ConnectEnv) : Prop :=
  e.socket_ret ≠ -1 ∧ 0 < e.inet_pton_ret ∧
  (e.connect_ret ≠ -1 ∨ e.connect_errno = EINPROGRESS) ∧
  0 < e.select_ret ∧ e.getsockopt_ret ≠ -1 ∧ e.so_error = 0

instance (e : ConnectEnv) : Decidable e.all_steps_succeed := by
  unfold ConnectEnv.all_steps_succeed
  infer_instance

/-- Some step of a connect attempt fails: socket creation error, invalid address, a connect
error other than in-progress, a readiness wait that times out (or fails), a failed
socket-error query, or a reported socket error. -/
def ConnectEnv.some_step_fails (e : ConnectEnv) : Prop :=
  e.socket_ret = -1 ∨ e.inet_pton_ret ≤ 0 ∨
  (e.connect_ret = -1 ∧ e.connect_errno ≠ EINPROGRESS) ∨
  e.select_ret ≤ 0 ∨ e.getsockopt_ret = -1 ∨ e.so_error ≠ 0

instance (e : ConnectEnv) : Decidable e.some_step_fails := by
  unfold ConnectEnv.some_step_fails
  infer_instance

/-- The actions of a connect attempt that fails: the store of `CONNECTING`, the `socket`
call, the `close` of the descriptor if one was created, the store of `ERROR`. -/
def failed_connect_events (e : ConnectEnv) : List Event :=
  [Event.store_state ConnectionState.CONNECTING, Event.sys_socket e.socket_ret] ++
  (if e.socket_ret = -1 then [] else [Event.sys_close e.socket_ret]) ++
  [Event.store_state ConnectionState.ERROR]

/-- The value of `auto_reconnect_` that `attempt_reconnection` reads after the sleep of a
pass, when the value before the sleep was `a`: the argument of a concurrent
`set_auto_reconnect` call if there was one, else `a`. -/
def ReconnectEnv.auto_after (e : ReconnectEnv) (a : Bool) : Bool :=
  match e.concurrent_set with
  | none => a
  | some (enable, _) => enable

/-- The client after one pass of `attempt_reconnection` whose connect attempt fails, up to
and including the sleep: the attempt is counted, the failed connect leaves state `ERROR` and
no socket, and a concurrent `set_auto_reconnect` call takes effect. -/
def failed_pass (e : ReconnectEnv) (c : HFTTCPClient) : HFTTCPClient :=
  after_sleep e
    { c with
      connection_state_ := ConnectionState.ERROR
      socket_fd_ := -1
      stats_ := { c.stats_ with
        reconnection_attempts := wrap64 (c.stats_.reconnection_attempts + 1) }
      trace := c.trace ++ failed_connect_events e.net }

/-! ## Inputs used by the closed examples -/

/-- A choice of sizes: a 64-byte frame with a 32-byte payload area. -/
def example_sizes : Sizes :=
  { sizeof_Message := 64, sizeof_OrderMessage := 24, sizeof_MarketDataMessage := 32,
    payload_capacity := 32 }

/-- System-call results of a connect that succeeds on descriptor 3: the non-blocking
`::connect` reports `EINPROGRESS`, the socket becomes writable and `SO_ERROR` is 0. -/
def example_connect_ok : ConnectEnv :=
  { socket_ret := 3, inet_pton_ret := 1, connect_ret := -1, connect_errno := 115,
    select_ret := 1, getsockopt_ret := 0, so_error := 0 }

/-- System-call results of a connect to a port with no listener: `SO_ERROR` reports
`ECONNREFUSED` (111). -/
def example_connect_refused : ConnectEnv :=
  { socket_ret := 3, inet_pton_ret := 1, connect_ret := -1, connect_errno := 115,
    select_ret := 1, getsockopt_ret := 0, so_error := 111 }

/-- A freshly constructed client with id 7. -/
def example_client : HFTTCPClient := HFTTCPClient.construct 7 100

/-- The example client after a successful `connect`. -/
def example_connected : HFTTCPClient := (connect example_connect_ok 5000 example_client).2

/-- A heartbeat frame of the example client. -/
def example_frame : Message := heartbeat_message example_client 42 1000

/-- The example client at the point where `handle_disconnection` calls
`attempt_reconnection`: connection lost, socket closed, state `RECONNECTING`. -/
def example_reconnecting : HFTTCPClient :=
  store_state ConnectionState.RECONNECTING
    (close_socket (store_state ConnectionState.DISCONNECTED example_connected))

/-- A small frame layout for the examples: 8 bytes, of which byte 0 is the id, byte 1 the
timestamp, byte 2 the type tag, byte 3 the declared payload length and bytes 4-7 the payload
area; an `OrderMessage` takes 2 bytes and a `MarketDataMessage` 3. -/
def example_layout : Sizes :=
  { sizeof_Message := 8, sizeof_OrderMessage := 2, sizeof_MarketDataMessage := 3,
    payload_capacity := 4 }

/-- The type tag that a byte stands for in the example layout. -/
def example_tag (b : Nat) : MessageType :=
  if b = 1 then MessageType.ORDER_NEW
  else if b = 2 then MessageType.MARKET_DATA
  else if b = 3 then MessageType.HEARTBEAT
  else MessageType.OTHER b

/-- The frame that 8 bytes stand for in the example layout. -/
def example_decode (bytes : List Nat) : Message :=
  { message_id := bytes.getD 0 0
    timestamp := bytes.getD 1 0
    message_type := example_tag (bytes.getD 2 0)
    status := MessageStatus.PENDING
    source_id := 0
    destination_id := 0
    payload_size := bytes.getD 3 0
    payload := (bytes.drop 4).take 4 }

/-- Clock readings for the examples: the `k`-th frame of a call is stamped `5000 + 1000 * k`. -/
def example_clock (k : Nat) : Nat := 5000 + 1000 * k

/-- The example client, connected, with all three handlers registered. -/
def example_listening : HFTTCPClient :=
  set_market_data_handler (set_order_handler (set_message_handler example_connected))

/-- The byte image of a frame in the example layout. -/
def example_encode (m : Message) : List Nat :=
  [m.message_id, m.timestamp,
   (match m.message_type with
    | MessageType.ORDER_NEW => 1
    | MessageType.MARKET_DATA => 2
    | MessageType.HEARTBEAT => 3
    | MessageType.OTHER b => b
    | _ => 0),
   m.payload_size] ++ (m.payload ++ List.replicate 4 0).take 4

/-- A run of the send pipeline in which the one write is short: a frame is enqueued, the
sender loop hands it to `send`, which transfers 10 of its 64 bytes; the reconnection that
follows succeeds. -/
def example_short_write_run : List PipelineStep :=
  [PipelineStep.enqueue example_frame,
   PipelineStep.sender [SendEnv.mk 10 [ReconnectEnv.mk example_connect_ok none]]]

/-- A read that reports that the peer closed the connection. -/
def example_recv_closed : RecvEnv :=
  { recv_ret := 0, recv_errno := 0, buffer := [], now := 400,
    reconnect := [ReconnectEnv.mk example_connect_ok none] }

/-- A read that fails with `ECONNRESET` (104). -/
def example_recv_reset : RecvEnv :=
  { recv_ret := -1, recv_errno := 104, buffer := [], now := 400,
    reconnect := [ReconnectEnv.mk example_connect_ok none] }

/-- A read of 19 bytes: two whole 8-byte frames of the example layout and 3 more bytes. -/
def example_recv_data : RecvEnv :=
  { recv_ret := 19, recv_errno := 0,
    buffer := [1, 200, 3, 0, 0, 0, 0, 0, 2, 100, 3, 0, 0, 0, 0, 0, 9, 9, 9], now := 400,
    reconnect := [] }

/-- A run of the whole client with the 8-byte layout: connect, enqueue a heartbeat, write
it in full, read 19 bytes, enqueue a second heartbeat, fail to write it (3 of 8 bytes) and
reconnect, then disconnect. -/
def example_ops : List ClientOp :=
  [ClientOp.connect example_connect_ok 5000,
   ClientOp.send_message example_frame,
   ClientOp.sender [SendEnv.mk 8 []],
   ClientOp.receive example_recv_data,
   ClientOp.send_message example_frame,
   ClientOp.sender [SendEnv.mk 3 [ReconnectEnv.mk example_connect_ok none]],
   ClientOp.disconnect]

/-- A read of 3 bytes: less than one 8-byte frame of the example layout. -/
def example_recv_partial : RecvEnv :=
  { recv_ret := 3, recv_errno := 0, buffer := [1, 200, 3], now := 300, reconnect := [] }

/-- A read of 8 bytes: exactly one frame of the example layout. -/
def example_recv_one_frame : RecvEnv :=
  { recv_ret := 8, recv_errno := 0, buffer := [1, 200, 3, 0, 0, 0, 0, 0], now := 500,
    reconnect := [] }

/-- A run of the receive side: a partial read, a reset, then a read of one whole frame. -/
def example_receive_ops : List ReceiveOp :=
  [ReceiveOp.read example_recv_partial, ReceiveOp.reset 400,
   ReceiveOp.read example_recv_one_frame]

/-- A latency test in which two messages are sent, at clock readings 1000 and 2000, and one
response is handled at reading 1500. -/
def example_latency_ops : List LatencyOp :=
  [LatencyOp.send 1000 64, LatencyOp.response 1500, LatencyOp.send 2000 64]


/-- An execution in which the receiving thread runs `update_latency_stats` to its end, the
other thread then runs `get_stats`, and the receiving thread finishes the frame. -/
def example_schedule : List ThreadId :=
  List.replicate 10 ThreadId.receiver ++ List.replicate 3 ThreadId.observer ++
    List.replicate 4 ThreadId.receiver

/-! ## Helper lemmas -/

theorem wrap64_add_wrap64 (x a : Nat) : wrap64 (wrap64 x + a) = wrap64 (x + a) := by
  unfold wrap64
  exact Nat.mod_add_mod x UINT64_MOD a

theorem wrap64_of_lt {x : Nat} (h : x < 2 ^ 64) : wrap64 x = x := by
  unfold wrap64 UINT64_MOD
  exact Nat.mod_eq_of_lt h

/-! ## Send pipeline: enqueue -/

/-- C1: in every state other than `CONNECTED`, `send_message` returns false and leaves the
outbound queue, every statistics field and the connection state (indeed the whole client)
unchanged. -/
theorem send_message_rejected_unless_connected (sz : Sizes) (msg : Message) (c : HFTTCPClient)
    (h : c.connection_state_ ≠ ConnectionState.CONNECTED) :
    (send_message sz msg c).1 = false ∧
    (send_message sz msg c).2.send_queue_ = c.send_queue_ ∧
    (send_message sz msg c).2.stats_ = c.stats_ ∧
    (send_message sz msg c).2.connection_state_ = c.connection_state_ ∧
    (send_message sz msg c).2 = c := by
  simp [send_message, h]

theorem send_message_rejected_unless_connected_witness :
    example_client.connection_state_ ≠ ConnectionState.CONNECTED ∧
    (send_message example_sizes example_frame example_client).1 = false ∧
    (send_message example_sizes example_frame example_client).2 = example_client :=
  ⟨by decide,
   (send_message_rejected_unless_connected example_sizes example_frame example_client
      (by decide)).1,
   (send_message_rejected_unless_connected example_sizes example_frame example_client
      (by decide)).2.2.2.2⟩

/-- C2: in state `CONNECTED`, `send_message f` returns true, appends `f` at the back of the
outbound queue, adds 1 to `messages_sent` and `sizeof(Message)` to `bytes_sent` (as 64-bit
counters: modulo `2^64`, so exactly 1 and exactly `sizeof(Message)` when the counter does not
overflow), and changes no other statistics field and not the connection state. -/
theorem send_message_accepted_when_connected (sz : Sizes) (msg : Message) (c : HFTTCPClient)
    (h : c.connection_state_ = ConnectionState.CONNECTED) :
    (send_message sz msg c).1 = true ∧
    (send_message sz msg c).2.send_queue_ = c.send_queue_ ++ [msg] ∧
    (send_message sz msg c).2.stats_.messages_sent = (c.stats_.messages_sent + 1) % 2 ^ 64 ∧
    (send_message sz msg c).2.stats_.bytes_sent
      = (c.stats_.bytes_sent + sz.sizeof_Message) % 2 ^ 64 ∧
    (c.stats_.messages_sent + 1 < 2 ^ 64 →
      (send_message sz msg c).2.stats_.messages_sent = c.stats_.messages_sent + 1) ∧
    (c.stats_.bytes_sent + sz.sizeof_Message < 2 ^ 64 →
      (send_message sz msg c).2.stats_.bytes_sent = c.stats_.bytes_sent + sz.sizeof_Message) ∧
    (send_message sz msg c).2.stats_.messages_received = c.stats_.messages_received ∧
    (send_message sz msg c).2.stats_.bytes_received = c.stats_.bytes_received ∧
    (send_message sz msg c).2.stats_.connection_attempts = c.stats_.connection_attempts ∧
    (send_message sz msg c).2.stats_.reconnection_attempts = c.stats_.reconnection_attempts ∧
    (send_message sz msg c).2.stats_.errors = c.stats_.errors ∧
    (send_message sz msg c).2.stats_.min_latency_ns = c.stats_.min_latency_ns ∧
    (send_message sz msg c).2.stats_.max_latency_ns = c.stats_.max_latency_ns ∧
    (send_message sz msg c).2.stats_.total_latency_ns = c.stats_.total_latency_ns ∧
    (send_message sz msg c).2.stats_.avg_latency_us = c.stats_.avg_latency_us ∧
    (send_message sz msg c).2.stats_.start_time = c.stats_.start_time ∧
    (send_message sz msg c).2.stats_.last_message_time = c.stats_.last_message_time ∧
    (send_message sz msg c).2.connection_state_ = c.connection_state_ ∧
    (send_message sz msg c).2.socket_fd_ = c.socket_fd_ ∧
    (send_message sz msg c).2.trace = c.trace := by
  have hm : (send_message sz msg c).2.stats_.messages_sent
      = (c.stats_.messages_sent + 1) % 2 ^ 64 := by
    simp [send_message, h, wrap64, UINT64_MOD]
  have hb : (send_message sz msg c).2.stats_.bytes_sent
      = (c.stats_.bytes_sent + sz.sizeof_Message) % 2 ^ 64 := by
    simp [send_message, h, wrap64, UINT64_MOD]
  refine ⟨?_, ?_, hm, hb, ?_, ?_, ?_⟩
  · simp [send_message, h]
  · simp [send_message, h]
  · intro hlt
    rw [hm, Nat.mod_eq_of_lt hlt]
  · intro hlt
    rw [hb, Nat.mod_eq_of_lt hlt]
  · simp [send_message, h]

theorem send_message_accepted_when_connected_witness :
    example_connected.connection_state_ = ConnectionState.CONNECTED ∧
    (send_message example_sizes example_frame example_connected).1 = true ∧
    (send_message example_sizes example_frame example_connected).2.send_queue_
      = [example_frame] ∧
    (send_message example_sizes example_frame example_connected).2.stats_.messages_sent = 1 ∧
    (send_message example_sizes example_frame example_connected).2.stats_.bytes_sent = 64 :=
  ⟨by decide,
   (send_message_accepted_when_connected example_sizes example_frame example_connected
      (by decide)).1,
   (send_message_accepted_when_connected example_sizes example_frame example_connected
      (by decide)).2.1,
   by decide, by decide⟩

/-! ## Send pipeline: enqueue followed by the sender loop -/

theorem wrap64_wrap64 (x : Nat) : wrap64 (wrap64 x) = wrap64 x := by
  unfold wrap64
  exact Nat.mod_mod x UINT64_MOD

theorem iterate_wrap64_add (a : Nat) (n x : Nat) :
    (fun v => wrap64 (v + a))^[n] (wrap64 x) = wrap64 (x + n * a) := by
  induction n generalizing x with
  | zero => simp
  | succ n ih =>
    rw [Function.iterate_succ_apply, wrap64_add_wrap64, ih]
    congr 1
    ring

theorem iterate_wrap64_add_twice (a n : Nat) :
    (fun v => wrap64 (v + a))^[n] ((fun v => wrap64 (v + a))^[n] 0) = wrap64 (2 * n * a) := by
  have h0 : (0 : Nat) = wrap64 0 := by simp [wrap64]
  rw [← Function.iterate_add_apply, h0, iterate_wrap64_add]
  congr 1
  ring

/-- The effect of a sequence of `send_heartbeat` calls made in state `CONNECTED`: the frames
are appended to the queue in call order and each call bumps both sent counters. -/
theorem send_heartbeats_connected (sz : Sizes) (hb : List (Nat × Nat)) (c : HFTTCPClient)
    (h : c.connection_state_ = ConnectionState.CONNECTED) :
    send_heartbeats sz hb c =
      { c with
        send_queue_ := c.send_queue_ ++ hb.map (fun p => heartbeat_message c p.1 p.2)
        stats_ := { c.stats_ with
          messages_sent := (fun v => wrap64 (v + 1))^[hb.length] c.stats_.messages_sent
          bytes_sent :=
            (fun v => wrap64 (v + sz.sizeof_Message))^[hb.length] c.stats_.bytes_sent } } := by
  induction hb generalizing c with
  | nil => simp [send_heartbeats]
  | cons p rest ih =>
    obtain ⟨i, t⟩ := p
    have hs : (send_heartbeat sz i t c).2.connection_state_ = ConnectionState.CONNECTED := by
      simp [send_heartbeat, send_message, h]
    rw [send_heartbeats, ih _ hs]
    simp [send_heartbeat, send_message, h, heartbeat_message]

/-- The effect of the sender loop when every write is complete: the queue is drained in
order, one `send` per frame, and each written frame bumps both sent counters again. -/
theorem send_thread_func_all_written (sz : Sizes) (q : List Message) (c : HFTTCPClient)
    (hq : c.send_queue_ = q)
    (h : c.connection_state_ = ConnectionState.CONNECTED) (hfd : c.socket_fd_ ≠ -1) :
    send_thread_func sz (List.replicate q.length (SendEnv.mk (sz.sizeof_Message : Int) [])) c =
      some { c with
        send_queue_ := []
        stats_ := { c.stats_ with
          messages_sent := (fun v => wrap64 (v + 1))^[q.length] c.stats_.messages_sent
          bytes_sent := (fun v => wrap64 (v + sz.sizeof_Message))^[q.length] c.stats_.bytes_sent }
        trace := c.trace ++
          q.map (fun m => Event.sys_send c.socket_fd_ m (sz.sizeof_Message : Int)) } := by
  induction q generalizing c with
  | nil =>
    simp only [List.length_nil, List.replicate_zero, send_thread_func, hq, List.map_nil,
      Function.iterate_zero, id, List.append_nil]
    cases c
    simp_all
  | cons m rest ih =>
    simp only [List.length_cons, List.replicate_succ, send_thread_func, hq, h, send_data, hfd]
    simp only [ne_eq, not_true_eq_false, if_false, or_self, decide_True, if_true]
    rw [ih]
    · simp [Function.iterate_succ_apply]
    · rfl
    · rfl
    · exact hfd

/-- C3 (what the code does): from reset statistics in state `CONNECTED`, after `n` calls of
`send_heartbeat` and a sender loop that drains the queue with `n` complete writes, the queue
is empty, exactly the `n` heartbeat frames were written, and `get_stats` reports
`messages_sent = 2 * n` and `bytes_sent = 2 * n * sizeof(Message)` (modulo `2^64`): each
frame is counted once by `send_message` and once more by `send_thread_func`. -/
theorem heartbeats_counted_at_enqueue_and_at_write (sz : Sizes) (now : Nat)
    (hb : List (Nat × Nat)) (c : HFTTCPClient)
    (h : c.connection_state_ = ConnectionState.CONNECTED) (hfd : c.socket_fd_ ≠ -1)
    (hq : c.send_queue_ = []) :
    ∃ c1, send_thread_func sz (List.replicate hb.length (SendEnv.mk (sz.sizeof_Message : Int) []))
        (send_heartbeats sz hb (reset_stats now c)) = some c1 ∧
      c1.send_queue_ = [] ∧
      c1.trace = c.trace ++ hb.map (fun p =>
        Event.sys_send c.socket_fd_ (heartbeat_message c p.1 p.2) (sz.sizeof_Message : Int)) ∧
      (get_stats c1).errors = 0 ∧
      (get_stats c1).messages_sent = (2 * hb.length) % 2 ^ 64 ∧
      (get_stats c1).bytes_sent = (2 * hb.length * sz.sizeof_Message) % 2 ^ 64 := by
  have h1 : (reset_stats now c).connection_state_ = ConnectionState.CONNECTED := by
    simp [reset_stats, h]
  have hlen : hb.length = (send_heartbeats sz hb (reset_stats now c)).send_queue_.length := by
    rw [send_heartbeats_connected sz hb _ h1]
    simp [reset_stats, hq]
  have h2 : (send_heartbeats sz hb (reset_stats now c)).connection_state_
      = ConnectionState.CONNECTED := by
    rw [send_heartbeats_connected sz hb _ h1]
    exact h1
  have h3 : (send_heartbeats sz hb (reset_stats now c)).socket_fd_ ≠ -1 := by
    rw [send_heartbeats_connected sz hb _ h1]
    simpa [reset_stats] using hfd
  rw [hlen, send_thread_func_all_written sz _ _ rfl h2 h3]
  refine ⟨_, rfl, rfl, ?_, ?_, ?_, ?_⟩
  · rw [send_heartbeats_connected sz hb _ h1]
    simp [reset_stats, hq, heartbeat_message]
  · rw [send_heartbeats_connected sz hb _ h1]
    simp [reset_stats, get_stats, ClientStats.fresh]
  · rw [send_heartbeats_connected sz hb _ h1]
    have := iterate_wrap64_add_twice 1 hb.length
    simpa [reset_stats, get_stats, ClientStats.fresh, hq, wrap64, UINT64_MOD] using this
  · rw [send_heartbeats_connected sz hb _ h1]
    have := iterate_wrap64_add_twice sz.sizeof_Message hb.length
    simpa [reset_stats, get_stats, ClientStats.fresh, hq, wrap64, UINT64_MOD] using this

theorem heartbeats_counted_at_enqueue_and_at_write_witness :
    example_connected.connection_state_ = ConnectionState.CONNECTED ∧
    example_connected.socket_fd_ ≠ -1 ∧
    example_connected.send_queue_ = [] ∧
    ∃ c1, send_thread_func example_sizes
        (List.replicate 1000 (SendEnv.mk (example_sizes.sizeof_Message : Int) []))
        (send_heartbeats example_sizes (List.replicate 1000 (42, 1000))
          (reset_stats 200 example_connected)) = some c1 ∧
      (get_stats c1).messages_sent = 2000 ∧ (get_stats c1).bytes_sent = 128000 := by
  refine ⟨by decide, by decide, by decide, ?_⟩
  obtain ⟨c1, h1, -, -, -, h5, h6⟩ :=
    heartbeats_counted_at_enqueue_and_at_write example_sizes 200
      (List.replicate 1000 (42, 1000)) example_connected (by decide) (by decide) (by decide)
  rw [List.length_replicate] at h1 h5 h6
  exact ⟨c1, h1, h5, h6⟩

/-! ## Connection manager: `connect` -/

theorem some_step_fails_iff (e : ConnectEnv) : e.some_step_fails ↔ ¬ e.all_steps_succeed := by
  unfold ConnectEnv.some_step_fails ConnectEnv.all_steps_succeed
  constructor
  · rintro (h | h | h | h | h | h) ⟨h1, h2, h3, h4, h5, h6⟩
    · exact h1 h
    · omega
    · rcases h3 with h3 | h3
      · exact h3 h.1
      · exact h.2 h3
    · omega
    · exact h5 h
    · exact h h6
  · intro h
    by_contra hn
    simp only [not_or, not_and, not_le, not_not] at hn
    obtain ⟨h1, h2, h3, h4, h5, h6⟩ := hn
    refine h ⟨h1, h2, ?_, h4, h5, h6⟩
    by_cases hc : e.connect_ret = -1
    · exact Or.inr (h3 hc)
    · exact Or.inl hc

/-- What `connect` does when it is called in a state other than `CONNECTED` and every step
succeeds. -/
theorem connect_of_all_steps_succeed (e : ConnectEnv) (t : Nat) (c : HFTTCPClient)
    (h : c.connection_state_ ≠ ConnectionState.CONNECTED) (hs : e.all_steps_succeed) :
    connect e t c = (true,
      { c with
        connection_state_ := ConnectionState.CONNECTED
        socket_fd_ := e.socket_ret
        trace := c.trace ++ [Event.store_state ConnectionState.CONNECTING,
          Event.sys_socket e.socket_ret, Event.store_state ConnectionState.CONNECTED]
        stats_ := { c.stats_ with
          connection_attempts := wrap64 (c.stats_.connection_attempts + 1) } }) := by
  obtain ⟨h1, h2, h3, h4, h5, h6⟩ := hs
  have h3n : ¬ (e.connect_ret = -1 ∧ e.connect_errno ≠ EINPROGRESS) := by
    rintro ⟨ha, hb⟩
    rcases h3 with h3 | h3
    · exact h3 ha
    · exact hb h3
  simp [connect, h, store_state, h1, not_le.mpr h2, h3n, not_le.mpr h4, h5, h6]

/-- What `connect` does when it is called in a state other than `CONNECTED` and some step
fails. -/
theorem connect_of_some_step_fails (e : ConnectEnv) (t : Nat) (c : HFTTCPClient)
    (h : c.connection_state_ ≠ ConnectionState.CONNECTED) (hf : e.some_step_fails) :
    connect e t c = (false,
      { c with
        connection_state_ := ConnectionState.ERROR
        socket_fd_ := -1
        trace := c.trace ++ failed_connect_events e }) := by
  unfold connect failed_connect_events
  simp only [h, if_false]
  by_cases h1 : e.socket_ret = -1
  · simp [store_state, h1]
  · simp only [h1, if_false]
    by_cases h2 : e.inet_pton_ret ≤ 0
    · simp [store_state, connect_fail, close_socket, h2]
    · simp only [h2, if_false]
      by_cases h3 : e.connect_ret = -1 ∧ e.connect_errno ≠ EINPROGRESS
      · simp [store_state, connect_fail, close_socket, h3]
      · simp only [h3, if_false]
        by_cases h4 : e.select_ret ≤ 0
        · simp [store_state, connect_fail, close_socket, h4]
        · simp only [h4, if_false]
          have h5 : e.getsockopt_ret = -1 ∨ e.so_error ≠ 0 := by
            rcases hf with hf | hf | hf | hf | hf | hf
            · exact absurd hf h1
            · exact absurd hf h2
            · exact absurd hf h3
            · exact absurd hf h4
            · exact Or.inl hf
            · exact Or.inr hf
          simp [store_state, connect_fail, close_socket, h5]

theorem stored_states_append (a b : List Event) :
    stored_states (a ++ b) = stored_states a ++ stored_states b := by
  induction a with
  | nil => rfl
  | cons x rest ih => cases x <;> simp [stored_states, ih]

theorem connect_attempts_made_append (a b : List Event) :
    connect_attempts_made (a ++ b) = connect_attempts_made a + connect_attempts_made b := by
  induction a with
  | nil => simp [connect_attempts_made]
  | cons x rest ih =>
    cases x <;> simp [connect_attempts_made, ih]
    omega

theorem connect_attempts_made_failed_connect_events (e : ConnectEnv) :
    connect_attempts_made (failed_connect_events e) = 1 := by
  unfold failed_connect_events
  split <;> simp [connect_attempts_made]

/-- C4: a `connect` call made in state `DISCONNECTED` in which socket creation, address
parsing, the non-blocking connect, the readiness wait and the socket-error query all succeed
stores exactly `CONNECTING` and then `CONNECTED`, returns true and adds 1 to
`connection_attempts` (a 64-bit counter: modulo `2^64`); and every `connect` call that
returns false leaves `connection_attempts` unchanged. -/
theorem connect_success_transitions_and_attempt_count (e : ConnectEnv) (t : Nat)
    (c : HFTTCPClient) :
    (c.connection_state_ = ConnectionState.DISCONNECTED → e.all_steps_succeed →
      (connect e t c).1 = true ∧
      (connect e t c).2.trace = c.trace ++ [Event.store_state ConnectionState.CONNECTING,
        Event.sys_socket e.socket_ret, Event.store_state ConnectionState.CONNECTED] ∧
      stored_states (connect e t c).2.trace = stored_states c.trace ++
        [ConnectionState.CONNECTING, ConnectionState.CONNECTED] ∧
      (connect e t c).2.connection_state_ = ConnectionState.CONNECTED ∧
      (connect e t c).2.stats_.connection_attempts
        = (c.stats_.connection_attempts + 1) % 2 ^ 64 ∧
      (c.stats_.connection_attempts + 1 < 2 ^ 64 →
        (connect e t c).2.stats_.connection_attempts = c.stats_.connection_attempts + 1)) ∧
    ((connect e t c).1 = false →
      (connect e t c).2.stats_.connection_attempts = c.stats_.connection_attempts) := by
  constructor
  · intro hd hs
    have hne : c.connection_state_ ≠ ConnectionState.CONNECTED := by
      rw [hd]
      decide
    rw [connect_of_all_steps_succeed e t c hne hs]
    refine ⟨rfl, rfl, ?_, rfl, ?_, ?_⟩
    · simp [stored_states_append, stored_states]
    · simp [wrap64, UINT64_MOD]
    · intro hlt
      exact wrap64_of_lt hlt
  · intro hfalse
    by_cases hc : c.connection_state_ = ConnectionState.CONNECTED
    · simp [connect, hc] at hfalse
    · by_cases hs : e.all_steps_succeed
      · rw [connect_of_all_steps_succeed e t c hc hs] at hfalse
        simp at hfalse
      · rw [connect_of_some_step_fails e t c hc ((some_step_fails_iff e).mpr hs)]

theorem connect_success_transitions_and_attempt_count_witness :
    example_client.connection_state_ = ConnectionState.DISCONNECTED ∧
    example_connect_ok.all_steps_succeed ∧
    (connect example_connect_ok 5000 example_client).1 = true ∧
    stored_states (connect example_connect_ok 5000 example_client).2.trace
      = stored_states example_client.trace ++
        [ConnectionState.CONNECTING, ConnectionState.CONNECTED] ∧
    (connect example_connect_refused 5000 example_client).1 = false ∧
    (connect example_connect_refused 5000 example_client).2.stats_.connection_attempts
      = example_client.stats_.connection_attempts :=
  ⟨by decide, by decide,
   ((connect_success_transitions_and_attempt_count example_connect_ok 5000 example_client).1
      (by decide) (by decide)).1,
   ((connect_success_transitions_and_attempt_count example_connect_ok 5000 example_client).1
      (by decide) (by decide)).2.2.1,
   by decide,
   (connect_success_transitions_and_attempt_count example_connect_refused 5000
      example_client).2 (by decide)⟩

/-- C5: a `connect` call made while not `CONNECTED` in which some step fails (socket creation
error, invalid address, connect error other than in-progress, readiness wait that times out,
reported socket error) returns false, ends in state `ERROR` with `socket_fd_ = -1`, and a
descriptor that `socket` returned is closed before the call returns. -/
theorem connect_failure_cleans_up (e : ConnectEnv) (t : Nat) (c : HFTTCPClient)
    (h : c.connection_state_ ≠ ConnectionState.CONNECTED) (hf : e.some_step_fails) :
    (connect e t c).1 = false ∧
    (connect e t c).2.connection_state_ = ConnectionState.ERROR ∧
    (connect e t c).2.socket_fd_ = -1 ∧
    (connect e t c).2.trace = c.trace ++ failed_connect_events e ∧
    (e.socket_ret ≠ -1 → failed_connect_events e =
      [Event.store_state ConnectionState.CONNECTING, Event.sys_socket e.socket_ret,
       Event.sys_close e.socket_ret, Event.store_state ConnectionState.ERROR]) ∧
    (e.socket_ret = -1 → failed_connect_events e =
      [Event.store_state ConnectionState.CONNECTING, Event.sys_socket (-1),
       Event.store_state ConnectionState.ERROR]) := by
  rw [connect_of_some_step_fails e t c h hf]
  refine ⟨rfl, rfl, rfl, rfl, ?_, ?_⟩
  · intro h1
    simp [failed_connect_events, h1]
  · intro h1
    simp [failed_connect_events, h1]

theorem connect_failure_cleans_up_witness :
    example_client.connection_state_ ≠ ConnectionState.CONNECTED ∧
    example_connect_refused.some_step_fails ∧
    (connect example_connect_refused 5000 example_client).1 = false ∧
    (connect example_connect_refused 5000 example_client).2.connection_state_
      = ConnectionState.ERROR ∧
    (connect example_connect_refused 5000 example_client).2.socket_fd_ = -1 ∧
    (connect example_connect_refused 5000 example_client).2.trace
      = [Event.store_state ConnectionState.CONNECTING, Event.sys_socket 3,
         Event.sys_close 3, Event.store_state ConnectionState.ERROR] :=
  ⟨by decide, by decide,
   (connect_failure_cleans_up example_connect_refused 5000 example_client
      (by decide) (by decide)).1,
   (connect_failure_cleans_up example_connect_refused 5000 example_client
      (by decide) (by decide)).2.1,
   (connect_failure_cleans_up example_connect_refused 5000 example_client
      (by decide) (by decide)).2.2.1,
   by decide⟩

/-- C6 (counterexample): connecting the freshly constructed client to a port with no
listener fails, with result false and state `ERROR`, and the error counter is still 0: it is
not incremented. -/
theorem connect_failure_not_counted_as_error :
    example_connect_refused.some_step_fails ∧
    (connect example_connect_refused 5000 example_client).1 = false ∧
    (connect example_connect_refused 5000 example_client).2.connection_state_
      = ConnectionState.ERROR ∧
    example_client.stats_.errors = 0 ∧
    (connect example_connect_refused 5000 example_client).2.stats_.errors = 0 ∧
    ¬ ((connect example_connect_refused 5000 example_client).2.stats_.errors
        = example_client.stats_.errors + 1) := by
  decide

/-- C6 (amended): every failed `connect` call (socket-creation failure, invalid address,
connect failure, connect timeout, reported socket error) is surfaced through its result and
the state: it returns false and ends in state `ERROR`; it leaves every statistics field, the
error counter among them, unchanged. -/
theorem connect_failure_surfaced_by_result_only (e : ConnectEnv) (t : Nat) (c : HFTTCPClient)
    (h : c.connection_state_ ≠ ConnectionState.CONNECTED) (hf : e.some_step_fails) :
    (connect e t c).1 = false ∧
    (connect e t c).2.connection_state_ = ConnectionState.ERROR ∧
    stored_states (connect e t c).2.trace = stored_states c.trace ++
      [ConnectionState.CONNECTING, ConnectionState.ERROR] ∧
    (connect e t c).2.stats_.errors = c.stats_.errors ∧
    (connect e t c).2.stats_ = c.stats_ := by
  rw [connect_of_some_step_fails e t c h hf]
  refine ⟨rfl, rfl, ?_, rfl, rfl⟩
  simp only [stored_states_append, failed_connect_events]
  split <;> simp [stored_states]

theorem connect_failure_surfaced_by_result_only_witness :
    example_client.connection_state_ ≠ ConnectionState.CONNECTED ∧
    example_connect_refused.some_step_fails ∧
    (connect example_connect_refused 5000 example_client).1 = false ∧
    (connect example_connect_refused 5000 example_client).2.stats_ = example_client.stats_ :=
  ⟨by decide, by decide,
   (connect_failure_surfaced_by_result_only example_connect_refused 5000 example_client
      (by decide) (by decide)).1,
   (connect_failure_surfaced_by_result_only example_connect_refused 5000 example_client
      (by decide) (by decide)).2.2.2.2⟩

/-! ## Connection manager: `disconnect` -/

theorem disconnect_state (c : HFTTCPClient) :
    (disconnect c).connection_state_ = ConnectionState.DISCONNECTED := by
  unfold disconnect
  by_cases h : c.connection_state_ = ConnectionState.DISCONNECTED
  · simp [h]
  · simp only [h, if_false]
    split <;> split <;> simp [store_state, close_socket]

/-- C7: `disconnect` is idempotent. Called in state `DISCONNECTED` it changes nothing; called
in any other state it ends with state `DISCONNECTED`, `socket_fd_ = -1` and `epoll_fd_ = -1`;
calling it twice yields the same client as calling it once; and it changes no statistics
field. -/
theorem disconnect_idempotent (c : HFTTCPClient) :
    (c.connection_state_ = ConnectionState.DISCONNECTED → disconnect c = c) ∧
    (c.connection_state_ ≠ ConnectionState.DISCONNECTED →
      (disconnect c).connection_state_ = ConnectionState.DISCONNECTED ∧
      (disconnect c).socket_fd_ = -1 ∧ (disconnect c).epoll_fd_ = -1) ∧
    disconnect (disconnect c) = disconnect c ∧
    (disconnect c).stats_ = c.stats_ := by
  refine ⟨?_, ?_, ?_, ?_⟩
  · intro h
    simp [disconnect, h]
  · intro h
    refine ⟨disconnect_state c, ?_, ?_⟩
    · unfold disconnect
      simp only [h, if_false]
      by_cases h1 : c.socket_fd_ = -1 <;> by_cases h2 : c.epoll_fd_ = -1 <;>
        simp [store_state, close_socket, h1, h2]
    · unfold disconnect
      simp only [h, if_false]
      by_cases h1 : c.socket_fd_ = -1 <;> by_cases h2 : c.epoll_fd_ = -1 <;>
        simp [store_state, close_socket, h1, h2]
  · have h := disconnect_state c
    generalize disconnect c = d at h
    simp [disconnect, h]
  · unfold disconnect
    by_cases h : c.connection_state_ = ConnectionState.DISCONNECTED
    · simp [h]
    · simp only [h, if_false]
      by_cases h1 : c.socket_fd_ = -1 <;> by_cases h2 : c.epoll_fd_ = -1 <;>
        simp [store_state, close_socket, h1, h2]

theorem disconnect_idempotent_witness :
    example_client.connection_state_ = ConnectionState.DISCONNECTED ∧
    disconnect example_client = example_client ∧
    example_connected.connection_state_ ≠ ConnectionState.DISCONNECTED ∧
    (disconnect example_connected).connection_state_ = ConnectionState.DISCONNECTED ∧
    (disconnect example_connected).socket_fd_ = -1 ∧
    (disconnect example_connected).epoll_fd_ = -1 ∧
    disconnect (disconnect example_connected) = disconnect example_connected :=
  ⟨by decide, (disconnect_idempotent example_client).1 (by decide), by decide,
   ((disconnect_idempotent example_connected).2.1 (by decide)).1,
   ((disconnect_idempotent example_connected).2.1 (by decide)).2.1,
   ((disconnect_idempotent example_connected).2.1 (by decide)).2.2,
   (disconnect_idempotent example_connected).2.2.1⟩

/-! ## Connection manager: `handle_disconnection` -/

/-- What `handle_disconnection` does when the state is not `DISCONNECTED` and auto-reconnect
is disabled: it stores `DISCONNECTED`, closes the socket if there is one, and returns. -/
theorem handle_disconnection_auto_reconnect_off (script : List ReconnectEnv)
    (c : HFTTCPClient) (h : c.connection_state_ ≠ ConnectionState.DISCONNECTED)
    (ha : c.auto_reconnect_ = false) :
    handle_disconnection script c = some
      { c with
        connection_state_ := ConnectionState.DISCONNECTED
        socket_fd_ := -1
        trace := c.trace ++ Event.store_state ConnectionState.DISCONNECTED ::
          (if c.socket_fd_ = -1 then [] else [Event.sys_close c.socket_fd_]) } := by
  unfold handle_disconnection
  simp only [h, if_false]
  by_cases h1 : c.socket_fd_ = -1
  · simp [store_state, h1, ha]
  · simp [store_state, close_socket, h1, ha]

/-- C8: with auto-reconnect disabled, `handle_disconnection` on a `CONNECTED` client returns
with state `DISCONNECTED` and the socket closed (`socket_fd_ = -1`, the descriptor passed to
`close`); the only state it stores is `DISCONNECTED` (never `RECONNECTING`), it makes no
connect attempt whatever the connect outcomes would have been, and it leaves
`reconnection_attempts` (and every other statistics field) unchanged. -/
theorem handle_disconnection_settles_when_auto_reconnect_off (script : List ReconnectEnv)
    (c : HFTTCPClient) (h : c.connection_state_ = ConnectionState.CONNECTED)
    (ha : c.auto_reconnect_ = false) :
    ∃ c1, handle_disconnection script c = some c1 ∧
      c1.connection_state_ = ConnectionState.DISCONNECTED ∧
      c1.socket_fd_ = -1 ∧
      c1.trace = c.trace ++ Event.store_state ConnectionState.DISCONNECTED ::
        (if c.socket_fd_ = -1 then [] else [Event.sys_close c.socket_fd_]) ∧
      stored_states c1.trace = stored_states c.trace ++ [ConnectionState.DISCONNECTED] ∧
      connect_attempts_made c1.trace = connect_attempts_made c.trace ∧
      c1.stats_.reconnection_attempts = c.stats_.reconnection_attempts ∧
      c1.stats_ = c.stats_ := by
  have hne : c.connection_state_ ≠ ConnectionState.DISCONNECTED := by
    rw [h]
    decide
  refine ⟨_, handle_disconnection_auto_reconnect_off script c hne ha, rfl, rfl, rfl, ?_, ?_,
    rfl, rfl⟩
  · show stored_states (c.trace ++ _) = _
    rw [stored_states_append]
    split <;> simp [stored_states]
  · show connect_attempts_made (c.trace ++ _) = _
    rw [connect_attempts_made_append]
    split <;> simp [connect_attempts_made]

theorem handle_disconnection_settles_when_auto_reconnect_off_witness :
    (set_auto_reconnect false 1000 example_connected).connection_state_
      = ConnectionState.CONNECTED ∧
    (set_auto_reconnect false 1000 example_connected).auto_reconnect_ = false ∧
    ∃ c1, handle_disconnection [ReconnectEnv.mk example_connect_ok none]
        (set_auto_reconnect false 1000 example_connected) = some c1 ∧
      c1.connection_state_ = ConnectionState.DISCONNECTED ∧
      c1.socket_fd_ = -1 ∧
      c1.stats_.reconnection_attempts = example_connected.stats_.reconnection_attempts := by
  refine ⟨by decide, by decide, ?_⟩
  obtain ⟨c1, h1, h2, h3, -, -, -, h7, -⟩ :=
    handle_disconnection_settles_when_auto_reconnect_off
      [ReconnectEnv.mk example_connect_ok none]
      (set_auto_reconnect false 1000 example_connected) (by decide) (by decide)
  exact ⟨c1, h1, h2, h3, h7⟩

/-- C9 (counterexample): on a `CONNECTED` client with auto-reconnect enabled and a peer that
accepts the reconnection, one `handle_disconnection` leaves `reconnection_attempts = 1` and a
second one in a row leaves `reconnection_attempts = 2`: the statistics after two invocations
differ from those after one. -/
theorem handle_disconnection_twice_differs_when_reconnecting :
    example_connected.auto_reconnect_ = true ∧
    Option.map (fun c => c.stats_.reconnection_attempts)
      (handle_disconnection [ReconnectEnv.mk example_connect_ok none] example_connected)
        = some 1 ∧
    Option.map (fun c => c.stats_.reconnection_attempts)
      ((handle_disconnection [ReconnectEnv.mk example_connect_ok none] example_connected).bind
        (handle_disconnection [ReconnectEnv.mk example_connect_ok none])) = some 2 ∧
    Option.map (fun c => c.stats_.connection_attempts)
      (handle_disconnection [ReconnectEnv.mk example_connect_ok none] example_connected)
        = some 2 ∧
    Option.map (fun c => c.stats_.connection_attempts)
      ((handle_disconnection [ReconnectEnv.mk example_connect_ok none] example_connected).bind
        (handle_disconnection [ReconnectEnv.mk example_connect_ok none])) = some 3 ∧
    Option.map (fun c => c.stats_.reconnection_attempts)
      ((handle_disconnection [ReconnectEnv.mk example_connect_ok none] example_connected).bind
        (handle_disconnection [ReconnectEnv.mk example_connect_ok none])) ≠
    Option.map (fun c => c.stats_.reconnection_attempts)
      (handle_disconnection [ReconnectEnv.mk example_connect_ok none] example_connected) := by
  decide

/-- C9 (amended): `handle_disconnection` is idempotent when auto-reconnect is disabled or the
client is already `DISCONNECTED`: it returns, and invoking it a second time in a row leaves
the client (connection state, socket handle, statistics and all else) exactly as the first
invocation left it, whatever the connect outcomes offered to either invocation. -/
theorem handle_disconnection_idempotent_when_settling (s1 s2 : List ReconnectEnv)
    (c : HFTTCPClient)
    (h : c.auto_reconnect_ = false ∨ c.connection_state_ = ConnectionState.DISCONNECTED) :
    ∃ c1, handle_disconnection s1 c = some c1 ∧
      handle_disconnection s2 c1 = some c1 ∧
      (handle_disconnection s1 c).bind (handle_disconnection s2) = handle_disconnection s1 c ∧
      c1.connection_state_ = ConnectionState.DISCONNECTED := by
  by_cases hd : c.connection_state_ = ConnectionState.DISCONNECTED
  · have h1 : ∀ s, handle_disconnection s c = some c := by
      intro s
      simp [handle_disconnection, hd]
    exact ⟨c, h1 s1, h1 s2, by simp [h1], hd⟩
  · have ha : c.auto_reconnect_ = false := by
      rcases h with h | h
      · exact h
      · exact absurd h hd
    have h1 := handle_disconnection_auto_reconnect_off s1 c hd ha
    have h2 : ∀ d : HFTTCPClient, d.connection_state_ = ConnectionState.DISCONNECTED →
        handle_disconnection s2 d = some d := by
      intro d hdd
      simp [handle_disconnection, hdd]
    refine ⟨_, h1, h2 _ rfl, ?_, rfl⟩
    rw [h1]
    exact h2 _ rfl

theorem handle_disconnection_idempotent_when_settling_witness :
    (set_auto_reconnect false 1000 example_connected).auto_reconnect_ = false ∧
    ∃ c1, handle_disconnection [ReconnectEnv.mk example_connect_ok none]
        (set_auto_reconnect false 1000 example_connected) = some c1 ∧
      handle_disconnection [ReconnectEnv.mk example_connect_refused none] c1 = some c1 := by
  refine ⟨by decide, ?_⟩
  obtain ⟨c1, h1, h2, -, -⟩ :=
    handle_disconnection_idempotent_when_settling
      [ReconnectEnv.mk example_connect_ok none] [ReconnectEnv.mk example_connect_refused none]
      (set_auto_reconnect false 1000 example_connected) (Or.inl (by decide))
  exact ⟨c1, h1, h2⟩

/-! ## Reconnect supervisor -/

theorem after_sleep_auto_reconnect (e : ReconnectEnv) (c : HFTTCPClient) :
    (after_sleep e c).auto_reconnect_ = e.auto_after c.auto_reconnect_ := by
  unfold after_sleep ReconnectEnv.auto_after
  rcases e.concurrent_set with _ | ⟨b, ms⟩ <;> simp [set_auto_reconnect]

theorem after_sleep_fields (e : ReconnectEnv) (c : HFTTCPClient) :
    (after_sleep e c).connection_state_ = c.connection_state_ ∧
    (after_sleep e c).stats_ = c.stats_ ∧
    (after_sleep e c).trace = c.trace ++ [Event.sleep_ms c.reconnect_interval_ms_] := by
  unfold after_sleep
  rcases e.concurrent_set with _ | ⟨b, ms⟩ <;> simp [set_auto_reconnect]

/-- One pass of `attempt_reconnection` whose connect attempt fails. -/
theorem attempt_reconnection_cons_of_fail (e : ReconnectEnv) (rest : List ReconnectEnv)
    (c : HFTTCPClient) (h : c.connection_state_ ≠ ConnectionState.CONNECTED)
    (hf : e.net.some_step_fails) :
    attempt_reconnection (e :: rest) c =
      if (failed_pass e c).auto_reconnect_ then attempt_reconnection rest (failed_pass e c)
      else some (failed_pass e c) := by
  simp only [attempt_reconnection]
  rw [connect_of_some_step_fails e.net 5000]
  · simp [failed_pass]
  · exact h
  · exact hf

/-- One pass of `attempt_reconnection` whose connect attempt succeeds. -/
theorem attempt_reconnection_cons_of_succeed (e : ReconnectEnv) (rest : List ReconnectEnv)
    (c : HFTTCPClient) (h : c.connection_state_ ≠ ConnectionState.CONNECTED)
    (hs : e.net.all_steps_succeed) :
    attempt_reconnection (e :: rest) c = some
      { c with
        connection_state_ := ConnectionState.CONNECTED
        socket_fd_ := e.net.socket_ret
        trace := c.trace ++ [Event.store_state ConnectionState.CONNECTING,
          Event.sys_socket e.net.socket_ret, Event.store_state ConnectionState.CONNECTED]
        stats_ := { c.stats_ with
          reconnection_attempts := wrap64 (c.stats_.reconnection_attempts + 1)
          connection_attempts := wrap64 (c.stats_.connection_attempts + 1) } } := by
  simp only [attempt_reconnection]
  rw [connect_of_all_steps_succeed e.net 5000]
  · simp
  · exact h
  · exact hs

theorem failed_pass_fields (e : ReconnectEnv) (c : HFTTCPClient) :
    (failed_pass e c).connection_state_ = ConnectionState.ERROR ∧
    (failed_pass e c).auto_reconnect_ = e.auto_after c.auto_reconnect_ ∧
    (failed_pass e c).stats_ = { c.stats_ with
      reconnection_attempts := wrap64 (c.stats_.reconnection_attempts + 1) } ∧
    connect_attempts_made (failed_pass e c).trace = connect_attempts_made c.trace + 1 := by
  refine ⟨?_, ?_, ?_, ?_⟩
  · rw [failed_pass, (after_sleep_fields e _).1]
  · rw [failed_pass, after_sleep_auto_reconnect]
  · rw [failed_pass, (after_sleep_fields e _).2.1]
  · rw [failed_pass, (after_sleep_fields e _).2.2, connect_attempts_made_append,
      connect_attempts_made_append, connect_attempts_made_failed_connect_events]
    rfl

/-- A run of passes that all fail and all find auto-reconnect still enabled: the function
goes on with the rest of the script, having counted one reconnection attempt and made one
connect attempt per pass. -/
theorem attempt_reconnection_after_failures (fails tail : List ReconnectEnv)
    (c : HFTTCPClient) (h : c.connection_state_ ≠ ConnectionState.CONNECTED)
    (ha : c.auto_reconnect_ = true)
    (hf : ∀ e ∈ fails, e.net.some_step_fails ∧ e.auto_after true = true) :
    ∃ c1, attempt_reconnection (fails ++ tail) c = attempt_reconnection tail c1 ∧
      c1.connection_state_ ≠ ConnectionState.CONNECTED ∧
      c1.auto_reconnect_ = true ∧
      c1.stats_ = { c.stats_ with reconnection_attempts :=
        (fun v => wrap64 (v + 1))^[fails.length] c.stats_.reconnection_attempts } ∧
      connect_attempts_made c1.trace = connect_attempts_made c.trace + fails.length := by
  induction fails generalizing c with
  | nil => exact ⟨c, rfl, h, ha, rfl, rfl⟩
  | cons e fs ih =>
    obtain ⟨hfe, hae⟩ := hf e (List.mem_cons_self e fs)
    obtain ⟨p1, p2, p3, p4⟩ := failed_pass_fields e c
    rw [ha, hae] at p2
    have hne : (failed_pass e c).connection_state_ ≠ ConnectionState.CONNECTED := by
      rw [p1]
      decide
    obtain ⟨c1, q1, q2, q3, q4, q5⟩ := ih (failed_pass e c) hne p2
      (fun x hx => hf x (List.mem_cons_of_mem e hx))
    refine ⟨c1, ?_, q2, q3, ?_, ?_⟩
    · rw [List.cons_append, attempt_reconnection_cons_of_fail e _ c h hfe, p2]
      simpa using q1
    · rw [q4, p3]
      simp [Function.iterate_succ_apply]
    · rw [q5, p4, List.length_cons]
      omega

theorem iterate_wrap64_succ (n x : Nat) :
    wrap64 ((fun v => wrap64 (v + 1))^[n] x + 1) = wrap64 (x + (n + 1)) := by
  have h := iterate_wrap64_add 1 n (x + 1)
  have h2 : (fun v => wrap64 (v + 1))^[n] (wrap64 (x + 1))
      = wrap64 ((fun v => wrap64 (v + 1))^[n] x + 1) := by
    have := Function.iterate_succ_apply' (fun v => wrap64 (v + 1)) n x
    rw [← this, Function.iterate_succ_apply]
  rw [← h2, h]
  congr 1
  ring

/-- C10: entered, as from `handle_disconnection` or from its own retry, in a state other than
`CONNECTED`: (1) for every `k ≥ 1`, when auto-reconnect is enabled, the first `k - 1` connect
attempts fail (each finding auto-reconnect still enabled after its sleep) and the `k`-th
succeeds, `attempt_reconnection` returns in state `CONNECTED` having made exactly `k` connect
attempts, with `reconnection_attempts` increased by `k` and `connection_attempts` by 1
(64-bit counters: modulo `2^64`); (2) when a connect attempt fails and auto-reconnect is
found disabled after the sleep, it returns having made just that one connect attempt,
whatever outcomes further attempts would have had. -/
theorem attempt_reconnection_counts_every_attempt (c : HFTTCPClient)
    (hc : c.connection_state_ ≠ ConnectionState.CONNECTED) :
    (∀ (fails : List ReconnectEnv) (last : ReconnectEnv) (rest : List ReconnectEnv),
      c.auto_reconnect_ = true →
      (∀ e ∈ fails, e.net.some_step_fails ∧ e.auto_after true = true) →
      last.net.all_steps_succeed →
      ∃ c1, attempt_reconnection (fails ++ last :: rest) c = some c1 ∧
        c1.connection_state_ = ConnectionState.CONNECTED ∧
        connect_attempts_made c1.trace = connect_attempts_made c.trace + (fails.length + 1) ∧
        c1.stats_.reconnection_attempts
          = (c.stats_.reconnection_attempts + (fails.length + 1)) % 2 ^ 64 ∧
        c1.stats_.connection_attempts = (c.stats_.connection_attempts + 1) % 2 ^ 64) ∧
    (∀ (e : ReconnectEnv) (rest : List ReconnectEnv),
      e.net.some_step_fails → e.auto_after c.auto_reconnect_ = false →
      ∃ c1, attempt_reconnection (e :: rest) c = some c1 ∧
        c1.connection_state_ = ConnectionState.ERROR ∧
        c1.auto_reconnect_ = false ∧
        connect_attempts_made c1.trace = connect_attempts_made c.trace + 1 ∧
        c1.stats_.reconnection_attempts = (c.stats_.reconnection_attempts + 1) % 2 ^ 64 ∧
        c1.stats_.connection_attempts = c.stats_.connection_attempts) := by
  constructor
  · intro fails last rest ha hf hs
    obtain ⟨c1, q1, q2, q3, q4, q5⟩ :=
      attempt_reconnection_after_failures fails (last :: rest) c hc ha hf
    rw [q1, attempt_reconnection_cons_of_succeed last rest c1 q2 hs]
    refine ⟨_, rfl, rfl, ?_, ?_, ?_⟩
    · show connect_attempts_made (c1.trace ++ _) = _
      rw [connect_attempts_made_append, q5]
      simp [connect_attempts_made]
      omega
    · show wrap64 (c1.stats_.reconnection_attempts + 1) = _
      rw [q4]
      exact iterate_wrap64_succ fails.length c.stats_.reconnection_attempts
    · show wrap64 (c1.stats_.connection_attempts + 1) = _
      rw [q4]
      rfl
  · intro e rest hfe hoff
    obtain ⟨p1, p2, p3, p4⟩ := failed_pass_fields e c
    rw [hoff] at p2
    refine ⟨failed_pass e c, ?_, p1, p2, p4, ?_, ?_⟩
    · rw [attempt_reconnection_cons_of_fail e rest c hc hfe, p2]
      simp
    · rw [p3]
      rfl
    · rw [p3]

theorem attempt_reconnection_counts_every_attempt_witness :
    example_reconnecting.connection_state_ ≠ ConnectionState.CONNECTED ∧
    (∃ c1, attempt_reconnection
        ([ReconnectEnv.mk example_connect_refused none,
          ReconnectEnv.mk example_connect_refused (some (true, 500))] ++
          ReconnectEnv.mk example_connect_ok none :: []) example_reconnecting = some c1 ∧
      c1.connection_state_ = ConnectionState.CONNECTED ∧
      c1.stats_.reconnection_attempts = 3 ∧ c1.stats_.connection_attempts = 2) ∧
    (∃ c1, attempt_reconnection
        (ReconnectEnv.mk example_connect_refused (some (false, 1000)) ::
          [ReconnectEnv.mk example_connect_ok none]) example_reconnecting = some c1 ∧
      c1.connection_state_ = ConnectionState.ERROR ∧
      connect_attempts_made c1.trace
        = connect_attempts_made example_reconnecting.trace + 1) := by
  refine ⟨by decide, ?_, ?_⟩
  · obtain ⟨c1, h1, h2, -, h4, h5⟩ :=
      (attempt_reconnection_counts_every_attempt example_reconnecting (by decide)).1
        [ReconnectEnv.mk example_connect_refused none,
         ReconnectEnv.mk example_connect_refused (some (true, 500))]
        (ReconnectEnv.mk example_connect_ok none) [] (by decide) (by decide) (by decide)
    exact ⟨c1, h1, h2, h4.trans (by decide), h5.trans (by decide)⟩
  · obtain ⟨c1, h1, h2, -, h4, -, -⟩ :=
      (attempt_reconnection_counts_every_attempt example_reconnecting (by decide)).2
        (ReconnectEnv.mk example_connect_refused (some (false, 1000)))
        [ReconnectEnv.mk example_connect_ok none] (by decide) (by decide)
    exact ⟨c1, h1, h2, h4⟩

/-! ## Stats aggregator -/

/-- C15: after `reset_stats`, `get_stats` returns all seven counters, `max_latency_ns` and
`total_latency_ns` equal to 0, `avg_latency_us` equal to 0, `min_latency_ns` equal to
`UINT64_MAX`, and `start_time` and `last_message_time` both equal to the reset instant; the
latency sample window is empty; the connection state and the socket handle are unchanged. -/
theorem reset_stats_restores_initial_values (now : Nat) (c : HFTTCPClient) :
    (get_stats (reset_stats now c)).messages_sent = 0 ∧
    (get_stats (reset_stats now c)).messages_received = 0 ∧
    (get_stats (reset_stats now c)).bytes_sent = 0 ∧
    (get_stats (reset_stats now c)).bytes_received = 0 ∧
    (get_stats (reset_stats now c)).connection_attempts = 0 ∧
    (get_stats (reset_stats now c)).reconnection_attempts = 0 ∧
    (get_stats (reset_stats now c)).errors = 0 ∧
    (get_stats (reset_stats now c)).max_latency_ns = 0 ∧
    (get_stats (reset_stats now c)).total_latency_ns = 0 ∧
    (get_stats (reset_stats now c)).avg_latency_us = 0 ∧
    (get_stats (reset_stats now c)).min_latency_ns = 2 ^ 64 - 1 ∧
    (get_stats (reset_stats now c)).start_time = now ∧
    (get_stats (reset_stats now c)).last_message_time = now ∧
    (reset_stats now c).latency_measurements_ = [] ∧
    (reset_stats now c).connection_state_ = c.connection_state_ ∧
    (reset_stats now c).socket_fd_ = c.socket_fd_ := by
  simp [get_stats, reset_stats, ClientStats.fresh, UINT64_MAX]

theorem update_latency_stats_all_append (xs : List Nat) (x : Nat) (c : HFTTCPClient) :
    update_latency_stats_all (xs ++ [x]) c
      = update_latency_stats x (update_latency_stats_all xs c) := by
  induction xs generalizing c with
  | nil => rfl
  | cons y rest ih => simp [update_latency_stats_all, ih]

theorem update_latency_stats_window (x : Nat) (c : HFTTCPClient) :
    (update_latency_stats x c).latency_measurements_ =
      if (c.latency_measurements_ ++ [x]).length > LATENCY_WINDOW then
        (c.latency_measurements_ ++ [x]).tail
      else c.latency_measurements_ ++ [x] := by
  simp [update_latency_stats]

theorem update_latency_stats_all_window (xs : List Nat) (c : HFTTCPClient)
    (h : c.latency_measurements_ = []) :
    (update_latency_stats_all xs c).latency_measurements_
      = xs.drop (xs.length - LATENCY_WINDOW) := by
  induction xs using List.reverseRecOn with
  | nil => simpa [update_latency_stats_all] using h
  | append_singleton ys x ih =>
    rw [update_latency_stats_all_append, update_latency_stats_window, ih]
    by_cases hlen : ys.length < LATENCY_WINDOW
    · have h0 : ys.length - LATENCY_WINDOW = 0 := by omega
      have h1 : (ys ++ [x]).length - LATENCY_WINDOW = 0 := by
        simp only [List.length_append, List.length_singleton]
        omega
      have h2 : ¬ (ys ++ [x]).length > LATENCY_WINDOW := by
        simp only [List.length_append, List.length_singleton]
        omega
      rw [h0, h1]
      simp only [List.drop_zero]
      rw [if_neg h2]
    · have hge : LATENCY_WINDOW ≤ ys.length := by omega
      have h2 : (List.drop (ys.length - LATENCY_WINDOW) ys ++ [x]).length > LATENCY_WINDOW := by
        simp only [List.length_append, List.length_drop, List.length_singleton]
        omega
      rw [if_pos h2]
      have h3 : (ys ++ [x]).length - LATENCY_WINDOW = ys.length - LATENCY_WINDOW + 1 := by
        simp only [List.length_append, List.length_singleton]
        omega
      rw [h3, ← List.tail_drop, List.drop_append_of_le_length (Nat.sub_le _ _)]

/-- C13: for every sequence of `N` latency samples fed to `update_latency_stats` starting
from an empty window, the window holds exactly the last `min N 10000` samples in arrival
order; so its length never exceeds 10,000, and for `N > 10000` it is exactly 10,000, the
oldest samples having been evicted first. -/
theorem latency_window_holds_last_samples (xs : List Nat) (c : HFTTCPClient)
    (h : c.latency_measurements_ = []) :
    (update_latency_stats_all xs c).latency_measurements_ = xs.drop (xs.length - 10000) ∧
    (update_latency_stats_all xs c).latency_measurements_.length = min xs.length 10000 ∧
    (update_latency_stats_all xs c).latency_measurements_.length ≤ 10000 ∧
    (xs.length > 10000 →
      (update_latency_stats_all xs c).latency_measurements_.length = 10000) := by
  have hw := update_latency_stats_all_window xs c h
  have hl : (update_latency_stats_all xs c).latency_measurements_.length
      = min xs.length 10000 := by
    rw [hw, List.length_drop]
    unfold LATENCY_WINDOW
    omega
  refine ⟨hw, hl, ?_, ?_⟩
  · rw [hl]
    exact Nat.min_le_right _ _
  · intro hgt
    rw [hl]
    omega

theorem latency_window_holds_last_samples_witness :
    example_client.latency_measurements_ = [] ∧
    (update_latency_stats_all (List.range 10003) example_client).latency_measurements_
      = (List.range 10003).drop 3 ∧
    (update_latency_stats_all (List.range 10003) example_client).latency_measurements_.length
      = 10000 := by
  have h := latency_window_holds_last_samples (List.range 10003) example_client (by decide)
  rw [List.length_range] at h
  exact ⟨by decide, h.1, h.2.2.2 (by decide)⟩

theorem update_latency_stats_aggregates (x : Nat) (c : HFTTCPClient) :
    (update_latency_stats x c).stats_.total_latency_ns
      = wrap64 (c.stats_.total_latency_ns + x) ∧
    (update_latency_stats x c).stats_.min_latency_ns
      = (if x < c.stats_.min_latency_ns then x else c.stats_.min_latency_ns) ∧
    (update_latency_stats x c).stats_.max_latency_ns
      = (if x > c.stats_.max_latency_ns then x else c.stats_.max_latency_ns) := by
  unfold update_latency_stats calculate_average_latency
  refine ⟨?_, ?_, ?_⟩ <;>
    by_cases h1 : x < c.stats_.min_latency_ns <;>
    by_cases h2 : x > c.stats_.max_latency_ns <;>
    by_cases h3 : c.stats_.messages_received > 0 <;>
    simp [h1, h2, h3]

/-- The running aggregates after a sequence of samples fed from reset values. -/
theorem update_latency_stats_all_aggregates (xs : List Nat) (c : HFTTCPClient)
    (ht : c.stats_.total_latency_ns = 0) (hmin : c.stats_.min_latency_ns = UINT64_MAX)
    (hmax : c.stats_.max_latency_ns = 0) (hx : ∀ x ∈ xs, x < 2 ^ 64) :
    (update_latency_stats_all xs c).stats_.total_latency_ns = wrap64 xs.sum ∧
    ((xs = [] ∧ (update_latency_stats_all xs c).stats_.min_latency_ns = UINT64_MAX) ∨
      ((update_latency_stats_all xs c).stats_.min_latency_ns ∈ xs ∧
        ∀ y ∈ xs, (update_latency_stats_all xs c).stats_.min_latency_ns ≤ y)) ∧
    ((xs = [] ∧ (update_latency_stats_all xs c).stats_.max_latency_ns = 0) ∨
      ((update_latency_stats_all xs c).stats_.max_latency_ns ∈ xs ∧
        ∀ y ∈ xs, y ≤ (update_latency_stats_all xs c).stats_.max_latency_ns)) := by
  induction xs using List.reverseRecOn with
  | nil =>
    refine ⟨?_, Or.inl ⟨rfl, hmin⟩, Or.inl ⟨rfl, hmax⟩⟩
    simpa [update_latency_stats_all, wrap64] using ht
  | append_singleton ys x ih =>
    have hys : ∀ y ∈ ys, y < 2 ^ 64 := fun y hy => hx y (List.mem_append_left _ hy)
    have hxlt : x < 2 ^ 64 := hx x (by simp)
    obtain ⟨it, imin, imax⟩ := ih hys
    obtain ⟨a1, a2, a3⟩ := update_latency_stats_aggregates x (update_latency_stats_all ys c)
    rw [update_latency_stats_all_append]
    refine ⟨?_, Or.inr ?_, Or.inr ?_⟩
    · rw [a1, it, wrap64_add_wrap64, List.sum_append, List.sum_singleton]
    · rw [a2]
      rcases imin with ⟨hnil, hm⟩ | ⟨hmem, hle⟩
      · subst hnil
        rw [hm]
        by_cases hc : x < UINT64_MAX
        · simp [hc]
        · have hxe : x = UINT64_MAX := by
            unfold UINT64_MAX at hc ⊢
            omega
          simp [hxe]
      · by_cases hc : x < (update_latency_stats_all ys c).stats_.min_latency_ns
        · rw [if_pos hc]
          refine ⟨by simp, ?_⟩
          intro y hy
          rcases List.mem_append.mp hy with hy | hy
          · exact le_of_lt (lt_of_lt_of_le hc (hle y hy))
          · simp at hy
            omega
        · rw [if_neg hc]
          refine ⟨List.mem_append_left _ hmem, ?_⟩
          intro y hy
          rcases List.mem_append.mp hy with hy | hy
          · exact hle y hy
          · simp at hy
            omega
    · rw [a3]
      rcases imax with ⟨hnil, hm⟩ | ⟨hmem, hle⟩
      · subst hnil
        rw [hm]
        by_cases hc : x > 0
        · simp [hc]
        · have hxe : x = 0 := by omega
          simp [hxe]
      · by_cases hc : x > (update_latency_stats_all ys c).stats_.max_latency_ns
        · rw [if_pos hc]
          refine ⟨by simp, ?_⟩
          intro y hy
          rcases List.mem_append.mp hy with hy | hy
          · exact le_of_lt (lt_of_le_of_lt (hle y hy) hc)
          · simp at hy
            omega
        · rw [if_neg hc]
          refine ⟨List.mem_append_left _ hmem, ?_⟩
          intro y hy
          rcases List.mem_append.mp hy with hy | hy
          · exact hle y hy
          · simp at hy
            omega

/-- C14: for every non-empty sequence of latency samples (64-bit values) fed to
`update_latency_stats` after a reset, `min_latency_ns` is the minimum and `max_latency_ns`
the maximum of all samples fed, and `total_latency_ns` is their sum modulo `2^64`, however
many of them the 10,000-entry window has evicted. -/
theorem latency_aggregates_cover_full_history (now : Nat) (xs : List Nat) (c : HFTTCPClient)
    (hne : xs ≠ []) (hx : ∀ x ∈ xs, x < 2 ^ 64) :
    (get_stats (update_latency_stats_all xs (reset_stats now c))).min_latency_ns ∈ xs ∧
    (∀ y ∈ xs,
      (get_stats (update_latency_stats_all xs (reset_stats now c))).min_latency_ns ≤ y) ∧
    (get_stats (update_latency_stats_all xs (reset_stats now c))).max_latency_ns ∈ xs ∧
    (∀ y ∈ xs,
      y ≤ (get_stats (update_latency_stats_all xs (reset_stats now c))).max_latency_ns) ∧
    (get_stats (update_latency_stats_all xs (reset_stats now c))).total_latency_ns
      = xs.sum % 2 ^ 64 := by
  obtain ⟨ht, hmin, hmax⟩ :=
    update_latency_stats_all_aggregates xs (reset_stats now c) rfl rfl rfl hx
  rcases hmin with ⟨hnil, -⟩ | ⟨m1, m2⟩
  · exact absurd hnil hne
  rcases hmax with ⟨hnil, -⟩ | ⟨M1, M2⟩
  · exact absurd hnil hne
  exact ⟨m1, m2, M1, M2, ht⟩

theorem latency_aggregates_cover_full_history_witness :
    [5, 3, 9] ≠ ([] : List Nat) ∧ (∀ x ∈ [5, 3, 9], x < 2 ^ 64) ∧
    (get_stats (update_latency_stats_all [5, 3, 9]
      (reset_stats 200 example_connected))).min_latency_ns ∈ [5, 3, 9] ∧
    (get_stats (update_latency_stats_all [5, 3, 9]
      (reset_stats 200 example_connected))).total_latency_ns = [5, 3, 9].sum % 2 ^ 64 :=
  ⟨by decide, by decide,
   (latency_aggregates_cover_full_history 200 [5, 3, 9] example_connected
      (by decide) (by decide)).1,
   (latency_aggregates_cover_full_history 200 [5, 3, 9] example_connected
      (by decide) (by decide)).2.2.2.2⟩

/-! ## Handler registry -/

/-- The effect of `process_message`, case by case on the three handler members, the type
tag and the two payload-length tests. -/
theorem process_message_eq (sz : Sizes) (msg : Message) (c : HFTTCPClient) :
    process_message sz msg c = { c with trace := c.trace ++ handler_calls sz msg c } := by
  unfold process_message handler_calls process_order_message process_market_data_message
  cases hm : c.message_handler_ <;> cases ho : c.order_handler_ <;>
    cases hd : c.market_data_handler_ <;> cases ht : msg.message_type <;>
    by_cases h1 : sz.sizeof_OrderMessage ≤ msg.payload_size <;>
    by_cases h2 : sz.sizeof_MarketDataMessage ≤ msg.payload_size <;>
    simp [hm, ho, hd, h1, h2] <;>
    (cases c; simp_all)

/-- C18: for every frame, `process_message` makes exactly the handler calls of
`handler_calls` and changes nothing else: the generic handler is called exactly once if one
is registered; the order handler is called (once, with the payload decoded as an
`OrderMessage`) if and only if one is registered, the type tag is one of `ORDER_NEW`,
`ORDER_CANCEL`, `ORDER_REPLACE`, `ORDER_FILL`, `ORDER_REJECT` and
`payload_size ≥ sizeof(OrderMessage)`; the market-data handler is called if and only if one
is registered, the tag is `MARKET_DATA` and `payload_size ≥ sizeof(MarketDataMessage)`; a
frame for which a handler is missing is processed all the same, without that call. -/
theorem process_message_calls_registered_handlers (sz : Sizes) (msg : Message)
    (c : HFTTCPClient) :
    process_message sz msg c = { c with trace := c.trace ++ handler_calls sz msg c } ∧
    (c.message_handler_ = false ∧ c.order_handler_ = false ∧ c.market_data_handler_ = false →
      process_message sz msg c = c) := by
  refine ⟨process_message_eq sz msg c, ?_⟩
  rintro ⟨h1, h2, h3⟩
  rw [process_message_eq]
  simp only [handler_calls, h1, h2, h3]
  cases c
  simp_all

theorem process_message_calls_registered_handlers_witness :
    process_message example_layout (example_decode [7, 0, 1, 2, 11, 12, 13, 14])
        example_listening
      = { example_listening with trace := example_listening.trace ++
          [Event.call_message_handler (example_decode [7, 0, 1, 2, 11, 12, 13, 14]),
           Event.call_order_handler [11, 12]] } ∧
    process_message example_layout (example_decode [7, 0, 1, 2, 11, 12, 13, 14])
        example_connected = example_connected :=
  ⟨(process_message_calls_registered_handlers example_layout
      (example_decode [7, 0, 1, 2, 11, 12, 13, 14]) example_listening).1,
   (process_message_calls_registered_handlers example_layout
      (example_decode [7, 0, 1, 2, 11, 12, 13, 14]) example_connected).2
      ⟨by decide, by decide, by decide⟩⟩

/-! ## Receive pipeline: framing -/

theorem frame_bytes_congr (sz : Sizes) (data other : List Nat) (n offset : Nat)
    (h : other.take n = data.take n) (hle : offset + sz.sizeof_Message ≤ n) :
    frame_bytes sz other offset = frame_bytes sz data offset := by
  unfold frame_bytes
  rw [List.take_drop, List.take_drop]
  have h1 : ∀ l : List Nat, List.take (offset + sz.sizeof_Message) l
      = List.take (offset + sz.sizeof_Message) (List.take n l) := by
    intro l
    rw [List.take_take, Nat.min_eq_left hle]
  rw [h1 other, h1 data, h]

/-- The loop of `process_received_data`, entered at frame index `k` with `r` whole frames
left and at least `r` iterations of fuel, dispatches those `r` frames and ends. -/
theorem process_received_data_loop_eq (sz : Sizes) (decode : List Nat → Message)
    (clock : Nat → Nat) (data : List Nat) (size : Nat) (hF : 0 < sz.sizeof_Message)
    (r k fuel : Nat) (c : HFTTCPClient)
    (hk : k + r = size / sz.sizeof_Message) (hfuel : r ≤ fuel) :
    process_received_data_loop sz decode clock data size fuel k (k * sz.sizeof_Message) c =
      some ((List.range' k r).foldl
        (fun acc j => dispatch_frame sz (clock j) (frame_at sz decode data j) acc) c) := by
  induction r generalizing k fuel c with
  | zero =>
    have hnot : ¬ (k * sz.sizeof_Message + sz.sizeof_Message ≤ size) := by
      intro hle
      have h1 : (k + 1) * sz.sizeof_Message ≤ size := by
        rw [Nat.succ_mul]
        exact hle
      have h2 := (Nat.le_div_iff_mul_le hF).mpr h1
      omega
    cases fuel <;> simp [process_received_data_loop, hnot]
  | succ r ih =>
    have hyes : k * sz.sizeof_Message + sz.sizeof_Message ≤ size := by
      have h1 : k + 1 ≤ size / sz.sizeof_Message := by omega
      have h2 := (Nat.le_div_iff_mul_le hF).mp h1
      rw [Nat.succ_mul] at h2
      exact h2
    obtain ⟨f, rfl⟩ : ∃ f, fuel = f + 1 := ⟨fuel - 1, by omega⟩
    have hoff : k * sz.sizeof_Message + sz.sizeof_Message = (k + 1) * sz.sizeof_Message := by
      rw [Nat.succ_mul]
    simp only [process_received_data_loop, hyes, if_true]
    rw [hoff, ih (k + 1) f _ (by omega) (by omega), List.range'_succ, List.foldl_cons]
    rfl

theorem process_received_data_eq (sz : Sizes) (decode : List Nat → Message)
    (clock : Nat → Nat) (data : List Nat) (size : Nat) (c : HFTTCPClient)
    (hF : 0 < sz.sizeof_Message) :
    process_received_data sz decode clock data size c
      = some (dispatch_frames sz decode clock data (size / sz.sizeof_Message) c) := by
  have h := process_received_data_loop_eq sz decode clock data size hF
    (size / sz.sizeof_Message) 0 size c (by omega) (Nat.div_le_self _ _)
  rw [Nat.zero_mul] at h
  rw [process_received_data, h, dispatch_frames, List.range_eq_range']

theorem dispatch_frames_congr (sz : Sizes) (decode : List Nat → Message) (clock : Nat → Nat)
    (data other : List Nat) (count : Nat) (c : HFTTCPClient)
    (h : other.take (count * sz.sizeof_Message) = data.take (count * sz.sizeof_Message)) :
    dispatch_frames sz decode clock other count c
      = dispatch_frames sz decode clock data count c := by
  unfold dispatch_frames
  have hfun : ∀ k ∈ List.range count, ∀ acc : HFTTCPClient,
      dispatch_frame sz (clock k) (frame_at sz decode other k) acc
        = dispatch_frame sz (clock k) (frame_at sz decode data k) acc := by
    intro k hk acc
    have hlt : k < count := List.mem_range.mp hk
    have hle : k * sz.sizeof_Message + sz.sizeof_Message ≤ count * sz.sizeof_Message := by
      have h1 : (k + 1) * sz.sizeof_Message ≤ count * sz.sizeof_Message :=
        Nat.mul_le_mul_right _ hlt
      rw [Nat.succ_mul] at h1
      exact h1
    unfold frame_at
    rw [frame_bytes_congr sz data other _ _ h hle]
  generalize List.range count = ks at hfun
  induction ks generalizing c with
  | nil => rfl
  | cons k rest ih =>
    simp only [List.foldl_cons]
    rw [hfun k (List.mem_cons_self k rest) c]
    exact ih _ (fun j hj acc => hfun j (List.mem_cons_of_mem k hj) acc)

/-- C11: for every buffer and every `n` (with `F = sizeof(Message) > 0`),
`process_received_data` terminates, having dispatched exactly `n / F` frames in increasing
index, the `k`-th decoded from the bytes `[k * F, (k + 1) * F)`, all of which lie below `n`;
its result is the same for any other buffer with the same first `(n / F) * F` bytes, so it
reads no byte at an index `≥ n` and the trailing `n mod F` bytes are discarded; and the
result depends on nothing but the client and this one read: nothing is carried over. -/
theorem process_received_data_dispatches_whole_frames (sz : Sizes)
    (decode : List Nat → Message) (clock : Nat → Nat) (data : List Nat) (n : Nat)
    (c : HFTTCPClient) (hF : 0 < sz.sizeof_Message) :
    process_received_data sz decode clock data n c
      = some ((List.range (n / sz.sizeof_Message)).foldl
          (fun acc k => dispatch_frame sz (clock k)
            (decode ((data.drop (k * sz.sizeof_Message)).take sz.sizeof_Message)) acc) c) ∧
    (List.range (n / sz.sizeof_Message)).length = n / sz.sizeof_Message ∧
    (∀ k < n / sz.sizeof_Message, (k + 1) * sz.sizeof_Message ≤ n) ∧
    n / sz.sizeof_Message * sz.sizeof_Message + n % sz.sizeof_Message = n ∧
    (∀ other : List Nat,
      other.take (n / sz.sizeof_Message * sz.sizeof_Message)
        = data.take (n / sz.sizeof_Message * sz.sizeof_Message) →
      process_received_data sz decode clock other n c
        = process_received_data sz decode clock data n c) ∧
    (∀ other : List Nat, other.take n = data.take n →
      process_received_data sz decode clock other n c
        = process_received_data sz decode clock data n c) := by
  have hcongr : ∀ other : List Nat,
      other.take (n / sz.sizeof_Message * sz.sizeof_Message)
        = data.take (n / sz.sizeof_Message * sz.sizeof_Message) →
      process_received_data sz decode clock other n c
        = process_received_data sz decode clock data n c := by
    intro other h
    rw [process_received_data_eq sz decode clock other n c hF,
      process_received_data_eq sz decode clock data n c hF,
      dispatch_frames_congr sz decode clock data other _ c h]
  refine ⟨?_, List.length_range _, ?_, ?_, hcongr, ?_⟩
  · rw [process_received_data_eq sz decode clock data n c hF]
    rfl
  · intro k hk
    exact (Nat.le_div_iff_mul_le hF).mp hk
  · rw [Nat.mul_comm]
    exact Nat.div_add_mod n sz.sizeof_Message
  · intro other h
    apply hcongr
    have hle : n / sz.sizeof_Message * sz.sizeof_Message ≤ n := Nat.div_mul_le_self _ _
    have h1 : ∀ l : List Nat, List.take (n / sz.sizeof_Message * sz.sizeof_Message) l
        = List.take (n / sz.sizeof_Message * sz.sizeof_Message) (List.take n l) := by
      intro l
      rw [List.take_take, Nat.min_eq_left hle]
    rw [h1 other, h1 data, h]

theorem process_received_data_dispatches_whole_frames_witness :
    0 < example_layout.sizeof_Message ∧
    process_received_data example_layout example_decode example_clock
        [1, 0, 3, 0, 0, 0, 0, 0, 2, 0, 3, 0, 0, 0, 0, 0, 9, 9, 9] 19 example_listening
      = some (dispatch_frame example_layout (example_clock 1)
          (example_decode [2, 0, 3, 0, 0, 0, 0, 0])
          (dispatch_frame example_layout (example_clock 0)
            (example_decode [1, 0, 3, 0, 0, 0, 0, 0]) example_listening)) :=
  ⟨by decide,
   (process_received_data_dispatches_whole_frames example_layout example_decode example_clock
      [1, 0, 3, 0, 0, 0, 0, 0, 2, 0, 3, 0, 0, 0, 0, 0, 9, 9, 9] 19 example_listening
      (by decide)).1⟩

/-! ## Receive pipeline: latency of received frames -/

theorem wrap64_eq_mod (x : Nat) : wrap64 x = x % 2 ^ 64 := rfl

/-- The statistics after the dispatch of one frame that carries a timestamp. -/
theorem dispatch_frame_stats_of_timestamp (sz : Sizes) (t : Nat) (msg : Message)
    (c : HFTTCPClient) (h : 0 < msg.timestamp) :
    (dispatch_frame sz t msg c).stats_.messages_received
      = wrap64 (c.stats_.messages_received + 1) ∧
    (dispatch_frame sz t msg c).stats_.total_latency_ns
      = wrap64 (c.stats_.total_latency_ns + sub64 t msg.timestamp) ∧
    (dispatch_frame sz t msg c).stats_.avg_latency_us
      = (if c.stats_.messages_received > 0 then
          ((wrap64 (c.stats_.total_latency_ns + sub64 t msg.timestamp) : ℚ) / 1000)
            / (c.stats_.messages_received : ℚ)
        else c.stats_.avg_latency_us) := by
  unfold dispatch_frame
  simp only [h, if_true, gt_iff_lt, process_message_eq]
  unfold update_latency_stats calculate_average_latency
  refine ⟨?_, ?_, ?_⟩ <;>
    by_cases h1 : sub64 t msg.timestamp < c.stats_.min_latency_ns <;>
    by_cases h2 : sub64 t msg.timestamp > c.stats_.max_latency_ns <;>
    by_cases h3 : c.stats_.messages_received > 0 <;>
    simp [h1, h2, h3]

theorem dispatch_frames_succ (sz : Sizes) (decode : List Nat → Message) (clock : Nat → Nat)
    (data : List Nat) (j : Nat) (c : HFTTCPClient) :
    dispatch_frames sz decode clock data (j + 1) c
      = dispatch_frame sz (clock j) (frame_at sz decode data j)
          (dispatch_frames sz decode clock data j c) := by
  simp [dispatch_frames, List.range_succ, List.foldl_append]

/-- The received count, the running total and the average after the first `j` frames of a
buffer, all with a timestamp, processed from reset statistics. -/
theorem dispatch_frames_latency_stats (sz : Sizes) (decode : List Nat → Message)
    (clock : Nat → Nat) (data : List Nat) (now : Nat) (c : HFTTCPClient) (j : Nat)
    (hj : j < 2 ^ 64) (hts : ∀ k < j, 0 < (frame_at sz decode data k).timestamp) :
    (dispatch_frames sz decode clock data j (reset_stats now c)).stats_.messages_received = j ∧
    (dispatch_frames sz decode clock data j (reset_stats now c)).stats_.total_latency_ns
      = wrap64 ((List.range j).map (latency_of sz decode clock data)).sum ∧
    (dispatch_frames sz decode clock data j (reset_stats now c)).stats_.avg_latency_us
      = (if j ≤ 1 then 0 else
          (((dispatch_frames sz decode clock data j
              (reset_stats now c)).stats_.total_latency_ns : ℚ) / 1000)
            / ((j - 1 : Nat) : ℚ)) := by
  induction j with
  | zero =>
    refine ⟨rfl, ?_, ?_⟩
    · simp [dispatch_frames, reset_stats, ClientStats.fresh, wrap64]
    · simp [dispatch_frames, reset_stats, ClientStats.fresh]
  | succ j ih =>
    obtain ⟨i1, i2, i3⟩ := ih (by omega) (fun k hk => hts k (by omega))
    obtain ⟨d1, d2, d3⟩ := dispatch_frame_stats_of_timestamp sz (clock j)
      (frame_at sz decode data j) (dispatch_frames sz decode clock data j (reset_stats now c))
      (hts j (by omega))
    rw [dispatch_frames_succ]
    have htot : (dispatch_frame sz (clock j) (frame_at sz decode data j)
        (dispatch_frames sz decode clock data j (reset_stats now c))).stats_.total_latency_ns
        = wrap64 ((List.range (j + 1)).map (latency_of sz decode clock data)).sum := by
      rw [d2, i2, wrap64_add_wrap64, List.range_succ, List.map_append, List.sum_append]
      simp [latency_of]
    refine ⟨?_, htot, ?_⟩
    · rw [d1, i1]
      exact wrap64_of_lt hj
    · rw [d3, i1, i3]
      by_cases h0 : j = 0
      · subst h0
        simp
      · have hpos : j > 0 := by omega
        have hnot : ¬ (j + 1 ≤ 1) := by omega
        rw [if_pos hpos, if_neg hnot, ← d2]
        simp

/-- C12 (what the code does): after `process_received_data` has processed, from reset
statistics, a buffer of `m ≥ 1` whole frames that all carry a non-zero timestamp,
`get_stats` reports `messages_received = m` and `total_latency_ns` the sum of the `m`
latencies (modulo `2^64`), but `avg_latency_us` is 0 when `m = 1` and
`(total_latency_ns / 1000) / (m - 1)` when `m ≥ 2`: the average is recomputed before the
frame is counted as received, so its divisor lags the received count by one. -/
theorem average_latency_divisor_lags_received_count (sz : Sizes)
    (decode : List Nat → Message) (clock : Nat → Nat) (data : List Nat) (n now : Nat)
    (c : HFTTCPClient) (hF : 0 < sz.sizeof_Message) (hn : n < 2 ^ 64)
    (hm : 1 ≤ n / sz.sizeof_Message)
    (hts : ∀ k < n / sz.sizeof_Message,
      0 < (decode ((data.drop (k * sz.sizeof_Message)).take sz.sizeof_Message)).timestamp) :
    ∃ c1, process_received_data sz decode clock data n (reset_stats now c) = some c1 ∧
      (get_stats c1).messages_received = n / sz.sizeof_Message ∧
      (get_stats c1).total_latency_ns
        = ((List.range (n / sz.sizeof_Message)).map (fun k => sub64 (clock k)
            (decode ((data.drop (k * sz.sizeof_Message)).take sz.sizeof_Message)).timestamp)).sum
          % 2 ^ 64 ∧
      (get_stats c1).avg_latency_us
        = (if n / sz.sizeof_Message = 1 then 0 else
            (((get_stats c1).total_latency_ns : ℚ) / 1000)
              / ((n / sz.sizeof_Message - 1 : Nat) : ℚ)) := by
  have hlt : n / sz.sizeof_Message < 2 ^ 64 := lt_of_le_of_lt (Nat.div_le_self _ _) hn
  obtain ⟨i1, i2, i3⟩ := dispatch_frames_latency_stats sz decode clock data now c
    (n / sz.sizeof_Message) hlt hts
  refine ⟨_, process_received_data_eq sz decode clock data n _ hF, i1, i2, ?_⟩
  rw [get_stats, i3]
  by_cases h1 : n / sz.sizeof_Message = 1
  · simp [h1]
  · have hnot : ¬ (n / sz.sizeof_Message ≤ 1) := by omega
    rw [if_neg hnot, if_neg h1]

theorem average_latency_divisor_lags_received_count_witness :
    0 < example_layout.sizeof_Message ∧
    ∃ c1, process_received_data example_layout example_decode example_clock
        [1, 200, 3, 0, 0, 0, 0, 0, 2, 100, 3, 0, 0, 0, 0, 0] 16
        (reset_stats 300 example_connected) = some c1 ∧
      (get_stats c1).messages_received = 2 ∧
      (get_stats c1).total_latency_ns = 10700 ∧
      (get_stats c1).avg_latency_us = 107 / 10 ∧
      (get_stats c1).avg_latency_us
        ≠ (((get_stats c1).total_latency_ns : ℚ) / 1000)
            / ((get_stats c1).messages_received : ℚ) := by
  refine ⟨by decide, ?_⟩
  obtain ⟨c1, h1, h2, h3, h4⟩ :=
    average_latency_divisor_lags_received_count example_layout example_decode example_clock
      [1, 200, 3, 0, 0, 0, 0, 0, 2, 100, 3, 0, 0, 0, 0, 0] 16 300 example_connected
      (by decide) (by decide) (by decide) (by decide)
  have h2v : (get_stats c1).messages_received = 2 := h2
  have h3v : (get_stats c1).total_latency_ns = 10700 := h3.trans (by decide)
  have h4v : (get_stats c1).avg_latency_us = 107 / 10 := by
    rw [h4, h3v]
    have hdiv : 16 / example_layout.sizeof_Message = 2 := by decide
    rw [hdiv]
    norm_num
  refine ⟨c1, h1, h2v, h3v, h4v, ?_⟩
  rw [h4v, h3v, h2v]
  norm_num

/-! ## Send pipeline: what the sender loop writes -/

theorem written_blocks_append (encode : Message → List Nat) (a b : List Event) :
    written_blocks encode (a ++ b) = written_blocks encode a ++ written_blocks encode b := by
  induction a with
  | nil => rfl
  | cons x rest ih => cases x <;> simp [written_blocks, ih]

theorem handed_to_send_append (a b : List Event) :
    handed_to_send (a ++ b) = handed_to_send a ++ handed_to_send b := by
  induction a with
  | nil => rfl
  | cons x rest ih => cases x <;> simp [handed_to_send, ih]

theorem written_blocks_complete_sends (sz : Sizes) (encode : Message → List Nat) (fd : Int)
    (fs : List Message) (henc : ∀ m, (encode m).length = sz.sizeof_Message) :
    written_blocks encode (fs.map (fun m => Event.sys_send fd m (sz.sizeof_Message : Int)))
      = fs.map encode := by
  induction fs with
  | nil => rfl
  | cons m rest ih =>
    simp only [List.map_cons, written_blocks, ih, Int.toNat_ofNat]
    rw [List.take_of_length_le (le_of_eq (henc m))]

theorem handed_to_send_sends (fd ret : Int) (fs : List Message) :
    handed_to_send (fs.map (fun m => Event.sys_send fd m ret)) = fs.map (fun m => (m, ret)) := by
  induction fs with
  | nil => rfl
  | cons m rest ih => simp [handed_to_send, ih]

/-- The effect of a sequence of `send_message` calls made in state `CONNECTED`. -/
theorem send_messages_connected (sz : Sizes) (fs : List Message) (c : HFTTCPClient)
    (h : c.connection_state_ = ConnectionState.CONNECTED) :
    send_messages sz fs c =
      { c with
        send_queue_ := c.send_queue_ ++ fs
        stats_ := { c.stats_ with
          messages_sent := (fun v => wrap64 (v + 1))^[fs.length] c.stats_.messages_sent
          bytes_sent :=
            (fun v => wrap64 (v + sz.sizeof_Message))^[fs.length] c.stats_.bytes_sent } } := by
  induction fs generalizing c with
  | nil => simp [send_messages]
  | cons m rest ih =>
    have hs : (send_message sz m c).2.connection_state_ = ConnectionState.CONNECTED := by
      simp [send_message, h]
    rw [send_messages, ih _ hs]
    simp [send_message, h]

/-- C16: for every outbound queue content `[f1, ..., fk]` built by successive successful
`send_message` calls, when the sender loop drains the queue while `CONNECTED` and every
write is complete, the loop ends with the queue empty, having made exactly one `send` call
per frame, for `f1, ..., fk` in that order, each returning `sizeof(Message)`; the byte blocks
written are exactly the `sizeof(Message)`-byte images of `f1, ..., fk` in that order. -/
theorem sender_loop_writes_queue_in_order (sz : Sizes) (encode : Message → List Nat)
    (fs : List Message) (c : HFTTCPClient)
    (h : c.connection_state_ = ConnectionState.CONNECTED) (hfd : c.socket_fd_ ≠ -1)
    (hq : c.send_queue_ = []) (henc : ∀ m, (encode m).length = sz.sizeof_Message) :
    (send_messages sz fs c).send_queue_ = fs ∧
    ∃ c1, send_thread_func sz (List.replicate fs.length (SendEnv.mk (sz.sizeof_Message : Int) []))
        (send_messages sz fs c) = some c1 ∧
      c1.send_queue_ = [] ∧
      c1.connection_state_ = ConnectionState.CONNECTED ∧
      c1.trace = c.trace ++
        fs.map (fun m => Event.sys_send c.socket_fd_ m (sz.sizeof_Message : Int)) ∧
      handed_to_send c1.trace = handed_to_send c.trace ++
        fs.map (fun m => (m, (sz.sizeof_Message : Int))) ∧
      written_blocks encode c1.trace = written_blocks encode c.trace ++ fs.map encode ∧
      (∀ b ∈ fs.map encode, b.length = sz.sizeof_Message) := by
  have hsm := send_messages_connected sz fs c h
  have hqueue : (send_messages sz fs c).send_queue_ = fs := by
    rw [hsm]
    simp [hq]
  have h2 : (send_messages sz fs c).connection_state_ = ConnectionState.CONNECTED := by
    rw [hsm]
    exact h
  have h3 : (send_messages sz fs c).socket_fd_ ≠ -1 := by
    rw [hsm]
    exact hfd
  have hfdeq : (send_messages sz fs c).socket_fd_ = c.socket_fd_ := by
    rw [hsm]
  have htr : (send_messages sz fs c).trace = c.trace := by
    rw [hsm]
  have hdrain := send_thread_func_all_written sz fs (send_messages sz fs c) hqueue h2 h3
  refine ⟨hqueue, _, hdrain, rfl, h2, ?_, ?_, ?_, ?_⟩
  · simp only [hfdeq, htr]
  · simp only [hfdeq, htr, handed_to_send_append, handed_to_send_sends]
  · simp only [hfdeq, htr, written_blocks_append,
      written_blocks_complete_sends sz encode c.socket_fd_ fs henc]
  · intro b hb
    obtain ⟨m, -, rfl⟩ := List.mem_map.mp hb
    exact henc m

theorem example_encode_length (m : Message) :
    (example_encode m).length = example_layout.sizeof_Message := by
  simp [example_encode, example_layout]

theorem sender_loop_writes_queue_in_order_witness :
    example_connected.connection_state_ = ConnectionState.CONNECTED ∧
    example_connected.socket_fd_ ≠ -1 ∧
    example_connected.send_queue_ = [] ∧
    (send_messages example_layout
      [example_decode [1, 200, 3, 0, 0, 0, 0, 0], example_decode [2, 100, 3, 0, 0, 0, 0, 0]]
      example_connected).send_queue_
      = [example_decode [1, 200, 3, 0, 0, 0, 0, 0], example_decode [2, 100, 3, 0, 0, 0, 0, 0]] ∧
    ∃ c1, send_thread_func example_layout
        (List.replicate 2 (SendEnv.mk (example_layout.sizeof_Message : Int) []))
        (send_messages example_layout
          [example_decode [1, 200, 3, 0, 0, 0, 0, 0], example_decode [2, 100, 3, 0, 0, 0, 0, 0]]
          example_connected) = some c1 ∧
      c1.send_queue_ = [] ∧
      written_blocks example_encode c1.trace
        = [[1, 200, 3, 0, 0, 0, 0, 0], [2, 100, 3, 0, 0, 0, 0, 0]] := by
  obtain ⟨h1, c1, h2, h3, -, -, -, h7, -⟩ :=
    sender_loop_writes_queue_in_order example_layout example_encode
      [example_decode [1, 200, 3, 0, 0, 0, 0, 0], example_decode [2, 100, 3, 0, 0, 0, 0, 0]]
      example_connected (by decide) (by decide) (by decide) example_encode_length
  exact ⟨by decide, by decide, by decide, h1, c1, h2, h3, h7.trans (by decide)⟩

/-! ## Send pipeline: what becomes of an accepted frame -/

theorem handed_to_send_failed_connect_events (e : ConnectEnv) :
    handed_to_send (failed_connect_events e) = [] := by
  unfold failed_connect_events
  split <;> rfl

/-- A `connect` call touches neither the queue nor the record of `send` calls, and leaves a
client that holds a socket whenever it is `CONNECTED`. -/
theorem connect_keeps_pipeline (e : ConnectEnv) (t : Nat) (c : HFTTCPClient)
    (hw : socket_valid_when_connected c) :
    (connect e t c).2.send_queue_ = c.send_queue_ ∧
    handed_to_send (connect e t c).2.trace = handed_to_send c.trace ∧
    socket_valid_when_connected (connect e t c).2 := by
  by_cases hc : c.connection_state_ = ConnectionState.CONNECTED
  · have h : connect e t c = (true, c) := by simp [connect, hc]
    rw [h]
    exact ⟨rfl, rfl, hw⟩
  · by_cases hs : e.all_steps_succeed
    · rw [connect_of_all_steps_succeed e t c hc hs]
      refine ⟨rfl, ?_, ?_⟩
      · simp [handed_to_send_append, handed_to_send]
      · intro _
        exact hs.1
    · rw [connect_of_some_step_fails e t c hc ((some_step_fails_iff e).mpr hs)]
      refine ⟨rfl, ?_, ?_⟩
      · simp [handed_to_send_append, handed_to_send_failed_connect_events]
      · intro h
        simp at h

theorem after_sleep_keeps_pipeline (e : ReconnectEnv) (c : HFTTCPClient) :
    (after_sleep e c).send_queue_ = c.send_queue_ ∧
    (after_sleep e c).socket_fd_ = c.socket_fd_ ∧
    (after_sleep e c).connection_state_ = c.connection_state_ ∧
    handed_to_send (after_sleep e c).trace = handed_to_send c.trace := by
  unfold after_sleep
  rcases e.concurrent_set with _ | ⟨b, ms⟩ <;>
    simp [set_auto_reconnect, handed_to_send_append, handed_to_send]

theorem attempt_reconnection_keeps_pipeline (script : List ReconnectEnv)
    (c c1 : HFTTCPClient) (hw : socket_valid_when_connected c)
    (hr : attempt_reconnection script c = some c1) :
    c1.send_queue_ = c.send_queue_ ∧
    handed_to_send c1.trace = handed_to_send c.trace ∧
    socket_valid_when_connected c1 := by
  induction script generalizing c with
  | nil => simp [attempt_reconnection] at hr
  | cons e rest ih =>
    simp only [attempt_reconnection] at hr
    have hw1 : socket_valid_when_connected
        { c with stats_ := { c.stats_ with
          reconnection_attempts := wrap64 (c.stats_.reconnection_attempts + 1) } } := hw
    obtain ⟨k1, k2, k3⟩ := connect_keeps_pipeline e.net 5000 _ hw1
    split at hr
    · cases hr
      exact ⟨k1, k2, k3⟩
    · obtain ⟨s1, s2, s3, s4⟩ := after_sleep_keeps_pipeline e
        (connect e.net 5000 { c with stats_ := { c.stats_ with
          reconnection_attempts := wrap64 (c.stats_.reconnection_attempts + 1) } }).2
      have hw2 : socket_valid_when_connected (after_sleep e
          (connect e.net 5000 { c with stats_ := { c.stats_ with
            reconnection_attempts := wrap64 (c.stats_.reconnection_attempts + 1) } }).2) := by
        intro hst
        rw [s2]
        rw [s3] at hst
        exact k3 hst
      split at hr
      · obtain ⟨i1, i2, i3⟩ := ih _ hw2 hr
        exact ⟨i1.trans (s1.trans k1), i2.trans (s4.trans k2), i3⟩
      · cases hr
        exact ⟨s1.trans k1, s4.trans k2, hw2⟩

theorem handle_disconnection_eq (script : List ReconnectEnv) (c : HFTTCPClient) :
    handle_disconnection script c =
      if c.connection_state_ = ConnectionState.DISCONNECTED then some c
      else if (drop_connection c).auto_reconnect_ then
        attempt_reconnection script
          (store_state ConnectionState.RECONNECTING (drop_connection c))
      else some (drop_connection c) := rfl

theorem drop_connection_fields (c : HFTTCPClient) :
    (drop_connection c).send_queue_ = c.send_queue_ ∧
    handed_to_send (drop_connection c).trace = handed_to_send c.trace ∧
    (drop_connection c).connection_state_ = ConnectionState.DISCONNECTED ∧
    (drop_connection c).stats_ = c.stats_ := by
  unfold drop_connection
  split <;> simp [store_state, close_socket, handed_to_send_append, handed_to_send]

theorem handle_disconnection_keeps_pipeline (script : List ReconnectEnv)
    (c c1 : HFTTCPClient) (hw : socket_valid_when_connected c)
    (hr : handle_disconnection script c = some c1) :
    c1.send_queue_ = c.send_queue_ ∧
    handed_to_send c1.trace = handed_to_send c.trace ∧
    socket_valid_when_connected c1 := by
  rw [handle_disconnection_eq] at hr
  obtain ⟨d1, d2, d3, -⟩ := drop_connection_fields c
  split at hr
  · cases hr
    exact ⟨rfl, rfl, hw⟩
  · split at hr
    · have hw2 : socket_valid_when_connected
          (store_state ConnectionState.RECONNECTING (drop_connection c)) := by
        intro h
        simp [store_state] at h
      obtain ⟨i1, i2, i3⟩ := attempt_reconnection_keeps_pipeline script _ c1 hw2 hr
      refine ⟨i1.trans d1, i2.trans ?_, i3⟩
      simp only [store_state, handed_to_send_append, handed_to_send, List.append_nil]
      exact d2
    · cases hr
      refine ⟨d1, d2, ?_⟩
      intro h
      rw [d3] at h
      cases h

/-- One iteration of the sender loop on a `CONNECTED` client that holds a socket and has a
frame queued. -/
theorem send_thread_func_cons (sz : Sizes) (e : SendEnv) (es : List SendEnv)
    (c : HFTTCPClient) (msg : Message) (queue : List Message)
    (hq : c.send_queue_ = msg :: queue)
    (hc : c.connection_state_ = ConnectionState.CONNECTED) (hfd : c.socket_fd_ ≠ -1) :
    send_thread_func sz (e :: es) c =
      if e.send_ret = (sz.sizeof_Message : Int) then
        send_thread_func sz es
          { c with
            send_queue_ := queue
            trace := c.trace ++ [Event.sys_send c.socket_fd_ msg e.send_ret]
            stats_ := { c.stats_ with
              messages_sent := wrap64 (c.stats_.messages_sent + 1)
              bytes_sent := wrap64 (c.stats_.bytes_sent + sz.sizeof_Message) } }
      else
        match handle_disconnection e.reconnect
          { c with
            send_queue_ := queue
            trace := c.trace ++ [Event.sys_send c.socket_fd_ msg e.send_ret]
            stats_ := { c.stats_ with errors := wrap64 (c.stats_.errors + 1) } } with
        | none => none
        | some c3 => send_thread_func sz es c3 := by
  simp only [send_thread_func, hq, hc, send_data, hfd]
  by_cases hr : e.send_ret = (sz.sizeof_Message : Int) <;> simp [hr]

/-- The sender loop accounts for every frame it takes from the queue: each is handed to one
`send` call, in queue order, and what it does not take stays queued in order. -/
theorem send_thread_func_accounts (sz : Sizes) (envs : List SendEnv) (c c1 : HFTTCPClient)
    (hw : socket_valid_when_connected c) (hr : send_thread_func sz envs c = some c1) :
    socket_valid_when_connected c1 ∧
    ∃ handed : List (Message × Int),
      handed_to_send c1.trace = handed_to_send c.trace ++ handed ∧
      c.send_queue_ = handed.map Prod.fst ++ c1.send_queue_ := by
  induction envs generalizing c with
  | nil =>
    rcases hq : c.send_queue_ with _ | ⟨msg, queue⟩
    · simp only [send_thread_func, hq] at hr
      cases hr
      exact ⟨hw, [], by simp, by simp [hq]⟩
    · simp only [send_thread_func, hq] at hr
      split at hr
      · cases hr
        exact ⟨hw, [], by simp, by simp [hq]⟩
      · cases hr
  | cons e es ih =>
    rcases hq : c.send_queue_ with _ | ⟨msg, queue⟩
    · simp only [send_thread_func, hq] at hr
      cases hr
      exact ⟨hw, [], by simp, by simp [hq]⟩
    · by_cases hc : c.connection_state_ = ConnectionState.CONNECTED
      · rw [send_thread_func_cons sz e es c msg queue hq hc (hw hc)] at hr
        split at hr
        · obtain ⟨w1, handed, a1, a2⟩ := ih _ (by intro _; exact hw hc) hr
          refine ⟨w1, (msg, e.send_ret) :: handed, ?_, ?_⟩
          · rw [a1]
            simp [handed_to_send_append, handed_to_send]
          · simp only [List.map_cons, List.cons_append]
            rw [← a2]
        · split at hr
          · cases hr
          · rename_i c3 hd
            obtain ⟨k1, k2, k3⟩ := handle_disconnection_keeps_pipeline e.reconnect _ c3
              (by intro _; exact hw hc) hd
            obtain ⟨w1, handed, a1, a2⟩ := ih c3 k3 hr
            refine ⟨w1, (msg, e.send_ret) :: handed, ?_, ?_⟩
            · rw [a1, k2]
              simp [handed_to_send_append, handed_to_send]
            · simp only [List.map_cons, List.cons_append]
              rw [← a2, k1]
      · simp only [send_thread_func, hq] at hr
        simp only [ne_eq, hc, not_false_eq_true, if_true] at hr
        cases hr
        exact ⟨hw, [], by simp, by simp [hq]⟩

/-- A run of the send pipeline accounts for every accepted frame. -/
theorem run_pipeline_accounts (sz : Sizes) (steps : List PipelineStep)
    (c c1 : HFTTCPClient) (accepted : List Message)
    (hw : socket_valid_when_connected c)
    (hr : run_pipeline sz steps c = some (c1, accepted)) :
    socket_valid_when_connected c1 ∧
    ∃ handed : List (Message × Int),
      handed_to_send c1.trace = handed_to_send c.trace ++ handed ∧
      c.send_queue_ ++ accepted = handed.map Prod.fst ++ c1.send_queue_ := by
  induction steps generalizing c accepted with
  | nil =>
    simp only [run_pipeline, Option.some.injEq, Prod.mk.injEq] at hr
    obtain ⟨rfl, rfl⟩ := hr
    exact ⟨hw, [], by simp, by simp⟩
  | cons step rest ih =>
    cases step with
    | enqueue msg =>
      simp only [run_pipeline] at hr
      split at hr
      · cases hr
      · rename_i c2 acc hrest
        simp only [Option.some.injEq, Prod.mk.injEq] at hr
        obtain ⟨rfl, hacc⟩ := hr
        by_cases hc : c.connection_state_ = ConnectionState.CONNECTED
        · have hsm : send_message sz msg c = (true,
              { c with
                send_queue_ := c.send_queue_ ++ [msg]
                stats_ := { c.stats_ with
                  messages_sent := wrap64 (c.stats_.messages_sent + 1)
                  bytes_sent := wrap64 (c.stats_.bytes_sent + sz.sizeof_Message) } }) := by
            simp [send_message, hc]
          rw [hsm] at hrest hacc
          dsimp only at hrest hacc
          obtain ⟨w1, handed, a1, a2⟩ := ih _ acc (by intro _; exact hw hc) hrest
          refine ⟨w1, handed, a1, ?_⟩
          rw [← a2, ← hacc]
          simp
        · have hsm : send_message sz msg c = (false, c) := by simp [send_message, hc]
          rw [hsm] at hrest hacc
          dsimp only at hrest hacc
          obtain ⟨w1, handed, a1, a2⟩ := ih c acc hw hrest
          refine ⟨w1, handed, a1, ?_⟩
          rw [← a2, ← hacc]
          simp
    | sender envs =>
      simp only [run_pipeline] at hr
      split at hr
      · cases hr
      · rename_i c2 hsend
        obtain ⟨w2, handed2, b1, b2⟩ := send_thread_func_accounts sz envs c c2 hw hsend
        obtain ⟨w1, handed, a1, a2⟩ := ih c2 accepted w2 hr
        refine ⟨w1, handed2 ++ handed, ?_, ?_⟩
        · rw [a1, b1, List.append_assoc]
        · rw [b2, List.append_assoc, a2, List.map_append, List.append_assoc]

/-- C17 (counterexample): `send_message` accepts a frame on the connected example client;
the sender loop pops it and `send` transfers only 10 of its 64 bytes. After the run the frame
is not in the outbound queue (the queue is empty) and the only `send` call made for it was
not complete: the accepted frame is lost. -/
theorem accepted_frame_lost_on_short_write :
    (send_message example_sizes example_frame example_connected).1 = true ∧
    Option.map (fun r => r.2) (run_pipeline example_sizes example_short_write_run
      example_connected) = some [example_frame] ∧
    Option.map (fun r => r.1.send_queue_) (run_pipeline example_sizes example_short_write_run
      example_connected) = some [] ∧
    Option.map (fun r => handed_to_send r.1.trace) (run_pipeline example_sizes
      example_short_write_run example_connected) = some [(example_frame, 10)] ∧
    (10 : Int) ≠ (example_sizes.sizeof_Message : Int) := by
  decide

/-- C17 (amended): for every run of `send_message` calls and sender-loop wake-ups that
starts from a client holding a socket whenever it is `CONNECTED`, every frame for which
`send_message` returned true is either still in the outbound queue or has been handed by the
sender loop to one `send` call; frames are handed over in acceptance order, none twice and
none skipped. (Such a frame is written completely when that call returns `sizeof(Message)`;
when it does not, the frame is not put back.) -/
theorem accepted_frames_queued_or_handed_to_send (sz : Sizes) (steps : List PipelineStep)
    (c c1 : HFTTCPClient) (accepted : List Message)
    (hw : socket_valid_when_connected c)
    (hr : run_pipeline sz steps c = some (c1, accepted)) :
    ∃ handed : List (Message × Int),
      handed_to_send c1.trace = handed_to_send c.trace ++ handed ∧
      c.send_queue_ ++ accepted = handed.map Prod.fst ++ c1.send_queue_ ∧
      (∀ m ∈ accepted, m ∈ c1.send_queue_ ∨ ∃ ret, (m, ret) ∈ handed) := by
  obtain ⟨-, handed, a1, a2⟩ := run_pipeline_accounts sz steps c c1 accepted hw hr
  refine ⟨handed, a1, a2, ?_⟩
  intro m hm
  have hmem : m ∈ handed.map Prod.fst ++ c1.send_queue_ := by
    rw [← a2]
    exact List.mem_append_right _ hm
  rcases List.mem_append.mp hmem with h | h
  · obtain ⟨⟨m1, ret⟩, hp, rfl⟩ := List.mem_map.mp h
    exact Or.inr ⟨ret, hp⟩
  · exact Or.inl h

theorem accepted_frames_queued_or_handed_to_send_witness :
    socket_valid_when_connected example_connected ∧
    ∃ c1 accepted handed,
      run_pipeline example_sizes example_short_write_run example_connected
        = some (c1, accepted) ∧
      handed_to_send c1.trace = handed_to_send example_connected.trace ++ handed ∧
      example_connected.send_queue_ ++ accepted = handed.map Prod.fst ++ c1.send_queue_ := by
  refine ⟨by decide, ?_⟩
  rcases h : run_pipeline example_sizes example_short_write_run example_connected with
    _ | ⟨c1, accepted⟩
  · have hs : (run_pipeline example_sizes example_short_write_run
        example_connected).isSome = true := by decide
    rw [h] at hs
    cases hs
  · obtain ⟨handed, a1, a2, -⟩ :=
      accepted_frames_queued_or_handed_to_send example_sizes example_short_write_run
        example_connected c1 accepted (by decide) h
    exact ⟨c1, accepted, handed, rfl, a1, a2⟩

/-! ## Receive pipeline: the two receive loops -/

/-- C19 (what the code does): on a `CONNECTED` client, one iteration of the poll loop
(`receive_thread_func`) and the handling of one readable event in the readiness loop
(`epoll_thread_func`) do the same for a read of `n > 0` bytes and for a would-block result;
but on a zero-length read and on a fatal read error the readiness loop does nothing, while
the poll loop calls `handle_disconnection` (after counting the error, when it is one). -/
theorem receive_loops_agree_only_on_data_and_would_block (sz : Sizes)
    (decode : List Nat → Message) (clock : Nat → Nat) (e : RecvEnv) (c : HFTTCPClient)
    (h : c.connection_state_ = ConnectionState.CONNECTED) :
    (e.recv_ret > 0 →
      epoll_thread_func sz decode clock true e c = receive_thread_func sz decode clock e c) ∧
    (e.recv_ret < 0 → (e.recv_errno = EAGAIN ∨ e.recv_errno = EWOULDBLOCK) →
      epoll_thread_func sz decode clock true e c = some c ∧
      receive_thread_func sz decode clock e c = some c) ∧
    (e.recv_ret = 0 →
      epoll_thread_func sz decode clock true e c = some c ∧
      receive_thread_func sz decode clock e c = handle_disconnection e.reconnect c) ∧
    (e.recv_ret < 0 → e.recv_errno ≠ EAGAIN → e.recv_errno ≠ EWOULDBLOCK →
      epoll_thread_func sz decode clock true e c = some c ∧
      receive_thread_func sz decode clock e c = handle_disconnection e.reconnect
        { c with stats_ := { c.stats_ with errors := wrap64 (c.stats_.errors + 1) } }) := by
  refine ⟨?_, ?_, ?_, ?_⟩
  · intro hpos
    simp [epoll_thread_func, receive_thread_func, h, hpos]
  · intro hneg herr
    have h1 : ¬ e.recv_ret > 0 := by omega
    have h2 : ¬ e.recv_ret = 0 := by omega
    have h3 : ¬ (e.recv_errno ≠ EAGAIN ∧ e.recv_errno ≠ EWOULDBLOCK) := by
      rintro ⟨ha, hb⟩
      rcases herr with herr | herr
      · exact ha herr
      · exact hb herr
    simp only [epoll_thread_func, receive_thread_func, h, h1, h2, h3, if_true, if_false,
      ne_eq, not_true_eq_false, and_self]
  · intro hz
    simp [epoll_thread_func, receive_thread_func, h, hz]
  · intro hneg ha hb
    have h1 : ¬ e.recv_ret > 0 := by omega
    have h2 : ¬ e.recv_ret = 0 := by omega
    simp [epoll_thread_func, receive_thread_func, h, h1, h2, ha, hb]

theorem receive_loops_agree_only_on_data_and_would_block_witness :
    example_connected.connection_state_ = ConnectionState.CONNECTED ∧
    example_recv_closed.recv_ret = 0 ∧
    epoll_thread_func example_layout example_decode example_clock true example_recv_closed
      example_connected = some example_connected ∧
    receive_thread_func example_layout example_decode example_clock example_recv_closed
      example_connected = handle_disconnection example_recv_closed.reconnect example_connected ∧
    Option.map (fun c => c.stats_.reconnection_attempts)
      (epoll_thread_func example_layout example_decode example_clock true example_recv_closed
        example_connected) = some 0 ∧
    Option.map (fun c => c.stats_.reconnection_attempts)
      (handle_disconnection example_recv_closed.reconnect example_connected) = some 1 :=
  ⟨by decide, by decide,
   ((receive_loops_agree_only_on_data_and_would_block example_layout example_decode
      example_clock example_recv_closed example_connected (by decide)).2.2.1 (by decide)).1,
   ((receive_loops_agree_only_on_data_and_would_block example_layout example_decode
      example_clock example_recv_closed example_connected (by decide)).2.2.1 (by decide)).2,
   by decide, by decide⟩

/-! ## Counters never go back -/

theorem counter_advanced_refl (B x : Nat) : counter_advanced B x x := Or.inl rfl

theorem counter_advanced_mono {B B1 x y : Nat} (h : counter_advanced B x y) (hle : B ≤ B1) :
    counter_advanced B1 x y := by
  rcases h with h | ⟨d, hd, h⟩
  · exact Or.inl h
  · exact Or.inr ⟨d, le_trans hd hle, h⟩

theorem counter_advanced_trans {B1 B2 x y z : Nat} (h1 : counter_advanced B1 x y)
    (h2 : counter_advanced B2 y z) : counter_advanced (B1 + B2) x z := by
  rcases h1 with h1 | ⟨d1, hd1, h1⟩ <;> rcases h2 with h2 | ⟨d2, hd2, h2⟩
  · exact Or.inl (h2.trans h1)
  · subst h1
    exact Or.inr ⟨d2, by omega, h2⟩
  · subst h2
    exact Or.inr ⟨d1, by omega, h1⟩
  · refine Or.inr ⟨d1 + d2, by omega, ?_⟩
    rw [h2, h1, wrap64_add_wrap64, Nat.add_assoc]

theorem counter_advanced_le {B x y : Nat} (h : counter_advanced B x y)
    (hroom : x + B < 2 ^ 64) : x ≤ y := by
  rcases h with h | ⟨d, hd, h⟩
  · exact le_of_eq h.symm
  · rw [h, wrap64_of_lt (by omega)]
    omega

theorem counters_advanced_refl (B : Nat) (s : ClientStats) : counters_advanced B s s :=
  ⟨Or.inl rfl, Or.inl rfl, Or.inl rfl, Or.inl rfl, Or.inl rfl, Or.inl rfl, Or.inl rfl⟩

theorem counters_advanced_of_eq {B : Nat} {s t : ClientStats} (h : t = s) :
    counters_advanced B s t := by
  subst h
  exact counters_advanced_refl B t

theorem counters_advanced_mono {B B1 : Nat} {s t : ClientStats}
    (h : counters_advanced B s t) (hle : B ≤ B1) : counters_advanced B1 s t := by
  obtain ⟨h1, h2, h3, h4, h5, h6, h7⟩ := h
  exact ⟨counter_advanced_mono h1 hle, counter_advanced_mono h2 hle,
    counter_advanced_mono h3 hle, counter_advanced_mono h4 hle,
    counter_advanced_mono h5 hle, counter_advanced_mono h6 hle,
    counter_advanced_mono h7 hle⟩

theorem counters_advanced_trans {B1 B2 : Nat} {s t u : ClientStats}
    (h : counters_advanced B1 s t) (k : counters_advanced B2 t u) :
    counters_advanced (B1 + B2) s u := by
  obtain ⟨h1, h2, h3, h4, h5, h6, h7⟩ := h
  obtain ⟨k1, k2, k3, k4, k5, k6, k7⟩ := k
  exact ⟨counter_advanced_trans h1 k1, counter_advanced_trans h2 k2,
    counter_advanced_trans h3 k3, counter_advanced_trans h4 k4,
    counter_advanced_trans h5 k5, counter_advanced_trans h6 k6,
    counter_advanced_trans h7 k7⟩

theorem counters_advanced_le {B : Nat} {s t : ClientStats} (h : counters_advanced B s t)
    (f : ClientStats → Nat) (hf : f ∈ ClientStats.counters) (hroom : f s + B < 2 ^ 64) :
    f s ≤ f t := by
  obtain ⟨h1, h2, h3, h4, h5, h6, h7⟩ := h
  simp only [ClientStats.counters, List.mem_cons, List.mem_singleton, List.not_mem_nil,
    or_false] at hf
  rcases hf with rfl | rfl | rfl | rfl | rfl | rfl | rfl
  · exact counter_advanced_le h1 hroom
  · exact counter_advanced_le h2 hroom
  · exact counter_advanced_le h3 hroom
  · exact counter_advanced_le h4 hroom
  · exact counter_advanced_le h5 hroom
  · exact counter_advanced_le h6 hroom
  · exact counter_advanced_le h7 hroom

theorem connect_counters (e : ConnectEnv) (t : Nat) (c : HFTTCPClient) :
    counters_advanced 1 c.stats_ (connect e t c).2.stats_ := by
  by_cases hc : c.connection_state_ = ConnectionState.CONNECTED
  · have h : connect e t c = (true, c) := by simp [connect, hc]
    rw [h]
    exact counters_advanced_refl 1 _
  · by_cases hs : e.all_steps_succeed
    · rw [connect_of_all_steps_succeed e t c hc hs]
      exact ⟨Or.inl rfl, Or.inl rfl, Or.inl rfl, Or.inl rfl,
        Or.inr ⟨1, le_refl 1, rfl⟩, Or.inl rfl, Or.inl rfl⟩
    · rw [connect_of_some_step_fails e t c hc ((some_step_fails_iff e).mpr hs)]
      exact counters_advanced_refl 1 _

theorem attempt_reconnection_counters (script : List ReconnectEnv) (c c1 : HFTTCPClient)
    (hr : attempt_reconnection script c = some c1) :
    counters_advanced (2 * script.length) c.stats_ c1.stats_ := by
  induction script generalizing c with
  | nil => simp [attempt_reconnection] at hr
  | cons e rest ih =>
    simp only [attempt_reconnection] at hr
    have hb : counters_advanced 1 c.stats_
        { c.stats_ with reconnection_attempts := wrap64 (c.stats_.reconnection_attempts + 1) } :=
      ⟨Or.inl rfl, Or.inl rfl, Or.inl rfl, Or.inl rfl, Or.inl rfl,
        Or.inr ⟨1, le_refl 1, rfl⟩, Or.inl rfl⟩
    have hcn := connect_counters e.net 5000
      { c with stats_ := { c.stats_ with
        reconnection_attempts := wrap64 (c.stats_.reconnection_attempts + 1) } }
    have h2 := counters_advanced_trans hb hcn
    have hlen : (e :: rest).length = rest.length + 1 := rfl
    split at hr
    · cases hr
      exact counters_advanced_mono h2 (by rw [hlen]; omega)
    · split at hr
      · have h3 := ih _ hr
        rw [(after_sleep_fields e _).2.1] at h3
        exact counters_advanced_mono (counters_advanced_trans h2 h3) (by rw [hlen]; omega)
      · cases hr
        rw [(after_sleep_fields e _).2.1]
        exact counters_advanced_mono h2 (by rw [hlen]; omega)

theorem handle_disconnection_counters (script : List ReconnectEnv) (c c1 : HFTTCPClient)
    (hr : handle_disconnection script c = some c1) :
    counters_advanced (2 * script.length) c.stats_ c1.stats_ := by
  rw [handle_disconnection_eq] at hr
  obtain ⟨-, -, -, d4⟩ := drop_connection_fields c
  split at hr
  · cases hr
    exact counters_advanced_refl _ _
  · split at hr
    · have h := attempt_reconnection_counters script _ c1 hr
      simp only [store_state] at h
      rw [d4] at h
      exact h
    · cases hr
      rw [d4]
      exact counters_advanced_refl _ _

theorem send_message_counters (sz : Sizes) (msg : Message) (c : HFTTCPClient) :
    counters_advanced (sz.sizeof_Message + 1) c.stats_ (send_message sz msg c).2.stats_ := by
  by_cases hc : c.connection_state_ = ConnectionState.CONNECTED
  · have hsm : (send_message sz msg c).2.stats_ = { c.stats_ with
        messages_sent := wrap64 (c.stats_.messages_sent + 1)
        bytes_sent := wrap64 (c.stats_.bytes_sent + sz.sizeof_Message) } := by
      simp [send_message, hc]
    rw [hsm]
    exact ⟨Or.inr ⟨1, by omega, rfl⟩, Or.inl rfl, Or.inr ⟨sz.sizeof_Message, by omega, rfl⟩,
      Or.inl rfl, Or.inl rfl, Or.inl rfl, Or.inl rfl⟩
  · have hsm : send_message sz msg c = (false, c) := by simp [send_message, hc]
    rw [hsm]
    exact counters_advanced_refl _ _

theorem errors_bump_counters (s : ClientStats) :
    counters_advanced 1 s { s with errors := wrap64 (s.errors + 1) } :=
  ⟨Or.inl rfl, Or.inl rfl, Or.inl rfl, Or.inl rfl, Or.inl rfl, Or.inl rfl,
    Or.inr ⟨1, le_refl 1, rfl⟩⟩

/-- One iteration of the sender loop on a `CONNECTED` client that holds no socket:
`send_data` refuses, the error is counted and `handle_disconnection` runs. -/
theorem send_thread_func_cons_no_socket (sz : Sizes) (e : SendEnv) (es : List SendEnv)
    (c : HFTTCPClient) (msg : Message) (queue : List Message)
    (hq : c.send_queue_ = msg :: queue)
    (hc : c.connection_state_ = ConnectionState.CONNECTED) (hfd : c.socket_fd_ = -1) :
    send_thread_func sz (e :: es) c =
      match handle_disconnection e.reconnect
        { c with
          send_queue_ := queue
          stats_ := { c.stats_ with errors := wrap64 (c.stats_.errors + 1) } } with
      | none => none
      | some c3 => send_thread_func sz es c3 := by
  simp [send_thread_func, hq, hc, send_data, hfd]

theorem send_thread_func_counters (sz : Sizes) (envs : List SendEnv) (c c1 : HFTTCPClient)
    (hr : send_thread_func sz envs c = some c1) :
    counters_advanced (send_budget sz envs) c.stats_ c1.stats_ := by
  induction envs generalizing c with
  | nil =>
    rcases hq : c.send_queue_ with _ | ⟨msg, queue⟩
    · simp only [send_thread_func, hq] at hr
      cases hr
      exact counters_advanced_refl _ _
    · simp only [send_thread_func, hq] at hr
      split at hr
      · cases hr
        exact counters_advanced_refl _ _
      · cases hr
  | cons e es ih =>
    rcases hq : c.send_queue_ with _ | ⟨msg, queue⟩
    · simp only [send_thread_func, hq] at hr
      cases hr
      exact counters_advanced_refl _ _
    · by_cases hc : c.connection_state_ = ConnectionState.CONNECTED
      · by_cases hfd : c.socket_fd_ = -1
        · rw [send_thread_func_cons_no_socket sz e es c msg queue hq hc hfd] at hr
          split at hr
          · cases hr
          · rename_i c3 hd
            have h1 := counters_advanced_trans (errors_bump_counters c.stats_)
              (handle_disconnection_counters e.reconnect _ c3 hd)
            have h2 := counters_advanced_trans h1 (ih c3 hr)
            exact counters_advanced_mono h2 (by simp only [send_budget]; omega)
        · rw [send_thread_func_cons sz e es c msg queue hq hc hfd] at hr
          split at hr
          · have h1 : counters_advanced (sz.sizeof_Message + 1) c.stats_
                { c.stats_ with
                  messages_sent := wrap64 (c.stats_.messages_sent + 1)
                  bytes_sent := wrap64 (c.stats_.bytes_sent + sz.sizeof_Message) } :=
              ⟨Or.inr ⟨1, by omega, rfl⟩, Or.inl rfl,
                Or.inr ⟨sz.sizeof_Message, by omega, rfl⟩,
                Or.inl rfl, Or.inl rfl, Or.inl rfl, Or.inl rfl⟩
            have h2 := counters_advanced_trans h1 (ih _ hr)
            exact counters_advanced_mono h2 (by simp only [send_budget]; omega)
          · split at hr
            · cases hr
            · rename_i c3 hd
              have h1 := counters_advanced_trans (errors_bump_counters c.stats_)
                (handle_disconnection_counters e.reconnect _ c3 hd)
              have h2 := counters_advanced_trans h1 (ih c3 hr)
              exact counters_advanced_mono h2 (by simp only [send_budget]; omega)
      · simp only [send_thread_func, hq] at hr
        simp only [ne_eq, hc, not_false_eq_true, if_true] at hr
        cases hr
        exact counters_advanced_refl _ _

theorem update_latency_stats_counters (x : Nat) (c : HFTTCPClient) :
    counters_advanced 0 c.stats_ (update_latency_stats x c).stats_ := by
  unfold update_latency_stats calculate_average_latency counters_advanced counter_advanced
  by_cases h1 : x < c.stats_.min_latency_ns <;>
    by_cases h2 : x > c.stats_.max_latency_ns <;>
    by_cases h3 : c.stats_.messages_received > 0 <;>
    simp [h1, h2, h3]

theorem dispatch_frame_counters (sz : Sizes) (t : Nat) (msg : Message) (c : HFTTCPClient) :
    counters_advanced 1 c.stats_ (dispatch_frame sz t msg c).stats_ := by
  have hbump : ∀ s : ClientStats, counters_advanced 1 s
      { s with messages_received := wrap64 (s.messages_received + 1) } := fun s =>
    ⟨Or.inl rfl, Or.inr ⟨1, le_refl 1, rfl⟩, Or.inl rfl, Or.inl rfl, Or.inl rfl, Or.inl rfl,
      Or.inl rfl⟩
  unfold dispatch_frame
  simp only [process_message_eq]
  split
  · exact counters_advanced_trans (update_latency_stats_counters _ c) (hbump _)
  · exact hbump _

theorem process_received_data_loop_counters (sz : Sizes) (decode : List Nat → Message)
    (clock : Nat → Nat) (data : List Nat) (size fuel k offset : Nat) (c c1 : HFTTCPClient)
    (hr : process_received_data_loop sz decode clock data size fuel k offset c = some c1) :
    counters_advanced fuel c.stats_ c1.stats_ := by
  induction fuel generalizing k offset c with
  | zero =>
    simp only [process_received_data_loop] at hr
    split at hr
    · cases hr
    · cases hr
      exact counters_advanced_refl _ _
  | succ fuel ih =>
    simp only [process_received_data_loop] at hr
    split at hr
    · have h1 := dispatch_frame_counters sz (clock k) (decode (frame_bytes sz data offset)) c
      have h2 := counters_advanced_trans h1 (ih _ _ _ hr)
      exact counters_advanced_mono h2 (by omega)
    · cases hr
      exact counters_advanced_refl _ _

theorem on_bytes_received_counters (sz : Sizes) (decode : List Nat → Message)
    (clock : Nat → Nat) (e : RecvEnv) (c c1 : HFTTCPClient)
    (hr : on_bytes_received sz decode clock e c = some c1) :
    counters_advanced (recv_budget e) c.stats_ c1.stats_ := by
  unfold on_bytes_received process_received_data at hr
  have h1 : counters_advanced e.recv_ret.toNat c.stats_
      { c.stats_ with
        bytes_received := wrap64 (c.stats_.bytes_received + e.recv_ret.toNat)
        last_message_time := e.now } :=
    ⟨Or.inl rfl, Or.inl rfl, Or.inl rfl, Or.inr ⟨e.recv_ret.toNat, le_refl _, rfl⟩,
      Or.inl rfl, Or.inl rfl, Or.inl rfl⟩
  have h2 := process_received_data_loop_counters sz decode clock e.buffer _ _ _ _ _ c1 hr
  exact counters_advanced_mono (counters_advanced_trans h1 h2) (by unfold recv_budget; omega)

theorem receive_thread_func_counters (sz : Sizes) (decode : List Nat → Message)
    (clock : Nat → Nat) (e : RecvEnv) (c c1 : HFTTCPClient)
    (hr : receive_thread_func sz decode clock e c = some c1) :
    counters_advanced (recv_budget e) c.stats_ c1.stats_ := by
  unfold receive_thread_func at hr
  split at hr
  · cases hr
    exact counters_advanced_refl _ _
  · split at hr
    · exact on_bytes_received_counters sz decode clock e c c1 hr
    · split at hr
      · exact counters_advanced_mono (handle_disconnection_counters e.reconnect c c1 hr)
          (by unfold recv_budget; omega)
      · split at hr
        · have h1 := counters_advanced_trans (errors_bump_counters c.stats_)
            (handle_disconnection_counters e.reconnect _ c1 hr)
          exact counters_advanced_mono h1 (by unfold recv_budget; omega)
        · cases hr
          exact counters_advanced_refl _ _

theorem epoll_thread_func_counters (sz : Sizes) (decode : List Nat → Message)
    (clock : Nat → Nat) (epollin : Bool) (e : RecvEnv) (c c1 : HFTTCPClient)
    (hr : epoll_thread_func sz decode clock epollin e c = some c1) :
    counters_advanced (recv_budget e) c.stats_ c1.stats_ := by
  unfold epoll_thread_func at hr
  split at hr
  · split at hr
    · exact on_bytes_received_counters sz decode clock e c c1 hr
    · cases hr
      exact counters_advanced_refl _ _
  · cases hr
    exact counters_advanced_refl _ _

theorem update_latency_stats_counters_eq (x : Nat) (c : HFTTCPClient)
    (f : ClientStats → Nat) (hf : f ∈ ClientStats.counters) :
    f (update_latency_stats x c).stats_ = f c.stats_ := by
  simp only [ClientStats.counters, List.mem_cons, List.mem_singleton, List.not_mem_nil,
    or_false] at hf
  unfold update_latency_stats calculate_average_latency
  rcases hf with rfl | rfl | rfl | rfl | rfl | rfl | rfl <;>
    by_cases h1 : x < c.stats_.min_latency_ns <;>
    by_cases h2 : x > c.stats_.max_latency_ns <;>
    by_cases h3 : c.stats_.messages_received > 0 <;>
    simp [h1, h2, h3]

theorem disconnect_stats (c : HFTTCPClient) : (disconnect c).stats_ = c.stats_ := by
  unfold disconnect
  by_cases h : c.connection_state_ = ConnectionState.DISCONNECTED
  · simp [h]
  · simp only [h, if_false]
    by_cases h1 : c.socket_fd_ = -1 <;> by_cases h2 : c.epoll_fd_ = -1 <;>
      simp [store_state, close_socket, h1, h2]

/-- C20: every operation other than `reset_stats` (`connect`, `disconnect`, `send_message`, a
sender-loop wake-up, a receive step of either loop, `handle_disconnection`,
`attempt_reconnection`, `update_latency_stats`, `process_received_data`) leaves each of
`messages_sent`, `messages_received`, `bytes_sent`, `bytes_received`, `connection_attempts`,
`reconnection_attempts` and `errors` greater than or equal to its previous value, absent
64-bit overflow: that is, whenever the counter has room below `2^64` for what the operation
can add to it (1 for `connect`; a frame size for `send_message`; a bound read off the
scripts for the loops). -/
theorem counters_never_decrease_absent_overflow (f : ClientStats → Nat)
    (hf : f ∈ ClientStats.counters) :
    (∀ (e : ConnectEnv) (t : Nat) (c : HFTTCPClient), f c.stats_ + 1 < 2 ^ 64 →
      f c.stats_ ≤ f (connect e t c).2.stats_) ∧
    (∀ c : HFTTCPClient, f c.stats_ ≤ f (disconnect c).stats_) ∧
    (∀ (sz : Sizes) (msg : Message) (c : HFTTCPClient),
      f c.stats_ + (sz.sizeof_Message + 1) < 2 ^ 64 →
      f c.stats_ ≤ f (send_message sz msg c).2.stats_) ∧
    (∀ (sz : Sizes) (envs : List SendEnv) (c c1 : HFTTCPClient),
      send_thread_func sz envs c = some c1 → f c.stats_ + send_budget sz envs < 2 ^ 64 →
      f c.stats_ ≤ f c1.stats_) ∧
    (∀ (sz : Sizes) (decode : List Nat → Message) (clock : Nat → Nat) (e : RecvEnv)
      (c c1 : HFTTCPClient),
      receive_thread_func sz decode clock e c = some c1 → f c.stats_ + recv_budget e < 2 ^ 64 →
      f c.stats_ ≤ f c1.stats_) ∧
    (∀ (sz : Sizes) (decode : List Nat → Message) (clock : Nat → Nat) (epollin : Bool)
      (e : RecvEnv) (c c1 : HFTTCPClient),
      epoll_thread_func sz decode clock epollin e c = some c1 →
      f c.stats_ + recv_budget e < 2 ^ 64 → f c.stats_ ≤ f c1.stats_) ∧
    (∀ (script : List ReconnectEnv) (c c1 : HFTTCPClient),
      handle_disconnection script c = some c1 → f c.stats_ + 2 * script.length < 2 ^ 64 →
      f c.stats_ ≤ f c1.stats_) ∧
    (∀ (script : List ReconnectEnv) (c c1 : HFTTCPClient),
      attempt_reconnection script c = some c1 → f c.stats_ + 2 * script.length < 2 ^ 64 →
      f c.stats_ ≤ f c1.stats_) ∧
    (∀ (x : Nat) (c : HFTTCPClient), f c.stats_ ≤ f (update_latency_stats x c).stats_) ∧
    (∀ (sz : Sizes) (decode : List Nat → Message) (clock : Nat → Nat) (data : List Nat)
      (n : Nat) (c c1 : HFTTCPClient),
      process_received_data sz decode clock data n c = some c1 → f c.stats_ + n < 2 ^ 64 →
      f c.stats_ ≤ f c1.stats_) := by
  refine ⟨?_, ?_, ?_, ?_, ?_, ?_, ?_, ?_, ?_, ?_⟩
  · intro e t c hroom
    exact counters_advanced_le (connect_counters e t c) f hf hroom
  · intro c
    rw [disconnect_stats]
  · intro sz msg c hroom
    exact counters_advanced_le (send_message_counters sz msg c) f hf hroom
  · intro sz envs c c1 hr hroom
    exact counters_advanced_le (send_thread_func_counters sz envs c c1 hr) f hf hroom
  · intro sz decode clock e c c1 hr hroom
    exact counters_advanced_le (receive_thread_func_counters sz decode clock e c c1 hr) f hf
      hroom
  · intro sz decode clock epollin e c c1 hr hroom
    exact counters_advanced_le (epoll_thread_func_counters sz decode clock epollin e c c1 hr)
      f hf hroom
  · intro script c c1 hr hroom
    exact counters_advanced_le (handle_disconnection_counters script c c1 hr) f hf hroom
  · intro script c c1 hr hroom
    exact counters_advanced_le (attempt_reconnection_counters script c c1 hr) f hf hroom
  · intro x c
    exact le_of_eq (update_latency_stats_counters_eq x c f hf).symm
  · intro sz decode clock data n c c1 hr hroom
    exact counters_advanced_le
      (process_received_data_loop_counters sz decode clock data n n 0 0 c c1 hr) f hf hroom

theorem counters_never_decrease_absent_overflow_witness :
    ClientStats.messages_sent ∈ ClientStats.counters ∧
    example_connected.stats_.messages_sent + (example_sizes.sizeof_Message + 1) < 2 ^ 64 ∧
    example_connected.stats_.messages_sent
      ≤ (send_message example_sizes example_frame example_connected).2.stats_.messages_sent ∧
    example_client.stats_.messages_sent + 1 < 2 ^ 64 ∧
    example_client.stats_.messages_sent
      ≤ (connect example_connect_ok 5000 example_client).2.stats_.messages_sent :=
  ⟨List.mem_cons_self _ _, by decide,
   (counters_never_decrease_absent_overflow ClientStats.messages_sent
      (List.mem_cons_self _ _)).2.2.1 example_sizes example_frame example_connected
      (by decide),
   by decide,
   (counters_never_decrease_absent_overflow ClientStats.messages_sent
      (List.mem_cons_self _ _)).1 example_connect_ok 5000 example_client (by decide)⟩

/-! ## Receive pipeline: one dispatched frame -/

theorem sub64_eq_int_sub_mod (a b : Nat) :
    ((sub64 a b : Nat) : Int) = ((a : Int) - (b : Int)) % 2 ^ 64 := by
  unfold sub64 UINT64_MOD
  omega

theorem only_attempts_changed_refl (s : ClientStats) : only_attempts_changed s s := by
  cases s
  rfl

theorem only_attempts_changed_trans {s t u : ClientStats} (h : only_attempts_changed s t)
    (k : only_attempts_changed t u) : only_attempts_changed s u := by
  unfold only_attempts_changed at *
  rw [k, h]

theorem only_receive_changed_refl (s : ClientStats) : only_receive_changed s s := by
  cases s
  rfl

theorem only_receive_changed_trans {s t u : ClientStats} (h : only_receive_changed s t)
    (k : only_receive_changed t u) : only_receive_changed s u := by
  unfold only_receive_changed at *
  rw [k, h]

theorem connect_only_attempts (e : ConnectEnv) (t : Nat) (c : HFTTCPClient) :
    only_attempts_changed c.stats_ (connect e t c).2.stats_ := by
  by_cases hc : c.connection_state_ = ConnectionState.CONNECTED
  · have h : connect e t c = (true, c) := by simp [connect, hc]
    rw [h]
    exact only_attempts_changed_refl _
  · by_cases hs : e.all_steps_succeed
    · rw [connect_of_all_steps_succeed e t c hc hs]
      rfl
    · rw [connect_of_some_step_fails e t c hc ((some_step_fails_iff e).mpr hs)]
      exact only_attempts_changed_refl _

theorem attempt_reconnection_only_attempts (script : List ReconnectEnv)
    (c c1 : HFTTCPClient) (hr : attempt_reconnection script c = some c1) :
    only_attempts_changed c.stats_ c1.stats_ := by
  induction script generalizing c with
  | nil => simp [attempt_reconnection] at hr
  | cons e rest ih =>
    simp only [attempt_reconnection] at hr
    have hb : only_attempts_changed c.stats_
        { c.stats_ with
          reconnection_attempts := wrap64 (c.stats_.reconnection_attempts + 1) } := rfl
    have hcn := connect_only_attempts e.net 5000
      { c with stats_ := { c.stats_ with
        reconnection_attempts := wrap64 (c.stats_.reconnection_attempts + 1) } }
    have h2 := only_attempts_changed_trans hb hcn
    split at hr
    · cases hr
      exact h2
    · split at hr
      · have h3 := ih _ hr
        rw [(after_sleep_fields e _).2.1] at h3
        exact only_attempts_changed_trans h2 h3
      · cases hr
        rw [(after_sleep_fields e _).2.1]
        exact h2

theorem handle_disconnection_only_attempts (script : List ReconnectEnv)
    (c c1 : HFTTCPClient) (hr : handle_disconnection script c = some c1) :
    only_attempts_changed c.stats_ c1.stats_ := by
  rw [handle_disconnection_eq] at hr
  obtain ⟨-, -, -, d4⟩ := drop_connection_fields c
  split at hr
  · cases hr
    exact only_attempts_changed_refl _
  · split at hr
    · have h := attempt_reconnection_only_attempts script _ c1 hr
      simp only [store_state] at h
      rw [d4] at h
      exact h
    · cases hr
      rw [d4]
      exact only_attempts_changed_refl _

theorem update_latency_stats_only_receive (x : Nat) (c : HFTTCPClient) :
    only_receive_changed c.stats_ (update_latency_stats x c).stats_ := by
  unfold update_latency_stats calculate_average_latency only_receive_changed
  by_cases h1 : x < c.stats_.min_latency_ns <;>
    by_cases h2 : x > c.stats_.max_latency_ns <;>
    by_cases h3 : c.stats_.messages_received > 0 <;>
    simp [h1, h2, h3]

theorem dispatch_frame_only_receive (sz : Sizes) (t : Nat) (msg : Message)
    (c : HFTTCPClient) :
    only_receive_changed c.stats_ (dispatch_frame sz t msg c).stats_ := by
  have hbump : ∀ s : ClientStats, only_receive_changed s
      { s with messages_received := wrap64 (s.messages_received + 1) } := fun s => rfl
  unfold dispatch_frame
  simp only [process_message_eq]
  split
  · exact only_receive_changed_trans (update_latency_stats_only_receive _ c) (hbump _)
  · exact hbump _

theorem process_received_data_loop_only_receive (sz : Sizes) (decode : List Nat → Message)
    (clock : Nat → Nat) (data : List Nat) (size fuel k offset : Nat) (c c1 : HFTTCPClient)
    (hr : process_received_data_loop sz decode clock data size fuel k offset c = some c1) :
    only_receive_changed c.stats_ c1.stats_ := by
  induction fuel generalizing k offset c with
  | zero =>
    simp only [process_received_data_loop] at hr
    split at hr
    · cases hr
    · cases hr
      exact only_receive_changed_refl _
  | succ fuel ih =>
    simp only [process_received_data_loop] at hr
    split at hr
    · exact only_receive_changed_trans
        (dispatch_frame_only_receive sz (clock k) (decode (frame_bytes sz data offset)) c)
        (ih _ _ _ hr)
    · cases hr
      exact only_receive_changed_refl _

theorem on_bytes_received_only_receive (sz : Sizes) (decode : List Nat → Message)
    (clock : Nat → Nat) (e : RecvEnv) (c c1 : HFTTCPClient)
    (hr : on_bytes_received sz decode clock e c = some c1) :
    only_receive_changed c.stats_ c1.stats_ := by
  unfold on_bytes_received process_received_data at hr
  have h1 : only_receive_changed c.stats_
      { c.stats_ with
        bytes_received := wrap64 (c.stats_.bytes_received + e.recv_ret.toNat)
        last_message_time := e.now } := rfl
  have h2 := process_received_data_loop_only_receive sz decode clock e.buffer _ _ _ _ _ _ hr
  exact only_receive_changed_trans h1 h2

theorem update_latency_stats_messages_received (x : Nat) (c : HFTTCPClient) :
    (update_latency_stats x c).stats_.messages_received = c.stats_.messages_received :=
  update_latency_stats_counters_eq x c ClientStats.messages_received
    (by simp [ClientStats.counters])

/-- The dispatch of a frame with a timestamp: what it leaves in the latency fields and the
window is what `update_latency_stats` left there. -/
theorem dispatch_frame_of_timestamp (sz : Sizes) (t : Nat) (msg : Message) (c : HFTTCPClient)
    (h : msg.timestamp ≠ 0) :
    (dispatch_frame sz t msg c).latency_measurements_
      = (update_latency_stats (sub64 t msg.timestamp) c).latency_measurements_ ∧
    (dispatch_frame sz t msg c).stats_
      = { (update_latency_stats (sub64 t msg.timestamp) c).stats_ with
          messages_received := wrap64 (c.stats_.messages_received + 1) } := by
  have hpos : msg.timestamp > 0 := Nat.pos_of_ne_zero h
  unfold dispatch_frame
  simp only [hpos, if_true, process_message_eq, update_latency_stats_messages_received]
  exact ⟨trivial, trivial⟩

/-- The dispatch of a frame without a timestamp: only the received count and the handler
calls. -/
theorem dispatch_frame_of_no_timestamp (sz : Sizes) (t : Nat) (msg : Message)
    (c : HFTTCPClient) (h : msg.timestamp = 0) :
    dispatch_frame sz t msg c =
      { c with
        trace := c.trace ++ handler_calls sz msg c
        stats_ := { c.stats_ with
          messages_received := wrap64 (c.stats_.messages_received + 1) } } := by
  unfold dispatch_frame
  simp [h, process_message_eq]

/-- C21: for every frame dispatched by `process_received_data`, `messages_received` goes up
by exactly 1 (modulo `2^64`); when the frame's timestamp is non-zero the latency sample
`(receive time - timestamp) mod 2^64` is fed to `update_latency_stats` (the window and the
latency aggregates are those that this call leaves), and when the timestamp is 0 no sample
is fed: total, min, max and average latency and the sample window are unchanged. -/
theorem dispatch_frame_counts_and_feeds_latency (sz : Sizes) (t : Nat) (msg : Message)
    (c : HFTTCPClient) :
    (dispatch_frame sz t msg c).stats_.messages_received
      = (c.stats_.messages_received + 1) % 2 ^ 64 ∧
    (c.stats_.messages_received + 1 < 2 ^ 64 →
      (dispatch_frame sz t msg c).stats_.messages_received = c.stats_.messages_received + 1) ∧
    ((sub64 t msg.timestamp : Nat) : Int) = ((t : Int) - (msg.timestamp : Int)) % 2 ^ 64 ∧
    (msg.timestamp ≠ 0 →
      (dispatch_frame sz t msg c).latency_measurements_
        = (update_latency_stats (sub64 t msg.timestamp) c).latency_measurements_ ∧
      (dispatch_frame sz t msg c).latency_measurements_
        = (if (c.latency_measurements_ ++ [sub64 t msg.timestamp]).length > 10000 then
            (c.latency_measurements_ ++ [sub64 t msg.timestamp]).tail
          else c.latency_measurements_ ++ [sub64 t msg.timestamp]) ∧
      (dispatch_frame sz t msg c).stats_.total_latency_ns
        = (c.stats_.total_latency_ns + sub64 t msg.timestamp) % 2 ^ 64 ∧
      (dispatch_frame sz t msg c).stats_.min_latency_ns
        = (update_latency_stats (sub64 t msg.timestamp) c).stats_.min_latency_ns ∧
      (dispatch_frame sz t msg c).stats_.max_latency_ns
        = (update_latency_stats (sub64 t msg.timestamp) c).stats_.max_latency_ns ∧
      (dispatch_frame sz t msg c).stats_.avg_latency_us
        = (update_latency_stats (sub64 t msg.timestamp) c).stats_.avg_latency_us) ∧
    (msg.timestamp = 0 →
      (dispatch_frame sz t msg c).latency_measurements_ = c.latency_measurements_ ∧
      (dispatch_frame sz t msg c).stats_.total_latency_ns = c.stats_.total_latency_ns ∧
      (dispatch_frame sz t msg c).stats_.min_latency_ns = c.stats_.min_latency_ns ∧
      (dispatch_frame sz t msg c).stats_.max_latency_ns = c.stats_.max_latency_ns ∧
      (dispatch_frame sz t msg c).stats_.avg_latency_us = c.stats_.avg_latency_us) := by
  have hmr : (dispatch_frame sz t msg c).stats_.messages_received
      = (c.stats_.messages_received + 1) % 2 ^ 64 := by
    by_cases h : msg.timestamp = 0
    · rw [dispatch_frame_of_no_timestamp sz t msg c h]
      rfl
    · rw [(dispatch_frame_of_timestamp sz t msg c h).2]
      rfl
  refine ⟨hmr, ?_, sub64_eq_int_sub_mod t msg.timestamp, ?_, ?_⟩
  · intro hlt
    rw [hmr, Nat.mod_eq_of_lt hlt]
  · intro h
    obtain ⟨h1, h2⟩ := dispatch_frame_of_timestamp sz t msg c h
    refine ⟨h1, ?_, ?_, ?_, ?_, ?_⟩
    · rw [h1, update_latency_stats_window]
      rfl
    · rw [h2]
      exact (update_latency_stats_aggregates _ c).1
    · rw [h2]
    · rw [h2]
    · rw [h2]
  · intro h
    rw [dispatch_frame_of_no_timestamp sz t msg c h]
    exact ⟨rfl, rfl, rfl, rfl, rfl⟩

theorem dispatch_frame_counts_and_feeds_latency_witness :
    (example_decode [1, 200, 3, 0, 0, 0, 0, 0]).timestamp ≠ 0 ∧
    (dispatch_frame example_layout 5000 (example_decode [1, 200, 3, 0, 0, 0, 0, 0])
      example_listening).latency_measurements_ = [4800] ∧
    (dispatch_frame example_layout 5000 (example_decode [1, 200, 3, 0, 0, 0, 0, 0])
      example_listening).stats_.total_latency_ns = 4800 ∧
    (example_decode [1, 0, 3, 0, 0, 0, 0, 0]).timestamp = 0 ∧
    (dispatch_frame example_layout 5000 (example_decode [1, 0, 3, 0, 0, 0, 0, 0])
      example_listening).latency_measurements_ = example_listening.latency_measurements_ ∧
    (dispatch_frame example_layout 5000 (example_decode [1, 0, 3, 0, 0, 0, 0, 0])
      example_listening).stats_.messages_received = 1 :=
  ⟨by decide,
   ((dispatch_frame_counts_and_feeds_latency example_layout 5000
      (example_decode [1, 200, 3, 0, 0, 0, 0, 0]) example_listening).2.2.2.1
      (by decide)).2.1.trans (by decide),
   ((dispatch_frame_counts_and_feeds_latency example_layout 5000
      (example_decode [1, 200, 3, 0, 0, 0, 0, 0]) example_listening).2.2.2.1
      (by decide)).2.2.1.trans (by decide),
   by decide,
   ((dispatch_frame_counts_and_feeds_latency example_layout 5000
      (example_decode [1, 0, 3, 0, 0, 0, 0, 0]) example_listening).2.2.2.2 (by decide)).1,
   (dispatch_frame_counts_and_feeds_latency example_layout 5000
      (example_decode [1, 0, 3, 0, 0, 0, 0, 0]) example_listening).1.trans (by decide)⟩

/-! ## Receive loop and sender loop: failures -/

theorem only_attempts_changed_errors {s t : ClientStats} (h : only_attempts_changed s t) :
    t.errors = s.errors ∧ t.messages_sent = s.messages_sent ∧ t.bytes_sent = s.bytes_sent ∧
    t.bytes_received = s.bytes_received ∧ t.messages_received = s.messages_received := by
  unfold only_attempts_changed at h
  rw [h]
  exact ⟨rfl, rfl, rfl, rfl, rfl⟩

theorem only_receive_changed_sent {s t : ClientStats} (h : only_receive_changed s t) :
    t.errors = s.errors ∧ t.messages_sent = s.messages_sent ∧ t.bytes_sent = s.bytes_sent ∧
    t.connection_attempts = s.connection_attempts ∧
    t.reconnection_attempts = s.reconnection_attempts := by
  unfold only_receive_changed at h
  rw [h]
  exact ⟨rfl, rfl, rfl, rfl, rfl⟩

theorem dispatch_frame_bytes_received (sz : Sizes) (t : Nat) (msg : Message)
    (c : HFTTCPClient) :
    (dispatch_frame sz t msg c).stats_.bytes_received = c.stats_.bytes_received ∧
    (dispatch_frame sz t msg c).connection_state_ = c.connection_state_ := by
  unfold dispatch_frame
  simp only [process_message_eq]
  split
  · refine ⟨update_latency_stats_counters_eq _ c ClientStats.bytes_received
      (by simp [ClientStats.counters]), ?_⟩
    simp [update_latency_stats]
  · exact ⟨rfl, rfl⟩

theorem process_received_data_loop_bytes_received (sz : Sizes) (decode : List Nat → Message)
    (clock : Nat → Nat) (data : List Nat) (size fuel k offset : Nat) (c c1 : HFTTCPClient)
    (hr : process_received_data_loop sz decode clock data size fuel k offset c = some c1) :
    c1.stats_.bytes_received = c.stats_.bytes_received ∧
    c1.connection_state_ = c.connection_state_ := by
  induction fuel generalizing k offset c with
  | zero =>
    simp only [process_received_data_loop] at hr
    split at hr
    · cases hr
    · cases hr
      exact ⟨rfl, rfl⟩
  | succ fuel ih =>
    simp only [process_received_data_loop] at hr
    split at hr
    · obtain ⟨i1, i2⟩ := ih _ _ _ hr
      obtain ⟨d1, d2⟩ := dispatch_frame_bytes_received sz (clock k)
        (decode (frame_bytes sz data offset)) c
      exact ⟨i1.trans d1, i2.trans d2⟩
    · cases hr
      exact ⟨rfl, rfl⟩

/-- C22: in the receive loop in state `CONNECTED`: a zero-length read calls
`handle_disconnection` on the client as it is and the error counter is the same when that
returns; a read error other than would-block adds exactly 1 to `errors` (modulo `2^64`) and
then calls `handle_disconnection`, which leaves that count; a would-block result changes
nothing at all; a read of `n > 0` bytes adds exactly `n` to `bytes_received` (modulo `2^64`)
before `process_received_data` runs on the bytes, which leaves that count. -/
theorem receive_loop_outcomes (sz : Sizes) (decode : List Nat → Message) (clock : Nat → Nat)
    (e : RecvEnv) (c : HFTTCPClient)
    (h : c.connection_state_ = ConnectionState.CONNECTED) :
    (e.recv_ret = 0 →
      receive_thread_func sz decode clock e c = handle_disconnection e.reconnect c ∧
      ∀ c1, receive_thread_func sz decode clock e c = some c1 →
        c1.stats_.errors = c.stats_.errors) ∧
    (e.recv_ret < 0 → e.recv_errno ≠ EAGAIN → e.recv_errno ≠ EWOULDBLOCK →
      receive_thread_func sz decode clock e c = handle_disconnection e.reconnect
        { c with stats_ := { c.stats_ with errors := (c.stats_.errors + 1) % 2 ^ 64 } } ∧
      ∀ c1, receive_thread_func sz decode clock e c = some c1 →
        c1.stats_.errors = (c.stats_.errors + 1) % 2 ^ 64) ∧
    (e.recv_ret < 0 → (e.recv_errno = EAGAIN ∨ e.recv_errno = EWOULDBLOCK) →
      receive_thread_func sz decode clock e c = some c) ∧
    (e.recv_ret > 0 →
      receive_thread_func sz decode clock e c
        = process_received_data sz decode clock e.buffer e.recv_ret.toNat
            { c with stats_ := { c.stats_ with
                bytes_received := (c.stats_.bytes_received + e.recv_ret.toNat) % 2 ^ 64
                last_message_time := e.now } } ∧
      ∀ c1, receive_thread_func sz decode clock e c = some c1 →
        c1.stats_.bytes_received = (c.stats_.bytes_received + e.recv_ret.toNat) % 2 ^ 64) := by
  refine ⟨?_, ?_, ?_, ?_⟩
  · intro hz
    have heq : receive_thread_func sz decode clock e c = handle_disconnection e.reconnect c := by
      simp [receive_thread_func, h, hz]
    refine ⟨heq, ?_⟩
    intro c1 hr
    rw [heq] at hr
    exact (only_attempts_changed_errors (handle_disconnection_only_attempts _ _ _ hr)).1
  · intro hneg ha hb
    have h1 : ¬ e.recv_ret > 0 := by omega
    have h2 : ¬ e.recv_ret = 0 := by omega
    have heq : receive_thread_func sz decode clock e c = handle_disconnection e.reconnect
        { c with stats_ := { c.stats_ with errors := (c.stats_.errors + 1) % 2 ^ 64 } } := by
      simp [receive_thread_func, h, h1, h2, ha, hb, wrap64, UINT64_MOD]
    refine ⟨heq, ?_⟩
    intro c1 hr
    rw [heq] at hr
    exact (only_attempts_changed_errors (handle_disconnection_only_attempts _ _ _ hr)).1
  · intro hneg herr
    have h1 : ¬ e.recv_ret > 0 := by omega
    have h2 : ¬ e.recv_ret = 0 := by omega
    have h3 : ¬ (e.recv_errno ≠ EAGAIN ∧ e.recv_errno ≠ EWOULDBLOCK) := by
      rintro ⟨ha, hb⟩
      rcases herr with herr | herr
      · exact ha herr
      · exact hb herr
    simp only [receive_thread_func, h, h1, h2, h3, if_true, if_false, ne_eq,
      not_true_eq_false]
  · intro hpos
    have heq : receive_thread_func sz decode clock e c
        = process_received_data sz decode clock e.buffer e.recv_ret.toNat
            { c with stats_ := { c.stats_ with
                bytes_received := (c.stats_.bytes_received + e.recv_ret.toNat) % 2 ^ 64
                last_message_time := e.now } } := by
      simp [receive_thread_func, h, hpos, on_bytes_received, wrap64, UINT64_MOD]
    refine ⟨heq, ?_⟩
    intro c1 hr
    rw [heq] at hr
    exact (process_received_data_loop_bytes_received sz decode clock e.buffer _ _ _ _ _ c1
      hr).1

theorem receive_loop_outcomes_witness :
    example_connected.connection_state_ = ConnectionState.CONNECTED ∧
    example_recv_closed.recv_ret = 0 ∧
    receive_thread_func example_layout example_decode example_clock example_recv_closed
      example_connected = handle_disconnection example_recv_closed.reconnect example_connected ∧
    example_recv_data.recv_ret > 0 ∧
    (∀ c1, receive_thread_func example_layout example_decode example_clock example_recv_data
      example_connected = some c1 →
      c1.stats_.bytes_received
        = (example_connected.stats_.bytes_received + example_recv_data.recv_ret.toNat)
          % 2 ^ 64) :=
  ⟨by decide, by decide,
   ((receive_loop_outcomes example_layout example_decode example_clock example_recv_closed
      example_connected (by decide)).1 (by decide)).1,
   by decide,
   ((receive_loop_outcomes example_layout example_decode example_clock example_recv_data
      example_connected (by decide)).2.2.2 (by decide)).2⟩

theorem failed_pass_socket (e : ReconnectEnv) (c : HFTTCPClient) :
    (failed_pass e c).socket_fd_ = -1 := by
  rw [failed_pass, (after_sleep_keeps_pipeline e _).2.1]

/-- Entered in a state other than `CONNECTED`, `attempt_reconnection` returns either
`CONNECTED` with a socket, or `ERROR` without one and with auto-reconnect found disabled. -/
theorem attempt_reconnection_final_state (script : List ReconnectEnv) (c c1 : HFTTCPClient)
    (h : c.connection_state_ ≠ ConnectionState.CONNECTED)
    (hr : attempt_reconnection script c = some c1) :
    (c1.connection_state_ = ConnectionState.CONNECTED ∧ c1.socket_fd_ ≠ -1) ∨
    (c1.connection_state_ = ConnectionState.ERROR ∧ c1.socket_fd_ = -1 ∧
      c1.auto_reconnect_ = false) := by
  induction script generalizing c with
  | nil => simp [attempt_reconnection] at hr
  | cons e rest ih =>
    by_cases hs : e.net.all_steps_succeed
    · rw [attempt_reconnection_cons_of_succeed e rest c h hs] at hr
      cases hr
      exact Or.inl ⟨rfl, hs.1⟩
    · rw [attempt_reconnection_cons_of_fail e rest c h
        ((some_step_fails_iff e.net).mpr hs)] at hr
      obtain ⟨p1, -, -, -⟩ := failed_pass_fields e c
      split at hr
      · exact ih (failed_pass e c) (by rw [p1]; decide) hr
      · rename_i hauto
        cases hr
        exact Or.inr ⟨p1, failed_pass_socket e c, by simpa using hauto⟩

theorem drop_connection_socket (c : HFTTCPClient) :
    (drop_connection c).socket_fd_ = -1 ∧
    (drop_connection c).auto_reconnect_ = c.auto_reconnect_ := by
  unfold drop_connection
  by_cases h : c.socket_fd_ = -1
  · simp [store_state, h]
  · simp [store_state, close_socket, h]

/-- C24 (counterexample): on the connected example client (auto-reconnect enabled), when the
reconnect attempt is refused and auto-reconnect is switched off during the sleep that
follows, `handle_disconnection` returns with state `ERROR`. -/
theorem handle_disconnection_can_return_in_error_state :
    example_connected.connection_state_ = ConnectionState.CONNECTED ∧
    Option.map (fun c => c.connection_state_)
      (handle_disconnection [ReconnectEnv.mk example_connect_refused (some (false, 1000))]
        example_connected) = some ConnectionState.ERROR := by
  decide

/-- C24 (amended): for every auto-reconnect setting, including one that changes while
reconnection is in progress, and every sequence of connect outcomes for which it returns,
`handle_disconnection` invoked in state `CONNECTED` returns either settled in `DISCONNECTED`
(auto-reconnect off), or, after handing off to the reconnect supervisor, in `CONNECTED`, or
in `ERROR` when a reconnect attempt failed and auto-reconnect was found disabled after it;
it never returns in `CONNECTING` or `RECONNECTING`. -/
theorem handle_disconnection_final_states (script : List ReconnectEnv) (c c1 : HFTTCPClient)
    (h : c.connection_state_ = ConnectionState.CONNECTED)
    (hr : handle_disconnection script c = some c1) :
    ((c.auto_reconnect_ = false ∧ c1.connection_state_ = ConnectionState.DISCONNECTED) ∨
     (c.auto_reconnect_ = true ∧
       (c1.connection_state_ = ConnectionState.CONNECTED ∨
        (c1.connection_state_ = ConnectionState.ERROR ∧ c1.auto_reconnect_ = false)))) ∧
    c1.connection_state_ ≠ ConnectionState.CONNECTING ∧
    c1.connection_state_ ≠ ConnectionState.RECONNECTING := by
  have hmain : (c.auto_reconnect_ = false ∧
        c1.connection_state_ = ConnectionState.DISCONNECTED) ∨
      (c.auto_reconnect_ = true ∧
        (c1.connection_state_ = ConnectionState.CONNECTED ∨
         (c1.connection_state_ = ConnectionState.ERROR ∧ c1.auto_reconnect_ = false))) := by
    rw [handle_disconnection_eq] at hr
    have hne : ¬ c.connection_state_ = ConnectionState.DISCONNECTED := by
      rw [h]
      decide
    rw [if_neg hne, (drop_connection_socket c).2] at hr
    cases ha : c.auto_reconnect_
    · rw [ha] at hr
      simp only [Bool.false_eq_true, if_false, Option.some.injEq] at hr
      subst hr
      exact Or.inl ⟨rfl, (drop_connection_fields c).2.2.1⟩
    · rw [ha] at hr
      simp only [if_true] at hr
      have hst : (store_state ConnectionState.RECONNECTING
          (drop_connection c)).connection_state_ ≠ ConnectionState.CONNECTED := by
        simp [store_state]
      rcases attempt_reconnection_final_state script _ c1 hst hr with ⟨k, -⟩ | ⟨k, -, k3⟩
      · exact Or.inr ⟨rfl, Or.inl k⟩
      · exact Or.inr ⟨rfl, Or.inr ⟨k, k3⟩⟩
  refine ⟨hmain, ?_, ?_⟩
  · rcases hmain with ⟨-, k⟩ | ⟨-, k | ⟨k, -⟩⟩ <;> rw [k] <;> decide
  · rcases hmain with ⟨-, k⟩ | ⟨-, k | ⟨k, -⟩⟩ <;> rw [k] <;> decide

theorem handle_disconnection_final_states_witness :
    example_connected.connection_state_ = ConnectionState.CONNECTED ∧
    ∃ c1, handle_disconnection [ReconnectEnv.mk example_connect_ok none] example_connected
        = some c1 ∧
      c1.connection_state_ ≠ ConnectionState.CONNECTING ∧
      c1.connection_state_ ≠ ConnectionState.RECONNECTING := by
  refine ⟨by decide, ?_⟩
  rcases hr : handle_disconnection [ReconnectEnv.mk example_connect_ok none]
    example_connected with _ | c1
  · have hs : (handle_disconnection [ReconnectEnv.mk example_connect_ok none]
        example_connected).isSome = true := by decide
    rw [hr] at hs
    cases hs
  · obtain ⟨-, h2, h3⟩ := handle_disconnection_final_states
      [ReconnectEnv.mk example_connect_ok none] example_connected c1 (by decide) hr
    exact ⟨c1, rfl, h2, h3⟩

/-! ## Socket handle and connection state -/

theorem socket_invariant_of_connected {c : HFTTCPClient}
    (h : c.connection_state_ = ConnectionState.CONNECTED) (hfd : c.socket_fd_ ≠ -1) :
    socket_valid_iff_connecting_or_connected c :=
  ⟨fun _ => Or.inr h, fun _ => hfd⟩

theorem socket_invariant_of_closed {c : HFTTCPClient}
    (h : c.connection_state_ = ConnectionState.ERROR ∨
      c.connection_state_ = ConnectionState.DISCONNECTED)
    (hfd : c.socket_fd_ = -1) :
    socket_valid_iff_connecting_or_connected c := by
  constructor
  · intro hne
    exact absurd hfd hne
  · intro hst
    rcases h with h | h <;> rcases hst with hst | hst <;> rw [h] at hst <;> cases hst

theorem connect_socket_invariant (e : ConnectEnv) (t : Nat) (c : HFTTCPClient)
    (hinv : socket_valid_iff_connecting_or_connected c) :
    socket_valid_iff_connecting_or_connected (connect e t c).2 := by
  by_cases hc : c.connection_state_ = ConnectionState.CONNECTED
  · have h : connect e t c = (true, c) := by simp [connect, hc]
    rw [h]
    exact hinv
  · by_cases hs : e.all_steps_succeed
    · rw [connect_of_all_steps_succeed e t c hc hs]
      exact socket_invariant_of_connected rfl hs.1
    · rw [connect_of_some_step_fails e t c hc ((some_step_fails_iff e).mpr hs)]
      exact socket_invariant_of_closed (Or.inl rfl) rfl

theorem disconnect_socket (c : HFTTCPClient)
    (h : c.connection_state_ ≠ ConnectionState.DISCONNECTED) :
    (disconnect c).socket_fd_ = -1 := by
  unfold disconnect
  simp only [h, if_false]
  by_cases h1 : c.socket_fd_ = -1 <;> by_cases h2 : c.epoll_fd_ = -1 <;>
    simp [store_state, close_socket, h1, h2]

theorem attempt_reconnection_socket_invariant (script : List ReconnectEnv)
    (c c1 : HFTTCPClient) (hinv : socket_valid_iff_connecting_or_connected c)
    (hr : attempt_reconnection script c = some c1) :
    socket_valid_iff_connecting_or_connected c1 := by
  by_cases hc : c.connection_state_ = ConnectionState.CONNECTED
  · cases script with
    | nil => simp [attempt_reconnection] at hr
    | cons e rest =>
      simp only [attempt_reconnection] at hr
      have hcn : connect e.net 5000
          { c with stats_ := { c.stats_ with
            reconnection_attempts := wrap64 (c.stats_.reconnection_attempts + 1) } }
          = (true, { c with stats_ := { c.stats_ with
            reconnection_attempts := wrap64 (c.stats_.reconnection_attempts + 1) } }) := by
        simp [connect, hc]
      rw [hcn] at hr
      simp only [if_true, Option.some.injEq] at hr
      subst hr
      exact hinv
  · rcases attempt_reconnection_final_state script c c1 hc hr with ⟨k1, k2⟩ | ⟨k1, k2, -⟩
    · exact socket_invariant_of_connected k1 k2
    · exact socket_invariant_of_closed (Or.inl k1) k2

theorem handle_disconnection_socket_invariant (script : List ReconnectEnv)
    (c c1 : HFTTCPClient) (hinv : socket_valid_iff_connecting_or_connected c)
    (hr : handle_disconnection script c = some c1) :
    socket_valid_iff_connecting_or_connected c1 := by
  rw [handle_disconnection_eq] at hr
  split at hr
  · cases hr
    exact hinv
  · split at hr
    · have hst : (store_state ConnectionState.RECONNECTING
          (drop_connection c)).connection_state_ ≠ ConnectionState.CONNECTED := by
        simp [store_state]
      rcases attempt_reconnection_final_state script _ c1 hst hr with ⟨k1, k2⟩ | ⟨k1, k2, -⟩
      · exact socket_invariant_of_connected k1 k2
      · exact socket_invariant_of_closed (Or.inl k1) k2
    · cases hr
      exact socket_invariant_of_closed (Or.inr (drop_connection_fields c).2.2.1)
        (drop_connection_socket c).1

/-- C25: the socket handle is valid (not -1) if and only if the state is `CONNECTING` or
`CONNECTED`: this holds after construction, and each of `connect`, `disconnect`,
`handle_disconnection`, `attempt_reconnection`, `send_message` and `reset_stats`, started
where it holds, completes where it holds. -/
theorem socket_valid_iff_state_is_invariant :
    (∀ client_id now : Nat,
      socket_valid_iff_connecting_or_connected (HFTTCPClient.construct client_id now)) ∧
    (∀ (e : ConnectEnv) (t : Nat) (c : HFTTCPClient),
      socket_valid_iff_connecting_or_connected c →
      socket_valid_iff_connecting_or_connected (connect e t c).2) ∧
    (∀ c : HFTTCPClient, socket_valid_iff_connecting_or_connected c →
      socket_valid_iff_connecting_or_connected (disconnect c)) ∧
    (∀ (script : List ReconnectEnv) (c c1 : HFTTCPClient),
      socket_valid_iff_connecting_or_connected c → handle_disconnection script c = some c1 →
      socket_valid_iff_connecting_or_connected c1) ∧
    (∀ (script : List ReconnectEnv) (c c1 : HFTTCPClient),
      socket_valid_iff_connecting_or_connected c → attempt_reconnection script c = some c1 →
      socket_valid_iff_connecting_or_connected c1) ∧
    (∀ (sz : Sizes) (msg : Message) (c : HFTTCPClient),
      socket_valid_iff_connecting_or_connected c →
      socket_valid_iff_connecting_or_connected (send_message sz msg c).2) ∧
    (∀ (now : Nat) (c : HFTTCPClient), socket_valid_iff_connecting_or_connected c →
      socket_valid_iff_connecting_or_connected (reset_stats now c)) := by
  refine ⟨?_, connect_socket_invariant, ?_, ?_, ?_, ?_, ?_⟩
  · intro client_id now
    exact socket_invariant_of_closed (Or.inr rfl) rfl
  · intro c hinv
    by_cases h : c.connection_state_ = ConnectionState.DISCONNECTED
    · have hd : disconnect c = c := by simp [disconnect, h]
      rw [hd]
      exact hinv
    · exact socket_invariant_of_closed (Or.inr (disconnect_state c)) (disconnect_socket c h)
  · intro script c c1 hinv hr
    exact handle_disconnection_socket_invariant script c c1 hinv hr
  · intro script c c1 hinv hr
    exact attempt_reconnection_socket_invariant script c c1 hinv hr
  · intro sz msg c hinv
    by_cases hc : c.connection_state_ = ConnectionState.CONNECTED
    · have h1 : (send_message sz msg c).2.socket_fd_ = c.socket_fd_ := by
        simp [send_message, hc]
      have h2 : (send_message sz msg c).2.connection_state_ = c.connection_state_ := by
        simp [send_message, hc]
      unfold socket_valid_iff_connecting_or_connected at *
      rw [h1, h2]
      exact hinv
    · have h1 : send_message sz msg c = (false, c) := by simp [send_message, hc]
      rw [h1]
      exact hinv
  · intro now c hinv
    exact hinv

theorem socket_valid_iff_state_is_invariant_witness :
    socket_valid_iff_connecting_or_connected example_client ∧
    socket_valid_iff_connecting_or_connected
      (connect example_connect_ok 5000 example_client).2 ∧
    socket_valid_iff_connecting_or_connected
      (connect example_connect_refused 5000 example_client).2 ∧
    socket_valid_iff_connecting_or_connected (disconnect example_connected) :=
  ⟨by decide,
   socket_valid_iff_state_is_invariant.2.1 example_connect_ok 5000 example_client (by decide),
   socket_valid_iff_state_is_invariant.2.1 example_connect_refused 5000 example_client
     (by decide),
   socket_valid_iff_state_is_invariant.2.2.1 example_connected (by decide)⟩

/-! ## Typed wrappers: round trip -/

theorem handler_calls_order_frame (sz : Sizes) (c d : HFTTCPClient) (i t : Nat)
    (blank order : List Nat) (hlen : order.length = sz.sizeof_OrderMessage)
    (hh : d.order_handler_ = true) :
    handler_calls sz (order_frame sz c i t blank order) d =
      (if d.message_handler_ = true then
        [Event.call_message_handler (order_frame sz c i t blank order)] else []) ++
      [Event.call_order_handler order] := by
  have htake : (order ++ blank.drop order.length).take sz.sizeof_OrderMessage = order := by
    rw [← hlen]
    exact List.take_left' rfl
  simp [handler_calls, order_frame, hh, htake]

theorem handler_calls_market_data_frame (sz : Sizes) (c d : HFTTCPClient) (i t : Nat)
    (blank md : List Nat) (hlen : md.length = sz.sizeof_MarketDataMessage)
    (hh : d.market_data_handler_ = true) :
    handler_calls sz (market_data_frame sz c i t blank md) d =
      (if d.message_handler_ = true then
        [Event.call_message_handler (market_data_frame sz c i t blank md)] else []) ++
      [Event.call_market_data_handler md] := by
  have htake : (md ++ blank.drop md.length).take sz.sizeof_MarketDataMessage = md := by
    rw [← hlen]
    exact List.take_left' rfl
  simp [handler_calls, market_data_frame, hh, htake]

/-- C28: round trip of the typed wrappers. On a `CONNECTED` client `c`, for every
`OrderMessage` `o` (its `sizeof(OrderMessage)` bytes, not more than the payload capacity),
`send_order o` enqueues a frame with tag `ORDER_NEW`, source id `client_id_`,
`payload_size = sizeof(OrderMessage)` and a payload area of unchanged length; and
`process_message` applied to that frame on a client with an order handler registered calls
that handler exactly once, with `o` (and, if registered, the generic handler; no other).
Likewise `send_market_data m` enqueues a `MARKET_DATA` frame that `process_message` delivers
to the registered market-data handler as `m`. -/
theorem typed_wrappers_round_trip (sz : Sizes) (c d : HFTTCPClient) (i t : Nat)
    (blank : List Nat) (hc : c.connection_state_ = ConnectionState.CONNECTED)
    (hblank : blank.length = sz.payload_capacity) :
    (∀ order : List Nat, order.length = sz.sizeof_OrderMessage →
      sz.sizeof_OrderMessage ≤ sz.payload_capacity → d.order_handler_ = true →
      (send_order sz i t blank order c).1 = true ∧
      (send_order sz i t blank order c).2.send_queue_
        = c.send_queue_ ++ [order_frame sz c i t blank order] ∧
      (order_frame sz c i t blank order).message_type = MessageType.ORDER_NEW ∧
      (order_frame sz c i t blank order).source_id = c.client_id_ ∧
      (order_frame sz c i t blank order).payload_size = sz.sizeof_OrderMessage ∧
      (order_frame sz c i t blank order).payload.length = sz.payload_capacity ∧
      (process_message sz (order_frame sz c i t blank order) d).trace = d.trace ++
        ((if d.message_handler_ = true then
          [Event.call_message_handler (order_frame sz c i t blank order)] else []) ++
         [Event.call_order_handler order])) ∧
    (∀ md : List Nat, md.length = sz.sizeof_MarketDataMessage →
      sz.sizeof_MarketDataMessage ≤ sz.payload_capacity → d.market_data_handler_ = true →
      (send_market_data sz i t blank md c).1 = true ∧
      (send_market_data sz i t blank md c).2.send_queue_
        = c.send_queue_ ++ [market_data_frame sz c i t blank md] ∧
      (market_data_frame sz c i t blank md).message_type = MessageType.MARKET_DATA ∧
      (market_data_frame sz c i t blank md).source_id = c.client_id_ ∧
      (market_data_frame sz c i t blank md).payload_size = sz.sizeof_MarketDataMessage ∧
      (market_data_frame sz c i t blank md).payload.length = sz.payload_capacity ∧
      (process_message sz (market_data_frame sz c i t blank md) d).trace = d.trace ++
        ((if d.message_handler_ = true then
          [Event.call_message_handler (market_data_frame sz c i t blank md)] else []) ++
         [Event.call_market_data_handler md])) := by
  constructor
  · intro order hlen hcap hh
    refine ⟨?_, ?_, rfl, rfl, rfl, ?_, ?_⟩
    · simp [send_order, send_message, hc]
    · simp [send_order, send_message, hc]
    · simp only [order_frame, List.length_append, List.length_drop]
      omega
    · rw [process_message_eq, handler_calls_order_frame sz c d i t blank order hlen hh]
  · intro md hlen hcap hh
    refine ⟨?_, ?_, rfl, rfl, rfl, ?_, ?_⟩
    · simp [send_market_data, send_message, hc]
    · simp [send_market_data, send_message, hc]
    · simp only [market_data_frame, List.length_append, List.length_drop]
      omega
    · rw [process_message_eq, handler_calls_market_data_frame sz c d i t blank md hlen hh]

theorem typed_wrappers_round_trip_witness :
    example_connected.connection_state_ = ConnectionState.CONNECTED ∧
    [0, 0, 0, 0].length = example_layout.payload_capacity ∧
    (send_order example_layout 42 1000 [0, 0, 0, 0] [11, 12] example_connected).1 = true ∧
    (process_message example_layout
      (order_frame example_layout example_connected 42 1000 [0, 0, 0, 0] [11, 12])
      example_listening).trace = example_listening.trace ++
        ((if example_listening.message_handler_ = true then
          [Event.call_message_handler
            (order_frame example_layout example_connected 42 1000 [0, 0, 0, 0] [11, 12])]
          else []) ++
         [Event.call_order_handler [11, 12]]) :=
  ⟨by decide, by decide,
   ((typed_wrappers_round_trip example_layout example_connected example_listening 42 1000
      [0, 0, 0, 0] (by decide) (by decide)).1 [11, 12] (by decide) (by decide)
      (by decide)).1,
   ((typed_wrappers_round_trip example_layout example_connected example_listening 42 1000
      [0, 0, 0, 0] (by decide) (by decide)).1 [11, 12] (by decide) (by decide)
      (by decide)).2.2.2.2.2.2⟩

/-! ## Sent bytes and sent messages -/

theorem sent_bytes_match_bump (sz : Sizes) (s : ClientStats) (h : sent_bytes_match sz s) :
    sent_bytes_match sz
      { s with
        messages_sent := wrap64 (s.messages_sent + 1)
        bytes_sent := wrap64 (s.bytes_sent + sz.sizeof_Message) } := by
  unfold sent_bytes_match at *
  simp only [wrap64, UINT64_MOD]
  rw [h, Nat.mod_add_mod, Nat.mod_mul_mod, Nat.succ_mul]

theorem sent_bytes_match_of_same {sz : Sizes} {s t : ClientStats}
    (h : sent_bytes_match sz s) (hm : t.messages_sent = s.messages_sent)
    (hb : t.bytes_sent = s.bytes_sent) : sent_bytes_match sz t := by
  unfold sent_bytes_match at *
  rw [hm, hb]
  exact h

theorem send_thread_func_sent_bytes_match (sz : Sizes) (envs : List SendEnv)
    (c c1 : HFTTCPClient) (h : sent_bytes_match sz c.stats_)
    (hr : send_thread_func sz envs c = some c1) : sent_bytes_match sz c1.stats_ := by
  induction envs generalizing c with
  | nil =>
    rcases hq : c.send_queue_ with _ | ⟨msg, queue⟩
    · simp only [send_thread_func, hq] at hr
      cases hr
      exact h
    · simp only [send_thread_func, hq] at hr
      split at hr
      · cases hr
        exact h
      · cases hr
  | cons e es ih =>
    rcases hq : c.send_queue_ with _ | ⟨msg, queue⟩
    · simp only [send_thread_func, hq] at hr
      cases hr
      exact h
    · by_cases hc : c.connection_state_ = ConnectionState.CONNECTED
      · have hfail : ∀ d c3 : HFTTCPClient, handle_disconnection e.reconnect d = some c3 →
            d.stats_.messages_sent = c.stats_.messages_sent →
            d.stats_.bytes_sent = c.stats_.bytes_sent → sent_bytes_match sz c3.stats_ := by
          intro d c3 hd hm hb
          obtain ⟨-, a2, a3, -, -⟩ :=
            only_attempts_changed_errors (handle_disconnection_only_attempts _ _ _ hd)
          exact sent_bytes_match_of_same h (a2.trans hm) (a3.trans hb)
        by_cases hfd : c.socket_fd_ = -1
        · rw [send_thread_func_cons_no_socket sz e es c msg queue hq hc hfd] at hr
          split at hr
          · cases hr
          · rename_i c3 hd
            exact ih c3 (hfail _ c3 hd rfl rfl) hr
        · rw [send_thread_func_cons sz e es c msg queue hq hc hfd] at hr
          split at hr
          · exact ih _ (sent_bytes_match_bump sz c.stats_ h) hr
          · split at hr
            · cases hr
            · rename_i c3 hd
              exact ih c3 (hfail _ c3 hd rfl rfl) hr
      · simp only [send_thread_func, hq] at hr
        simp only [ne_eq, hc, not_false_eq_true, if_true] at hr
        cases hr
        exact h

theorem receive_thread_func_sent (sz : Sizes) (decode : List Nat → Message)
    (clock : Nat → Nat) (e : RecvEnv) (c c1 : HFTTCPClient)
    (hr : receive_thread_func sz decode clock e c = some c1) :
    c1.stats_.messages_sent = c.stats_.messages_sent ∧
    c1.stats_.bytes_sent = c.stats_.bytes_sent := by
  unfold receive_thread_func at hr
  split at hr
  · cases hr
    exact ⟨rfl, rfl⟩
  · split at hr
    · obtain ⟨-, a2, a3, -, -⟩ :=
        only_receive_changed_sent (on_bytes_received_only_receive sz decode clock e c c1 hr)
      exact ⟨a2, a3⟩
    · split at hr
      · obtain ⟨-, a2, a3, -, -⟩ :=
          only_attempts_changed_errors (handle_disconnection_only_attempts _ _ _ hr)
        exact ⟨a2, a3⟩
      · split at hr
        · obtain ⟨-, a2, a3, -, -⟩ :=
            only_attempts_changed_errors (handle_disconnection_only_attempts _ _ _ hr)
          exact ⟨a2, a3⟩
        · cases hr
          exact ⟨rfl, rfl⟩

theorem epoll_thread_func_sent (sz : Sizes) (decode : List Nat → Message)
    (clock : Nat → Nat) (epollin : Bool) (e : RecvEnv) (c c1 : HFTTCPClient)
    (hr : epoll_thread_func sz decode clock epollin e c = some c1) :
    c1.stats_.messages_sent = c.stats_.messages_sent ∧
    c1.stats_.bytes_sent = c.stats_.bytes_sent := by
  unfold epoll_thread_func at hr
  split at hr
  · split at hr
    · obtain ⟨-, a2, a3, -, -⟩ :=
        only_receive_changed_sent (on_bytes_received_only_receive sz decode clock e c c1 hr)
      exact ⟨a2, a3⟩
    · cases hr
      exact ⟨rfl, rfl⟩
  · cases hr
    exact ⟨rfl, rfl⟩

theorem apply_op_sent_bytes_match (sz : Sizes) (decode : List Nat → Message)
    (clock : Nat → Nat) (op : ClientOp) (c c1 : HFTTCPClient)
    (h : sent_bytes_match sz c.stats_) (hr : apply_op sz decode clock op c = some c1) :
    sent_bytes_match sz c1.stats_ := by
  cases op with
  | send_message msg =>
    simp only [apply_op, Option.some.injEq] at hr
    subst hr
    by_cases hc : c.connection_state_ = ConnectionState.CONNECTED
    · have hsm : (send_message sz msg c).2.stats_ = { c.stats_ with
          messages_sent := wrap64 (c.stats_.messages_sent + 1)
          bytes_sent := wrap64 (c.stats_.bytes_sent + sz.sizeof_Message) } := by
        simp [send_message, hc]
      rw [hsm]
      exact sent_bytes_match_bump sz c.stats_ h
    · have hsm : send_message sz msg c = (false, c) := by simp [send_message, hc]
      rw [hsm]
      exact h
  | sender envs => exact send_thread_func_sent_bytes_match sz envs c c1 h hr
  | reset_stats now =>
    simp only [apply_op, Option.some.injEq] at hr
    subst hr
    simp [sent_bytes_match, reset_stats, ClientStats.fresh]
  | connect e t =>
    simp only [apply_op, Option.some.injEq] at hr
    subst hr
    obtain ⟨-, a2, a3, -, -⟩ := only_attempts_changed_errors (connect_only_attempts e t c)
    exact sent_bytes_match_of_same h a2 a3
  | disconnect =>
    simp only [apply_op, Option.some.injEq] at hr
    subst hr
    rw [disconnect_stats]
    exact h
  | receive e =>
    obtain ⟨a2, a3⟩ := receive_thread_func_sent sz decode clock e c c1 hr
    exact sent_bytes_match_of_same h a2 a3
  | epoll_event epollin e =>
    obtain ⟨a2, a3⟩ := epoll_thread_func_sent sz decode clock epollin e c c1 hr
    exact sent_bytes_match_of_same h a2 a3

theorem run_ops_sent_bytes_match (sz : Sizes) (decode : List Nat → Message)
    (clock : Nat → Nat) (ops : List ClientOp) (c c1 : HFTTCPClient)
    (h : sent_bytes_match sz c.stats_) (hr : run_ops sz decode clock ops c = some c1) :
    sent_bytes_match sz c1.stats_ := by
  induction ops generalizing c with
  | nil =>
    simp only [run_ops, Option.some.injEq] at hr
    subst hr
    exact h
  | cons op rest ih =>
    simp only [run_ops] at hr
    split at hr
    · cases hr
    · rename_i c2 hop
      exact ih c2 (apply_op_sent_bytes_match sz decode clock op c c2 h hop) hr

/-- C29: in every state reachable from construction by any sequence of `send_message` calls,
sender-loop wake-ups, `reset_stats`, `connect`, `disconnect` and receive steps of either
loop, `bytes_sent = messages_sent * sizeof(Message)` modulo `2^64`. -/
theorem bytes_sent_is_messages_sent_times_frame_size (sz : Sizes)
    (decode : List Nat → Message) (clock : Nat → Nat) (client_id now : Nat)
    (ops : List ClientOp) (c : HFTTCPClient)
    (hr : run_ops sz decode clock ops (HFTTCPClient.construct client_id now) = some c) :
    (get_stats c).bytes_sent = ((get_stats c).messages_sent * sz.sizeof_Message) % 2 ^ 64 := by
  have h0 : sent_bytes_match sz (HFTTCPClient.construct client_id now).stats_ := by
    simp [sent_bytes_match, HFTTCPClient.construct, ClientStats.fresh]
  exact run_ops_sent_bytes_match sz decode clock ops _ c h0 hr

theorem bytes_sent_is_messages_sent_times_frame_size_witness :
    Option.map (fun c => ((get_stats c).messages_sent, (get_stats c).bytes_sent))
      (run_ops example_layout example_decode example_clock example_ops
        (HFTTCPClient.construct 7 100)) = some (3, 24) ∧
    (∀ c, run_ops example_layout example_decode example_clock example_ops
        (HFTTCPClient.construct 7 100) = some c →
      (get_stats c).bytes_sent
        = ((get_stats c).messages_sent * example_layout.sizeof_Message) % 2 ^ 64) :=
  ⟨by decide,
   fun c hr => bytes_sent_is_messages_sent_times_frame_size example_layout example_decode
     example_clock 7 100 example_ops c hr⟩

/-! ## Received messages and received bytes -/

theorem dispatch_frame_messages_received (sz : Sizes) (t : Nat) (msg : Message)
    (c : HFTTCPClient) :
    (dispatch_frame sz t msg c).stats_.messages_received
      = wrap64 (c.stats_.messages_received + 1) := by
  by_cases h : msg.timestamp = 0
  · rw [dispatch_frame_of_no_timestamp sz t msg c h]
  · rw [(dispatch_frame_of_timestamp sz t msg c h).2]

theorem dispatch_frames_messages_received (sz : Sizes) (decode : List Nat → Message)
    (clock : Nat → Nat) (data : List Nat) (j m : Nat) (c : HFTTCPClient)
    (hm : c.stats_.messages_received = wrap64 m) :
    (dispatch_frames sz decode clock data j c).stats_.messages_received = wrap64 (m + j) ∧
    (dispatch_frames sz decode clock data j c).stats_.bytes_received
      = c.stats_.bytes_received := by
  induction j with
  | zero =>
    have h0 : dispatch_frames sz decode clock data 0 c = c := by simp [dispatch_frames]
    rw [h0]
    exact ⟨hm, rfl⟩
  | succ j ih =>
    rw [dispatch_frames_succ]
    refine ⟨?_, ?_⟩
    · rw [dispatch_frame_messages_received, ih.1, wrap64_add_wrap64]
      rfl
    · rw [(dispatch_frame_bytes_received _ _ _ _).1, ih.2]

/-- A read of `n` bytes handled by a receive loop adds `n` to `bytes_received` and the
number of whole frames in `n` bytes to `messages_received`. -/
theorem on_bytes_received_counts (sz : Sizes) (decode : List Nat → Message)
    (clock : Nat → Nat) (e : RecvEnv) (c : HFTTCPClient) (b m : Nat)
    (hF : 0 < sz.sizeof_Message)
    (hb : c.stats_.bytes_received = wrap64 b) (hm : c.stats_.messages_received = wrap64 m) :
    ∃ c1, on_bytes_received sz decode clock e c = some c1 ∧
      c1.stats_.bytes_received = wrap64 (b + e.recv_ret.toNat) ∧
      c1.stats_.messages_received = wrap64 (m + e.recv_ret.toNat / sz.sizeof_Message) := by
  unfold on_bytes_received
  rw [process_received_data_eq _ _ _ _ _ _ hF]
  have h := dispatch_frames_messages_received sz decode clock e.buffer
    (e.recv_ret.toNat / sz.sizeof_Message) m
    { c with stats_ := { c.stats_ with
        bytes_received := wrap64 (c.stats_.bytes_received + e.recv_ret.toNat)
        last_message_time := e.now } } hm
  refine ⟨_, rfl, ?_, h.1⟩
  rw [h.2]
  simp only [hb, wrap64_add_wrap64]

theorem run_receive_counts (sz : Sizes) (decode : List Nat → Message) (clock : Nat → Nat)
    (hF : 0 < sz.sizeof_Message) (ops : List ReceiveOp) (acc : List Nat) (c : HFTTCPClient)
    (hb : c.stats_.bytes_received = wrap64 acc.sum)
    (hm : c.stats_.messages_received
      = wrap64 (acc.map (fun n => n / sz.sizeof_Message)).sum) :
    ∃ c1, run_receive sz decode clock ops c = some c1 ∧
      c1.stats_.bytes_received = wrap64 (reads_since_reset_from acc ops).sum ∧
      c1.stats_.messages_received
        = wrap64 ((reads_since_reset_from acc ops).map
            (fun n => n / sz.sizeof_Message)).sum := by
  induction ops generalizing acc c with
  | nil => exact ⟨c, rfl, hb, hm⟩
  | cons op rest ih =>
    cases op with
    | read e =>
      obtain ⟨c1, h1, hb1, hm1⟩ := on_bytes_received_counts sz decode clock e c _ _ hF hb hm
      obtain ⟨c2, h2, hb2, hm2⟩ := ih (acc ++ [e.recv_ret.toNat]) c1
        (by rw [hb1]; simp) (by rw [hm1]; simp)
      refine ⟨c2, ?_, hb2, hm2⟩
      simp only [run_receive, apply_receive_op, h1]
      exact h2
    | reset now =>
      obtain ⟨c2, h2, hb2, hm2⟩ := ih [] (reset_stats now c)
        (by simp [reset_stats, ClientStats.fresh, wrap64])
        (by simp [reset_stats, ClientStats.fresh, wrap64])
      refine ⟨c2, ?_, hb2, hm2⟩
      simp only [run_receive, apply_receive_op]
      exact h2

theorem sum_div_mul_le (F : Nat) (l : List Nat) :
    (l.map (fun n => n / F)).sum * F ≤ l.sum := by
  induction l with
  | nil => simp
  | cons n rest ih =>
    simp only [List.map_cons, List.sum_cons, Nat.add_mul]
    have h := Nat.div_mul_le_self n F
    omega

theorem sum_div_mul_eq_iff (F : Nat) (l : List Nat) :
    (l.map (fun n => n / F)).sum * F = l.sum ↔ ∀ n ∈ l, n % F = 0 := by
  induction l with
  | nil => simp
  | cons n rest ih =>
    simp only [List.map_cons, List.sum_cons, Nat.add_mul, List.mem_cons, forall_eq_or_imp]
    have h := Nat.div_mul_le_self n F
    have h1 := sum_div_mul_le F rest
    have h2 := Nat.div_add_mod n F
    have h3 : F * (n / F) = n / F * F := Nat.mul_comm _ _
    rw [← ih]
    constructor
    · intro heq
      constructor <;> omega
    · rintro ⟨a, b⟩
      omega

theorem sum_div_le (F : Nat) (l : List Nat) : (l.map (fun n => n / F)).sum ≤ l.sum := by
  induction l with
  | nil => simp
  | cons n rest ih =>
    simp only [List.map_cons, List.sum_cons]
    have h := Nat.div_le_self n F
    omega

/-- Statement refuted for C30: a run of the receive side that ends with
`messages_received * sizeof(Message) = bytes_received` although not every read so far was a
whole number of frames. With 8-byte frames: a read of 3 bytes, `reset_stats`, a read of 8
bytes; the counters are then 1 and 8. -/
theorem received_equality_after_reset_despite_partial_read :
    Option.map (fun c => ((get_stats c).messages_received, (get_stats c).bytes_received))
      (run_receive example_layout example_decode example_clock example_receive_ops
        (HFTTCPClient.construct 7 100)) = some (1, 8) ∧
    1 * example_layout.sizeof_Message = 8 ∧
    reads_so_far example_receive_ops = [3, 8] ∧
    ¬ (∀ n ∈ reads_so_far example_receive_ops, n % example_layout.sizeof_Message = 0) := by
  decide

/-- C30 as amended: in every state reachable from construction by receive steps and
`reset_stats` calls, as long as the bytes read since the last reset are fewer than `2^64`,
the run ends, `messages_received * sizeof(Message) ≤ bytes_received`, and equality holds
exactly when every read since the last reset was a whole number of frames. -/
theorem received_frames_bounded_by_received_bytes (sz : Sizes) (decode : List Nat → Message)
    (clock : Nat → Nat) (client_id now : Nat) (ops : List ReceiveOp)
    (hF : 0 < sz.sizeof_Message) (hsum : (reads_since_reset ops).sum < 2 ^ 64) :
    ∃ c, run_receive sz decode clock ops (HFTTCPClient.construct client_id now) = some c ∧
      (get_stats c).messages_received * sz.sizeof_Message ≤ (get_stats c).bytes_received ∧
      ((get_stats c).messages_received * sz.sizeof_Message = (get_stats c).bytes_received ↔
        ∀ n ∈ reads_since_reset ops, n % sz.sizeof_Message = 0) := by
  obtain ⟨c, hr, hb, hm⟩ := run_receive_counts sz decode clock hF ops []
    (HFTTCPClient.construct client_id now)
    (by simp [HFTTCPClient.construct, ClientStats.fresh, wrap64])
    (by simp [HFTTCPClient.construct, ClientStats.fresh, wrap64])
  have hle := sum_div_le sz.sizeof_Message (reads_since_reset ops)
  change c.stats_.bytes_received = wrap64 (reads_since_reset ops).sum at hb
  change c.stats_.messages_received
    = wrap64 ((reads_since_reset ops).map (fun n => n / sz.sizeof_Message)).sum at hm
  rw [wrap64_of_lt hsum] at hb
  rw [wrap64_of_lt (lt_of_le_of_lt hle hsum)] at hm
  refine ⟨c, hr, ?_, ?_⟩
  · simp only [get_stats, hb, hm]
    exact sum_div_mul_le _ _
  · simp only [get_stats, hb, hm]
    exact sum_div_mul_eq_iff _ _

theorem received_frames_bounded_by_received_bytes_witness :
    0 < example_layout.sizeof_Message ∧
    (reads_since_reset example_receive_ops).sum < 2 ^ 64 ∧
    reads_since_reset example_receive_ops = [8] ∧
    (∃ c, run_receive example_layout example_decode example_clock example_receive_ops
        (HFTTCPClient.construct 7 100) = some c ∧
      (get_stats c).messages_received * example_layout.sizeof_Message
        ≤ (get_stats c).bytes_received ∧
      ((get_stats c).messages_received * example_layout.sizeof_Message
          = (get_stats c).bytes_received ↔
        ∀ n ∈ reads_since_reset example_receive_ops,
          n % example_layout.sizeof_Message = 0)) :=
  ⟨by decide, by decide, by decide,
   received_frames_bounded_by_received_bytes example_layout example_decode example_clock 7
     100 example_receive_ops (by decide) (by decide)⟩

/-! ## Latency test client: percentiles -/

theorem LatencyTestClient.step_percentiles (op : LatencyOp) (c : LatencyTestClient) :
    (LatencyTestClient.step op c).p50_latency_us = c.p50_latency_us ∧
    (LatencyTestClient.step op c).p95_latency_us = c.p95_latency_us ∧
    (LatencyTestClient.step op c).p99_latency_us = c.p99_latency_us ∧
    (LatencyTestClient.step op c).p99_9_latency_us = c.p99_9_latency_us := by
  cases op with
  | send send_ns send_ret =>
    simp only [LatencyTestClient.step, LatencyTestClient.run_latency_test_iteration,
      LatencyTestClient.send_message]
    split
    · exact ⟨rfl, rfl, rfl, rfl⟩
    · split <;> exact ⟨rfl, rfl, rfl, rfl⟩
  | response receive_ns =>
    rcases hq : c.latency_measurements_ with _ | ⟨a, r⟩ <;>
      simp [LatencyTestClient.step, LatencyTestClient.receive_responses_frame, hq,
        LatencyTestClient.update_latency_stats]

theorem LatencyTestClient.step_measurements (op : LatencyOp) (c : LatencyTestClient) :
    (LatencyTestClient.step op c).latency_measurements_
      = match op with
        | LatencyOp.send send_ns _ => c.latency_measurements_ ++ [wrap64 send_ns]
        | LatencyOp.response _ => c.latency_measurements_.tail := by
  cases op with
  | send send_ns send_ret =>
    simp only [LatencyTestClient.step, LatencyTestClient.run_latency_test_iteration,
      LatencyTestClient.send_message]
    split
    · rfl
    · split <;> rfl
  | response receive_ns =>
    simp only [LatencyTestClient.step, LatencyTestClient.receive_responses_frame]
    split
    · rename_i h
      simp [h]
    · rename_i send_ns rest h
      simp [h, LatencyTestClient.update_latency_stats]

/-- Through the steps of a test, the vector `latency_measurements_` holds send times that
are waiting for a response, and the percentile members are not written. -/
theorem LatencyTestClient.foldl_step (ops : List LatencyOp) (prior : List Nat)
    (c : LatencyTestClient) (h : c.latency_measurements_ <:+ prior) :
    (ops.foldl (fun acc op => LatencyTestClient.step op acc) c).latency_measurements_
      <:+ prior ++ send_times ops ∧
    (ops.foldl (fun acc op => LatencyTestClient.step op acc) c).p50_latency_us
      = c.p50_latency_us ∧
    (ops.foldl (fun acc op => LatencyTestClient.step op acc) c).p95_latency_us
      = c.p95_latency_us ∧
    (ops.foldl (fun acc op => LatencyTestClient.step op acc) c).p99_latency_us
      = c.p99_latency_us ∧
    (ops.foldl (fun acc op => LatencyTestClient.step op acc) c).p99_9_latency_us
      = c.p99_9_latency_us := by
  induction ops generalizing prior c with
  | nil =>
    simp only [List.foldl_nil, send_times, List.append_nil, and_self, and_true]
    exact h
  | cons op rest ih =>
    obtain ⟨p1, p2, p3, p4⟩ := LatencyTestClient.step_percentiles op c
    have hm := LatencyTestClient.step_measurements op c
    rw [List.foldl_cons]
    cases op with
    | send send_ns send_ret =>
      have hs : (LatencyTestClient.step (LatencyOp.send send_ns send_ret) c).latency_measurements_
          <:+ prior ++ [wrap64 send_ns] := by
        rw [hm]
        obtain ⟨t, ht⟩ := h
        exact ⟨t, by rw [← ht, List.append_assoc]⟩
      obtain ⟨i0, i1, i2, i3, i4⟩ := ih (prior ++ [wrap64 send_ns]) _ hs
      refine ⟨?_, i1.trans p1, i2.trans p2, i3.trans p3, i4.trans p4⟩
      simpa [send_times] using i0
    | response receive_ns =>
      have hs : (LatencyTestClient.step (LatencyOp.response receive_ns) c).latency_measurements_
          <:+ prior := by
        rw [hm]
        exact (List.tail_suffix _).trans h
      obtain ⟨i0, i1, i2, i3, i4⟩ := ih prior _ hs
      refine ⟨?_, i1.trans p1, i2.trans p2, i3.trans p3, i4.trans p4⟩
      simpa [send_times] using i0

theorem percentile_index_lt (n num den : Nat) (h : num < den) :
    percentile_index (n + 1) num den < n + 1 := by
  unfold percentile_index
  have hden : 0 < den := by omega
  rw [Nat.div_lt_iff_lt_mul hden]
  exact Nat.mul_lt_mul_of_pos_left h (Nat.succ_pos n)

theorem LatencyTestClient.get_stats_percentiles (c : LatencyTestClient) :
    (LatencyTestClient.get_stats c).1.p50_latency_us
      = (if c.latency_measurements_ = [] then c.p50_latency_us
         else sorted_element_us c.latency_measurements_ 1 2) ∧
    (LatencyTestClient.get_stats c).1.p95_latency_us
      = (if c.latency_measurements_ = [] then c.p95_latency_us
         else sorted_element_us c.latency_measurements_ 95 100) ∧
    (LatencyTestClient.get_stats c).1.p99_latency_us
      = (if c.latency_measurements_ = [] then c.p99_latency_us
         else sorted_element_us c.latency_measurements_ 99 100) ∧
    (LatencyTestClient.get_stats c).1.p99_9_latency_us
      = (if c.latency_measurements_ = [] then c.p99_9_latency_us
         else sorted_element_us c.latency_measurements_ 999 1000) := by
  unfold LatencyTestClient.get_stats LatencyTestClient.calculate_percentiles
  by_cases h : c.latency_measurements_ = [] <;> simp [h]

/-- C27: what `LatencyTestClient::get_stats` returns as p50, p95, p99 and p99.9 after a
latency test. At every point of a test, whatever the order of the steps of the two threads,
the vector that `calculate_percentiles` sorts is a final segment of the send times pushed by
the sending loop (those still waiting for a response); the four values are the elements of
that sorted vector at `floor(n * q)`, divided by 1000, or, when the vector is empty, the
values that the members had before the test. The latencies passed to `update_latency_stats`
are not in the vector. The index `floor(n * q)` is within bounds for every `n ≥ 1`. -/
theorem percentiles_taken_from_pending_send_times (ops : List LatencyOp)
    (c : LatencyTestClient) :
    (LatencyTestClient.run_latency_test ops c).latency_measurements_ <:+ send_times ops ∧
    (LatencyTestClient.get_stats (LatencyTestClient.run_latency_test ops c)).1.p50_latency_us
      = (if (LatencyTestClient.run_latency_test ops c).latency_measurements_ = []
         then c.p50_latency_us
         else sorted_element_us
           (LatencyTestClient.run_latency_test ops c).latency_measurements_ 1 2) ∧
    (LatencyTestClient.get_stats (LatencyTestClient.run_latency_test ops c)).1.p95_latency_us
      = (if (LatencyTestClient.run_latency_test ops c).latency_measurements_ = []
         then c.p95_latency_us
         else sorted_element_us
           (LatencyTestClient.run_latency_test ops c).latency_measurements_ 95 100) ∧
    (LatencyTestClient.get_stats (LatencyTestClient.run_latency_test ops c)).1.p99_latency_us
      = (if (LatencyTestClient.run_latency_test ops c).latency_measurements_ = []
         then c.p99_latency_us
         else sorted_element_us
           (LatencyTestClient.run_latency_test ops c).latency_measurements_ 99 100) ∧
    (LatencyTestClient.get_stats
        (LatencyTestClient.run_latency_test ops c)).1.p99_9_latency_us
      = (if (LatencyTestClient.run_latency_test ops c).latency_measurements_ = []
         then c.p99_9_latency_us
         else sorted_element_us
           (LatencyTestClient.run_latency_test ops c).latency_measurements_ 999 1000) ∧
    (∀ n, percentile_index (n + 1) 1 2 < n + 1 ∧ percentile_index (n + 1) 95 100 < n + 1 ∧
      percentile_index (n + 1) 99 100 < n + 1 ∧ percentile_index (n + 1) 999 1000 < n + 1) := by
  obtain ⟨i0, i1, i2, i3, i4⟩ := LatencyTestClient.foldl_step ops []
    (LatencyTestClient.reset_stats c) (List.suffix_refl _)
  obtain ⟨g1, g2, g3, g4⟩ :=
    LatencyTestClient.get_stats_percentiles (LatencyTestClient.run_latency_test ops c)
  have q1 : (LatencyTestClient.run_latency_test ops c).p50_latency_us = c.p50_latency_us := i1
  have q2 : (LatencyTestClient.run_latency_test ops c).p95_latency_us = c.p95_latency_us := i2
  have q3 : (LatencyTestClient.run_latency_test ops c).p99_latency_us = c.p99_latency_us := i3
  have q4 : (LatencyTestClient.run_latency_test ops c).p99_9_latency_us
      = c.p99_9_latency_us := i4
  rw [q1] at g1
  rw [q2] at g2
  rw [q3] at g3
  rw [q4] at g4
  refine ⟨?_, g1, g2, g3, g4, ?_⟩
  · simpa [LatencyTestClient.run_latency_test] using i0
  · intro n
    exact ⟨percentile_index_lt n 1 2 (by decide), percentile_index_lt n 95 100 (by decide),
      percentile_index_lt n 99 100 (by decide), percentile_index_lt n 999 1000 (by decide)⟩

theorem percentiles_taken_from_pending_send_times_witness :
    (LatencyTestClient.run_latency_test example_latency_ops
      LatencyTestClient.connected).latencies_fed = [500] ∧
    (LatencyTestClient.run_latency_test example_latency_ops
      LatencyTestClient.connected).latency_measurements_ = [2000] ∧
    (LatencyTestClient.get_stats (LatencyTestClient.run_latency_test example_latency_ops
      LatencyTestClient.connected)).1.p50_latency_us = 2 ∧
    percentile_of_latencies (LatencyTestClient.run_latency_test example_latency_ops
      LatencyTestClient.connected) 1 2 = 1 / 2 := by
  have hfed : (LatencyTestClient.run_latency_test example_latency_ops
      LatencyTestClient.connected).latencies_fed = [500] := by decide
  have hvec : (LatencyTestClient.run_latency_test example_latency_ops
      LatencyTestClient.connected).latency_measurements_ = [2000] := by decide
  have h := (percentiles_taken_from_pending_send_times example_latency_ops
    LatencyTestClient.connected).2.1
  rw [hvec] at h
  refine ⟨hfed, hvec, ?_, ?_⟩
  · rw [h]
    simp [sorted_element_us, percentile_index]
    norm_num
  · unfold percentile_of_latencies
    rw [hfed]
    simp
    norm_num

/-! ## Snapshots taken while a frame is processed -/

theorem update_latency_stats_eq_statements (x : Nat) (c : HFTTCPClient) :
    update_latency_stats x c
      = recompute_average (raise_max x (lower_min x (add_to_total x
          (evict_oldest (push_sample x c))))) := by
  simp only [update_latency_stats, recompute_average, raise_max, lower_min, add_to_total,
    evict_oldest, push_sample]

theorem dispatch_frame_program_of_timestamp (sz : Sizes) (t : Nat) (msg : Message)
    (h : 0 < msg.timestamp) :
    dispatch_frame_program sz t msg =
      [Instr.lock Mutex.latency_mutex_,
       Instr.act (push_sample (sub64 t msg.timestamp)),
       Instr.act evict_oldest,
       Instr.unlock Mutex.latency_mutex_,
       Instr.lock Mutex.stats_mutex_,
       Instr.act (add_to_total (sub64 t msg.timestamp)),
       Instr.act (lower_min (sub64 t msg.timestamp)),
       Instr.act (raise_max (sub64 t msg.timestamp)),
       Instr.act recompute_average,
       Instr.unlock Mutex.stats_mutex_,
       Instr.act (process_message sz msg),
       Instr.lock Mutex.stats_mutex_,
       Instr.act count_received,
       Instr.unlock Mutex.stats_mutex_] := by
  have hpos : msg.timestamp > 0 := h
  simp [dispatch_frame_program, update_latency_stats_program, hpos]

theorem run_alone_dispatch_frame_program (sz : Sizes) (t : Nat) (msg : Message)
    (c : HFTTCPClient) :
    run_alone (dispatch_frame_program sz t msg) c = dispatch_frame sz t msg c := by
  unfold dispatch_frame_program dispatch_frame
  by_cases h : msg.timestamp > 0
  · simp only [h, if_true, update_latency_stats_program, List.cons_append, List.nil_append,
      run_alone, update_latency_stats_eq_statements, count_received]
  · simp only [h, if_false, List.nil_append, run_alone, count_received]

theorem step_receiver_at (sz : Sizes) (t : Nat) (msg : Message) (c : HFTTCPClient)
    (h : 0 < msg.timestamp) (k o : Nat) (snap : Option ClientStats) (st1 : Threads)
    (hk : k ≤ 14) (ho : o ≤ 3)
    (hex : ¬ (holds Mutex.stats_mutex_ ((dispatch_frame_program sz t msg).take k) = true ∧
      holds Mutex.stats_mutex_ (get_stats_program.take o) = true))
    (hs : step ThreadId.receiver (threads_at (dispatch_frame_program sz t msg) c k o snap)
      = some st1) :
    st1 = threads_at (dispatch_frame_program sz t msg) c (k + 1) o snap ∧ k + 1 ≤ 14 ∧
    ¬ (holds Mutex.stats_mutex_ ((dispatch_frame_program sz t msg).take (k + 1)) = true ∧
      holds Mutex.stats_mutex_ (get_stats_program.take o) = true) := by
  rw [dispatch_frame_program_of_timestamp sz t msg h] at hs hex ⊢
  interval_cases k <;> interval_cases o <;>
    simp [threads_at, step, Threads.program, Threads.advance, Threads.holder,
      Threads.set_holder, holds, holds_from, run_alone, get_stats_program] at hs hex ⊢ <;>
    (subst hs; simp)

theorem step_observer_at (sz : Sizes) (t : Nat) (msg : Message) (c : HFTTCPClient)
    (h : 0 < msg.timestamp) (k o : Nat) (snap : Option ClientStats) (st1 : Threads)
    (hk : k ≤ 14) (ho : o ≤ 3)
    (hex : ¬ (holds Mutex.stats_mutex_ ((dispatch_frame_program sz t msg).take k) = true ∧
      holds Mutex.stats_mutex_ (get_stats_program.take o) = true))
    (hs : step ThreadId.observer (threads_at (dispatch_frame_program sz t msg) c k o snap)
      = some st1) :
    st1 = threads_at (dispatch_frame_program sz t msg) c k (o + 1)
      (if o = 1 then
        some (get_stats (run_alone ((dispatch_frame_program sz t msg).take k) c))
       else snap) ∧
    o + 1 ≤ 3 ∧
    ¬ (holds Mutex.stats_mutex_ ((dispatch_frame_program sz t msg).take k) = true ∧
      holds Mutex.stats_mutex_ (get_stats_program.take (o + 1)) = true) ∧
    (o = 1 → holds Mutex.stats_mutex_ ((dispatch_frame_program sz t msg).take k) = false) := by
  rw [dispatch_frame_program_of_timestamp sz t msg h] at hs hex ⊢
  interval_cases k <;> interval_cases o <;>
    simp [threads_at, step, Threads.program, Threads.advance, Threads.holder,
      Threads.set_holder, holds, holds_from, run_alone, get_stats_program] at hs hex ⊢ <;>
    (subst hs; simp)

/-- What `stats_` holds at a point of the processing of a frame at which the receiving
thread does not hold `stats_mutex_`. -/
theorem stats_when_mutex_free (sz : Sizes) (t : Nat) (msg : Message) (c : HFTTCPClient)
    (h : 0 < msg.timestamp) (k : Nat) (hk : k ≤ 14)
    (hfree : holds Mutex.stats_mutex_ ((dispatch_frame_program sz t msg).take k) = false) :
    get_stats (run_alone ((dispatch_frame_program sz t msg).take k) c) = get_stats c ∨
    get_stats (run_alone ((dispatch_frame_program sz t msg).take k) c)
      = get_stats (update_latency_stats (sub64 t msg.timestamp) c) ∨
    get_stats (run_alone ((dispatch_frame_program sz t msg).take k) c)
      = get_stats (dispatch_frame sz t msg c) := by
  have hall := run_alone_dispatch_frame_program sz t msg c
  rw [dispatch_frame_program_of_timestamp sz t msg h] at hfree hall ⊢
  interval_cases k <;> simp [holds, holds_from] at hfree
  · exact Or.inl rfl
  · exact Or.inl rfl
  · exact Or.inl rfl
  · exact Or.inl rfl
  · exact Or.inl rfl
  · refine Or.inr (Or.inl ?_)
    rw [update_latency_stats_eq_statements]
    rfl
  · refine Or.inr (Or.inl ?_)
    rw [update_latency_stats_eq_statements]
    simp only [List.take, run_alone, process_message_eq]
    rfl
  · refine Or.inr (Or.inr ?_)
    rw [← hall]
    rfl

/-- Every execution of the two threads stays among the states `threads_at`, and the copy
made by `get_stats` is one of three values. -/
theorem run_schedule_threads_at (sz : Sizes) (t : Nat) (msg : Message) (c : HFTTCPClient)
    (h : 0 < msg.timestamp) (schedule : List ThreadId) (k o : Nat)
    (snap : Option ClientStats) (st : Threads) (hk : k ≤ 14) (ho : o ≤ 3)
    (hex : ¬ (holds Mutex.stats_mutex_ ((dispatch_frame_program sz t msg).take k) = true ∧
      holds Mutex.stats_mutex_ (get_stats_program.take o) = true))
    (hsnap : ∀ s, snap = some s →
      s = get_stats c ∨ s = get_stats (update_latency_stats (sub64 t msg.timestamp) c) ∨
      s = get_stats (dispatch_frame sz t msg c))
    (hr : run_schedule schedule (threads_at (dispatch_frame_program sz t msg) c k o snap)
      = some st) :
    ∃ k1 o1 snap1, st = threads_at (dispatch_frame_program sz t msg) c k1 o1 snap1 ∧
      k1 ≤ 14 ∧ o1 ≤ 3 ∧
      (∀ s, snap1 = some s →
        s = get_stats c ∨ s = get_stats (update_latency_stats (sub64 t msg.timestamp) c) ∨
        s = get_stats (dispatch_frame sz t msg c)) := by
  induction schedule generalizing k o snap with
  | nil =>
    simp only [run_schedule, Option.some.injEq] at hr
    exact ⟨k, o, snap, hr.symm, hk, ho, hsnap⟩
  | cons th rest ih =>
    simp only [run_schedule] at hr
    split at hr
    · cases hr
    · rename_i st1 hstep
      cases th with
      | receiver =>
        obtain ⟨e1, hk1, hex1⟩ := step_receiver_at sz t msg c h k o snap st1 hk ho hex hstep
        rw [e1] at hr
        exact ih (k + 1) o snap hk1 ho hex1 hsnap hr
      | observer =>
        obtain ⟨e1, ho1, hex1, hfree⟩ :=
          step_observer_at sz t msg c h k o snap st1 hk ho hex hstep
        rw [e1] at hr
        refine ih k (o + 1) _ hk ho1 hex1 ?_ hr
        intro s hs
        by_cases h1 : o = 1
        · simp only [h1, if_true, Option.some.injEq] at hs
          rw [← hs]
          exact stats_when_mutex_free sz t msg c h k hk (hfree h1)
        · simp only [h1, if_false] at hs
          exact hsnap s hs

theorem frame_and_snapshot_eq (sz : Sizes) (t : Nat) (msg : Message) (c : HFTTCPClient) :
    frame_and_snapshot sz t msg c = threads_at (dispatch_frame_program sz t msg) c 0 0 none := by
  simp [frame_and_snapshot, threads_at, run_alone, holds, holds_from]

/-- The execution in which `get_stats` runs after `update_latency_stats` has returned and
before the frame is counted. -/
theorem run_schedule_between_scopes (sz : Sizes) (t : Nat) (msg : Message) (c : HFTTCPClient)
    (h : 0 < msg.timestamp) :
    run_schedule
      (List.replicate 10 ThreadId.receiver ++ List.replicate 3 ThreadId.observer ++
        List.replicate 4 ThreadId.receiver)
      (frame_and_snapshot sz t msg c)
    = some
      { shared := dispatch_frame sz t msg c
        receiver := []
        observer := []
        stats_holder := none
        latency_holder := none
        snapshot := some (get_stats (update_latency_stats (sub64 t msg.timestamp) c)) } := by
  have hall := run_alone_dispatch_frame_program sz t msg c
  rw [dispatch_frame_program_of_timestamp sz t msg h] at hall
  simp only [run_alone] at hall
  rw [← hall, update_latency_stats_eq_statements, frame_and_snapshot,
    dispatch_frame_program_of_timestamp sz t msg h]
  simp [run_schedule, step, Threads.program, Threads.advance, Threads.holder,
    Threads.set_holder, get_stats_program, List.replicate, process_message_eq, get_stats]

theorem shared_when_receiver_done (sz : Sizes) (t : Nat) (msg : Message) (c : HFTTCPClient)
    (h : 0 < msg.timestamp) (k o : Nat) (snap : Option ClientStats) (hk : k ≤ 14)
    (hdone : (threads_at (dispatch_frame_program sz t msg) c k o snap).receiver = []) :
    (threads_at (dispatch_frame_program sz t msg) c k o snap).shared
      = dispatch_frame sz t msg c := by
  have hall := run_alone_dispatch_frame_program sz t msg c
  rw [dispatch_frame_program_of_timestamp sz t msg h] at hdone hall ⊢
  interval_cases k <;> simp [threads_at] at hdone
  rw [← hall]
  rfl

/-- Statement refuted for C26: an execution in which the `get_stats` snapshot shows a total
that includes the latency of a frame and a received count that does not include the frame.
The frame carries timestamp 1000 and is received at clock reading 5800 by a client with
fresh statistics; `get_stats` runs after `update_latency_stats` has returned and before the
frame is counted. The snapshot shows total 4800 and received count 0; when both threads
have finished, the statistics show 4800 and 1. -/
theorem snapshot_sees_latency_of_uncounted_frame :
    Option.map
      (fun st => (st.snapshot.map (fun s => (s.total_latency_ns, s.messages_received)),
        st.shared.stats_.total_latency_ns, st.shared.stats_.messages_received,
        st.receiver.length, st.observer.length))
      (run_schedule example_schedule
        (frame_and_snapshot example_sizes 5800 example_frame example_connected))
      = some (some (4800, 0), 4800, 1, 0, 0) := by
  decide

/-- C26 as amended: a frame with a timestamp is processed by one thread while another calls
`get_stats`, the steps of the two threads interleaved in any order that the mutexes allow.
The statements of `update_latency_stats` on the statistics (total, minimum, maximum,
average) are inside one scope of `stats_mutex_`: whatever the order, the snapshot is the
statistics as they were before the frame, or as `update_latency_stats` left them, or as
they are after the frame, never a state in between. The received count is incremented in a
second scope: there is an execution whose snapshot shows the total with the latency of the
frame and the received count without the frame. Run by one thread alone, the steps are
`dispatch_frame`, and every execution in which the receiving thread finishes leaves what
`dispatch_frame` leaves. -/
theorem latency_fields_atomic_received_count_separate (sz : Sizes) (t : Nat) (msg : Message)
    (c : HFTTCPClient) (h : 0 < msg.timestamp) :
    run_alone (dispatch_frame_program sz t msg) c = dispatch_frame sz t msg c ∧
    (∀ schedule st, run_schedule schedule (frame_and_snapshot sz t msg c) = some st →
      (∀ s, st.snapshot = some s →
        s = get_stats c ∨ s = get_stats (update_latency_stats (sub64 t msg.timestamp) c) ∨
        s = get_stats (dispatch_frame sz t msg c)) ∧
      (st.receiver = [] → st.shared = dispatch_frame sz t msg c)) ∧
    (∃ schedule st, run_schedule schedule (frame_and_snapshot sz t msg c) = some st ∧
      st.receiver = [] ∧ st.observer = [] ∧
      ∃ s, st.snapshot = some s ∧
        s.total_latency_ns = (c.stats_.total_latency_ns + sub64 t msg.timestamp) % 2 ^ 64 ∧
        s.messages_received = c.stats_.messages_received) := by
  refine ⟨run_alone_dispatch_frame_program sz t msg c, ?_, ?_⟩
  · intro schedule st hr
    rw [frame_and_snapshot_eq] at hr
    obtain ⟨k1, o1, snap1, e1, hk1, -, hsnap1⟩ :=
      run_schedule_threads_at sz t msg c h schedule 0 0 none st (by omega) (by omega)
        (by simp [holds, holds_from]) (by intro s hs; cases hs) hr
    subst e1
    exact ⟨hsnap1, shared_when_receiver_done sz t msg c h k1 o1 snap1 hk1⟩
  · exact ⟨_, _, run_schedule_between_scopes sz t msg c h, rfl, rfl, _, rfl,
      (update_latency_stats_aggregates _ c).1, update_latency_stats_messages_received _ c⟩

theorem latency_fields_atomic_received_count_separate_witness :
    0 < example_frame.timestamp ∧
    (∀ schedule st,
      run_schedule schedule
        (frame_and_snapshot example_sizes 5800 example_frame example_connected) = some st →
      ∀ s, st.snapshot = some s →
        s = get_stats example_connected ∨
        s = get_stats
          (update_latency_stats (sub64 5800 example_frame.timestamp) example_connected) ∨
        s = get_stats (dispatch_frame example_sizes 5800 example_frame example_connected)) ∧
    (get_stats (update_latency_stats (sub64 5800 example_frame.timestamp)
      example_connected)).total_latency_ns = 4800 ∧
    (get_stats (update_latency_stats (sub64 5800 example_frame.timestamp)
      example_connected)).messages_received = 0 :=
  ⟨by decide,
   fun schedule st hr =>
     ((latency_fields_atomic_received_count_separate example_sizes 5800 example_frame
       example_connected (by decide)).2.1 schedule st hr).1,
   by decide, by decide⟩

/-- While the receiving thread is inside the scope of `stats_mutex_` in
`update_latency_stats` (here after 6 of its steps), `get_stats` cannot start: it waits for
the mutex. -/
theorem get_stats_waits_inside_scope :
    Option.isNone
      (run_schedule (List.replicate 6 ThreadId.receiver ++ [ThreadId.observer])
        (frame_and_snapshot example_sizes 5800 example_frame example_connected)) = true := by
  decide

end hft
